import Mathlib

/-! # Ontology smart-contract layer: DeployCode codec, gas meter, WASM host functions and transaction handlers

A shallow embedding of `core/payload/deploy_code.go`,
`smartcontract/service/wasmvm/utils.go`, `runtime.go`, `contract.go` and
`wasm_service.go`, `smartcontract/service/native/native_service.go`,
`smartcontract/states/wasmContract.go` and `core/store/ledgerstore/tx_handler.go`, with
the properties proved about them.

Conventions
* a Go `[]byte` and a Go `string` are both `List Nat` (a list of byte values);
  `len` is `List.length`;
* a Go `error` result is an `Option` of an error value (`none` is `nil`);
* machine integers are `Nat`, reduced with `% 2 ^ w` where the Go arithmetic can wrap;
* a Go `panic` inside a host function is the `trap` outcome of `HostResult`; a host
  function takes the process state and returns it as the call leaves it;
* packages of the repository that the embedded files call but that are not among the
  sources (`common`, `storage`, `context`, `overlaydb`, `smartcontract`) are modelled
  from the specification, each
  such definition saying so; the memory access of the wagon interpreter follows that
  library, and its module parser and verifier, the hash functions, the engines behind
  `context.Engine` and the gas constants are parameters (`HostEnv`, `WasmLib`).
-/

set_option autoImplicit false

namespace Ontology

/-! ## core/payload/deploy_code.go -/

/-- A contract address: `common.Address`, 20 bytes. -/
abbrev Address := List Nat

/-- The zero address `common.ADDRESS_EMPTY`. -/
def ADDRESS_EMPTY : Address := List.replicate 20 0

/-- Go `type VmType byte`. -/
abbrev VmType := Nat

def NEOVM_TYPE : VmType := 1
def WASMVM_TYPE : VmType := 3

/-- The error values produced by the DeployCode code paths. The constructors
stand for the Go error values and messages:
`ErrIrregularData` = `common.ErrIrregularData`, `ErrUnexpectedEOF` = `io.ErrUnexpectedEOF`,
`invalidVmFlags` = "invalid vm flags: %d", `codeTooLong` = "[contract] Code too long!",
`nameTooLong` = "[contract] name too long!", `versionTooLong` = "[contract] version too long!",
`emailTooLong` = "[contract] email too long!",
`descriptionTooLong` = "[contract] description too long!",
`wrongVmFlags` = "wrong vm flags: %d", `notWasmContract` = "not wasm contract",
`notNeoContract` = "not neo contract",
`unreachable` = the `panic("unreachable")` of `VmType`. -/
inductive DeployError where
  | ErrIrregularData
  | ErrUnexpectedEOF
  | invalidVmFlags (flags : Nat)
  | codeTooLong
  | nameTooLong
  | versionTooLong
  | emailTooLong
  | descriptionTooLong
  | wrongVmFlags (flags : Nat)
  | notWasmContract
  | notNeoContract
  | unreachable
  deriving DecidableEq, Repr

/-- Go `type DeployCode struct`. -/
structure DeployCode where
  code : List Nat
  vmFlags : Nat
  Name : List Nat
  Version : List Nat
  Author : List Nat
  Email : List Nat
  Description : List Nat
  address : Address
  deriving DecidableEq, Repr

/-- The zero value `&DeployCode{}` (Go zeroes every field). -/
def DeployCode.zero : DeployCode :=
  { code := [], vmFlags := 0, Name := [], Version := [], Author := [], Email := [],
    Description := [], address := ADDRESS_EMPTY }

/-- Go `checkVmFlags`. -/
def checkVmFlags (vmFlags : Nat) : Option DeployError :=
  if vmFlags = 0 ∨ vmFlags = 1 ∨ vmFlags = 3 then none
  else some (.invalidVmFlags vmFlags)

/-- Go `(dc *DeployCode) VmType`; `none` is the `panic("unreachable")` branch. -/
def DeployCode.VmType (dc : DeployCode) : Option VmType :=
  if dc.vmFlags = 0 ∨ dc.vmFlags = 1 then some NEOVM_TYPE
  else if dc.vmFlags = 3 then some WASMVM_TYPE
  else none

def maxWasmCodeSize : Nat := 512 * 1024

/-- Go `validateDeployCode`. -/
def validateDeployCode (dep : DeployCode) : Option DeployError :=
  match checkVmFlags dep.vmFlags with
  | some err => some err
  | none =>
    match dep.VmType with
    | none => some .unreachable
    | some ty =>
      match (if ty = WASMVM_TYPE then
               (if dep.code.length > maxWasmCodeSize then some DeployError.codeTooLong else none)
             else
               (if dep.code.length > 1024 * 1024 then some DeployError.codeTooLong else none)) with
      | some err => some err
      | none =>
        if dep.Name.length > 252 then some .nameTooLong
        else if dep.Version.length > 252 then some .versionTooLong
        else if dep.Author.length > 252 then some .versionTooLong
        else if dep.Email.length > 252 then some .emailTooLong
        else if dep.Description.length > 65536 then some .descriptionTooLong
        else none

/-- Go `NewDeployCode`. -/
def NewDeployCode (code : List Nat) (vmType : VmType)
    (name version author email description : List Nat) : Except DeployError DeployCode :=
  let dc : DeployCode :=
    { code := code, vmFlags := vmType, Name := name, Version := version, Author := author,
      Email := email, Description := description, address := ADDRESS_EMPTY }
  match validateDeployCode dc with
  | some err => .error err
  | none => .ok dc

/-- Go `CreateDeployCode` (`vmType` is a `uint32`). -/
def CreateDeployCode (code : List Nat) (vmType : Nat)
    (name version author email desc : List Nat) : Except DeployError DeployCode :=
  if vmType > 255 then .error (.wrongVmFlags vmType)
  else
    let contract : DeployCode :=
      { code := code, vmFlags := vmType, Name := name, Version := version, Author := author,
        Email := email, Description := desc, address := ADDRESS_EMPTY }
    match validateDeployCode contract with
    | some err => .error err
    | none => .ok contract

/-- Go `(dc *DeployCode) GetRawCode`. -/
def DeployCode.GetRawCode (dc : DeployCode) : List Nat := dc.code

/-- Go `(dc *DeployCode) GetWasmCode`. -/
def DeployCode.GetWasmCode (dc : DeployCode) : Except DeployError (List Nat) :=
  match dc.VmType with
  | none => .error .unreachable
  | some ty => if ty = WASMVM_TYPE then .ok dc.code else .error .notWasmContract

/-- Go `(dc *DeployCode) GetNeoCode`. -/
def DeployCode.GetNeoCode (dc : DeployCode) : Except DeployError (List Nat) :=
  match dc.VmType with
  | none => .error .unreachable
  | some ty => if ty = NEOVM_TYPE then .ok dc.code else .error .notNeoContract

/-- The length caps of a DeployCode, as the data model states them. -/
def DeployCode.withinCaps (dep : DeployCode) : Prop :=
  (dep.vmFlags = 0 ∨ dep.vmFlags = 1 ∨ dep.vmFlags = 3) ∧
  (if dep.vmFlags = 3 then dep.code.length ≤ 512 * 1024 else dep.code.length ≤ 1024 * 1024) ∧
  dep.Name.length ≤ 252 ∧ dep.Version.length ≤ 252 ∧ dep.Author.length ≤ 252 ∧
  dep.Email.length ≤ 252 ∧ dep.Description.length ≤ 65536

instance (dep : DeployCode) : Decidable dep.withinCaps := by
  unfold DeployCode.withinCaps; infer_instance

/-! ## common.ZeroCopySink / common.ZeroCopySource (the wire primitives) -/

/-- The `k` little-endian bytes of `v`. -/
def leBytes : Nat → Nat → List Nat
  | 0, _ => []
  | k + 1, v => (v % 256) :: leBytes k (v / 256)

/-- The value of a little-endian byte string. -/
def leValue : List Nat → Nat
  | [] => 0
  | b :: bs => b + 256 * leValue bs

/-- The canonical size in bytes of the length prefix of `value`. -/
def getVarUintSize (value : Nat) : Nat :=
  if value < 0xFD then 1
  else if value ≤ 0xFFFF then 3
  else if value ≤ 0xFFFFFFFF then 5
  else 9

/-- Modelled from the spec: `common.ZeroCopySink.WriteVarUint` is not under src/.
The spec (4.1) gives length-prefixed fields whose prefix has one canonical form; the
prefix is the wire format's variable-length unsigned integer: a single byte below
0xFD, otherwise a marker byte 0xFD, 0xFE or 0xFF followed by the value in 2, 4 or 8
little-endian bytes, the shortest form being the canonical one. The result is the
bytes appended to the sink. -/
def WriteVarUint (value : Nat) : List Nat :=
  if value < 0xFD then [value]
  else if value ≤ 0xFFFF then 0xFD :: leBytes 2 value
  else if value ≤ 0xFFFFFFFF then 0xFE :: leBytes 4 value
  else 0xFF :: leBytes 8 value

/-- Modelled from the spec: `common.ZeroCopySink.WriteVarBytes` is not under src/;
`var_bytes(x)` of the wire layout is the length prefix followed by the bytes. -/
def WriteVarBytes (data : List Nat) : List Nat :=
  WriteVarUint data.length ++ data

/-- Modelled from the spec: `common.ZeroCopySink.WriteString` is not under src/;
`var_str(x)` of the wire layout is `var_bytes` of the string's bytes. -/
def WriteString (data : List Nat) : List Nat :=
  WriteVarBytes data

/-- Modelled from the spec: `common.ZeroCopySink.WriteByte` is not under src/;
`u8(x)` of the wire layout is the single byte. -/
def WriteByte (c : Nat) : List Nat := [c]

/-- Modelled from the spec: `common.ZeroCopySource` is not under src/. A source is a
byte string read front to back; it is represented by the bytes not yet read. -/
abbrev ZeroCopySource := List Nat

/-- The outcome of one read from a source: the value, the two flags the Go readers
return (`irregular`, `eof`) and the source after the read. -/
structure Read (α : Type) where
  data : α
  irregular : Bool
  eof : Bool
  source : ZeroCopySource
  deriving DecidableEq, Repr

/-- Modelled from the spec: `common.ZeroCopySource.NextByte` is not under src/.
Reads one byte; at the end of the input it reports `eof` (spec 4.1: `UnexpectedEof`
if truncated) and the value 0. -/
def NextByte (source : ZeroCopySource) : Read Nat :=
  match source with
  | [] => { data := 0, irregular := false, eof := true, source := [] }
  | b :: rest => { data := b, irregular := false, eof := false, source := rest }

/-- Modelled from the spec: `common.ZeroCopySource.NextBytes` is not under src/.
Reads `n` bytes; when fewer than `n` remain it reports `eof`, returns what is left
and leaves the source at its end. -/
def NextBytes (source : ZeroCopySource) (n : Nat) : Read (List Nat) :=
  if source.length < n then
    { data := source, irregular := false, eof := true, source := [] }
  else
    { data := source.take n, irregular := false, eof := false, source := source.drop n }

/-- Modelled from the spec: `common.ZeroCopySource.NextVarUint` is not under src/.
Reads a length prefix: `eof` when the input ends inside it (spec 4.1: `UnexpectedEof`
if truncated), `irregular` when it is not the canonical form of its value (spec 4.1:
`IrregularData` if any length prefix violates canonical form). -/
def NextVarUint (source : ZeroCopySource) : Read Nat :=
  let fb := NextByte source
  if fb.eof then { data := 0, irregular := false, eof := true, source := fb.source }
  else
    let width : Nat :=
      if fb.data = 0xFD then 2 else if fb.data = 0xFE then 4 else if fb.data = 0xFF then 8 else 0
    if width = 0 then
      { data := fb.data, irregular := false, eof := false, source := fb.source }
    else
      let buf := NextBytes fb.source width
      if buf.eof then { data := 0, irregular := false, eof := true, source := buf.source }
      else
        { data := leValue buf.data,
          irregular := decide (width + 1 ≠ getVarUintSize (leValue buf.data)),
          eof := false, source := buf.source }

/-- Modelled from the spec: `common.ZeroCopySource.NextVarBytes` is not under src/.
Reads `var_bytes`: the length prefix, then that many bytes. -/
def NextVarBytes (source : ZeroCopySource) : Read (List Nat) :=
  let count := NextVarUint source
  if count.data > 0 then
    let buf := NextBytes count.source count.data
    { data := buf.data, irregular := count.irregular, eof := buf.eof, source := buf.source }
  else
    { data := [], irregular := count.irregular, eof := count.eof, source := count.source }

/-- Modelled from the spec: `common.ZeroCopySource.NextString` is not under src/.
Reads `var_str`: `var_bytes` taken as a string. -/
def NextString (source : ZeroCopySource) : Read (List Nat) :=
  NextVarBytes source

/-! ## DeployCode: serialization, deserialization, address -/

/-- Go `(dc *DeployCode) Serialization`: the bytes appended to the sink. -/
def DeployCode.Serialization (dc : DeployCode) (sink : List Nat) : List Nat :=
  sink ++ WriteVarBytes dc.code ++ WriteByte dc.vmFlags ++ WriteString dc.Name ++
    WriteString dc.Version ++ WriteString dc.Author ++ WriteString dc.Email ++
    WriteString dc.Description

/-- Go `(dc *DeployCode) ToArray`. -/
def DeployCode.ToArray (dc : DeployCode) : List Nat :=
  dc.Serialization []

/-- Go `(dc *DeployCode) Deserialization`. The receiver is updated field by field as
the Go code does, so the result carries the receiver as it is left on every path,
together with the returned error. Only the last `eof` is tested. -/
def DeployCode.Deserialization (dc : DeployCode) (source : ZeroCopySource) :
    DeployCode × Option DeployError :=
  let r1 := NextVarBytes source
  let dc := { dc with code := r1.data }
  if r1.irregular then (dc, some .ErrIrregularData) else
  let r2 := NextByte r1.source
  let dc := { dc with vmFlags := r2.data }
  let r3 := NextString r2.source
  let dc := { dc with Name := r3.data }
  if r3.irregular then (dc, some .ErrIrregularData) else
  let r4 := NextString r3.source
  let dc := { dc with Version := r4.data }
  if r4.irregular then (dc, some .ErrIrregularData) else
  let r5 := NextString r4.source
  let dc := { dc with Author := r5.data }
  if r5.irregular then (dc, some .ErrIrregularData) else
  let r6 := NextString r5.source
  let dc := { dc with Email := r6.data }
  if r6.irregular then (dc, some .ErrIrregularData) else
  let r7 := NextString r6.source
  let dc := { dc with Description := r7.data }
  if r7.irregular then (dc, some .ErrIrregularData) else
  if r7.eof then (dc, some .ErrUnexpectedEOF) else
  match validateDeployCode dc with
  | some err => (dc, some err)
  | none => (dc, none)

/-- Go `(dc *DeployCode) Address`: the returned address and the receiver with its
memo field as the call leaves it. `AddressFromVmCode` (`common.AddressFromVmCode`,
the 20-byte hash of the code) is not under src/ and is a parameter. -/
def DeployCode.Address (AddressFromVmCode : List Nat → Address) (dc : DeployCode) :
    Address × DeployCode :=
  let dc :=
    if dc.address = ADDRESS_EMPTY then { dc with address := AddressFromVmCode dc.code } else dc
  (dc.address, dc)

/-! ## smartcontract/service/wasmvm: the state a host function sees -/

/-- Go `type ContractType byte` of runtime.go. -/
inductive ContractType where
  | NATIVE_CONTRACT
  | NEOVM_CONTRACT
  | WASMVM_CONTRACT
  | UNKOWN_CONTRACT
  deriving DecidableEq, Repr

/-- The reasons a host call traps (a Go `panic` inside a host function, recovered by
the VM) and the error values of the helpers. The constructors stand for the Go values:
`insufficientGas` = "[wasm_Service]Insufficient gas limit",
`memoryTooSmall` = "contract create len is greater than memory size",
`shortBuffer` = `io.ErrShortBuffer`, `shortWrite` = `io.ErrShortWrite`,
`runtimeFault` = a Go runtime panic (nil dereference, index or slice bounds out of range,
failed type assertion),
`notifyTooLong` = "notify length over the uplimit",
`raiseException` = "[RaiseException]Contract RaiseException:%s",
`deploy` = an error of the DeployCode constructors,
`contractDeployed` = "contract has been deployed",
`contractNotExist` = "contract is not exist.",
`unexpectedEOF` = `io.ErrUnexpectedEOF`, `irregularData` = `common.ErrIrregularData`,
`nativeNotRegistered` = "Native contract address %x haven't been registered.",
`nativeMethodUnsupported` = "Native contract %x doesn't support this function %s.",
`nativeExecute` = "[Invoke] Native serivce function execute error!" around a handler's error,
`nativeInvoke` = "[nativeInvoke]AppCall failed:" with the native error,
`notSupportedContractType` = "Not a supported contract type",
`validate` = an error of `checkOntoWasm`, numbered by its position in the function,
`external` = an error reported by a collaborator that is not under src/. -/
inductive HostError where
  | insufficientGas
  | memoryTooSmall
  | shortBuffer
  | shortWrite
  | runtimeFault
  | notifyTooLong
  | raiseException (msg : List Nat)
  | deploy (err : DeployError)
  | contractDeployed
  | contractNotExist
  | unexpectedEOF
  | irregularData
  | nativeNotRegistered
  | nativeMethodUnsupported
  | nativeExecute (code : Nat)
  | nativeInvoke (inner : HostError)
  | notSupportedContractType
  | validate (code : Nat)
  | external (code : Nat)
  deriving DecidableEq, Repr

/-- The result of a Go function that returns `(value, error)` and may also stop with a
runtime panic. -/
inductive Outcome (α : Type) where
  | ok (val : α)
  | error (err : HostError)
  | fault
  deriving DecidableEq, Repr

/-- Go `event.NotifyEventInfo`; `States` is the decoded notify payload. -/
structure NotifyEventInfo where
  ContractAddress : Address
  States : List Nat
  deriving DecidableEq, Repr

/-- Go `context.Context`: one frame of the execution-context stack. -/
structure Context where
  ContractAddress : Address
  Code : List Nat
  deriving DecidableEq, Repr

/-- Modelled from the spec: `context.ContextRef` (implemented by
`smartcontract.SmartContract`) is not under src/. The spec (3, 4.7) gives a stack of
execution contexts whose top is `current`, the frame below it `calling` and the bottom
`entry`, and a list of notifications. The stack grows at the end of `Contexts`. -/
structure ContextRef where
  Contexts : List Context
  Notifications : List NotifyEventInfo
  deriving DecidableEq, Repr

/-- Modelled from the spec: `ContextRef.PushContext`, push a frame. -/
def ContextRef.PushContext (ref : ContextRef) (ctx : Context) : ContextRef :=
  { ref with Contexts := ref.Contexts ++ [ctx] }

/-- Modelled from the spec: `ContextRef.PopContext`, pop the top frame. -/
def ContextRef.PopContext (ref : ContextRef) : ContextRef :=
  { ref with Contexts := ref.Contexts.dropLast }

/-- Modelled from the spec: `ContextRef.CurrentContext`, the top frame (`nil` when the
stack is empty). -/
def ContextRef.CurrentContext (ref : ContextRef) : Option Context :=
  ref.Contexts.getLast?

/-- Modelled from the spec: `ContextRef.PushNotifications`, append notifications. -/
def ContextRef.PushNotifications (ref : ContextRef) (ns : List NotifyEventInfo) : ContextRef :=
  { ref with Notifications := ref.Notifications ++ ns }

/-- Modelled from the spec: `storage.CacheDB` is not under src/. The spec (3, 4.2) gives
a key/value view with a contract keyspace (`get_contract`, `put_contract`,
`delete_contract`) and a user-store keyspace (`get`, `put`, `delete`, `iter(prefix)`);
the model is the live view of both keyspaces, each key held at most once after a
`put`. `iterFault = some (n, code)` is a backend whose iterators fail with error `code`
after yielding `n` entries. -/
structure CacheDB where
  contracts : List (Address × DeployCode)
  store : List (List Nat × List Nat)
  iterFault : Option (Nat × Nat)
  deriving DecidableEq, Repr

/-- Modelled from the spec: `get_contract(addr) -> Option<DeployCode>`. -/
def CacheDB.GetContract (db : CacheDB) (addr : Address) : Option DeployCode :=
  (db.contracts.find? (fun e => decide (e.1 = addr))).map (fun e => e.2)

/-- Modelled from the spec: `delete_contract(addr)`. -/
def CacheDB.DeleteContract (db : CacheDB) (addr : Address) : CacheDB :=
  { db with contracts := db.contracts.filter (fun e => decide (e.1 ≠ addr)) }

/-- Modelled from the spec: `put_contract(dc)`; the record is stored under the
address the DeployCode reports for itself. -/
def CacheDB.PutContract (AddressFromVmCode : List Nat → Address) (db : CacheDB)
    (dc : DeployCode) : CacheDB :=
  let addr := (dc.Address AddressFromVmCode).1
  { db with contracts := (addr, dc) :: db.contracts.filter (fun e => decide (e.1 ≠ addr)) }

/-- Modelled from the spec: `get(key)`. -/
def CacheDB.Get (db : CacheDB) (key : List Nat) : Option (List Nat) :=
  (db.store.find? (fun e => decide (e.1 = key))).map (fun e => e.2)

/-- Modelled from the spec: `delete(key)`. -/
def CacheDB.Delete (db : CacheDB) (key : List Nat) : CacheDB :=
  { db with store := db.store.filter (fun e => decide (e.1 ≠ key)) }

/-- Modelled from the spec: `put(key, val)`. -/
def CacheDB.Put (db : CacheDB) (key val : List Nat) : CacheDB :=
  { db with store := (key, val) :: db.store.filter (fun e => decide (e.1 ≠ key)) }

/-- Modelled from the spec: the iterator of `iter(prefix)`, a stable snapshot of the
entries it will yield, and the error it reports after the last of them. -/
structure StoreIterator where
  entries : List (List Nat × List Nat)
  err : Option HostError
  deriving DecidableEq, Repr

/-- Lexicographic byte order on the keys of two entries. -/
def keyLe (a b : List Nat × List Nat) : Prop := a.1 ≤ b.1

instance : DecidableRel keyLe := fun a b => by unfold keyLe; infer_instance

/-- Modelled from the spec: `iter(prefix)`, yielding `(key, value)` in ascending key
order over the live view, restricted to the keys that begin with `prefix`. -/
def CacheDB.NewIterator (db : CacheDB) (pre : List Nat) : StoreIterator :=
  let all := List.insertionSort keyLe (db.store.filter (fun e => pre.isPrefixOf e.1))
  match db.iterFault with
  | none => { entries := all, err := none }
  | some (n, code) => { entries := all.take n, err := some (.external code) }

/-- Go `WasmVmService`, the fields the host functions use. `GasLimit` is the counter
behind the shared pointer `GasLimit *uint64`, which `vm.AvaliableGas.GasLimit` aliases. -/
structure WasmVmService where
  CacheDB : CacheDB
  ContextRef : ContextRef
  Time : Nat
  Height : Nat
  PreExec : Bool
  GasLimit : Nat
  deriving DecidableEq, Repr

/-- Go `type Runtime struct`. -/
structure Runtime where
  Service : WasmVmService
  Input : List Nat
  Output : List Nat
  CallOutPut : List Nat
  deriving DecidableEq, Repr

/-- The VM as a host function reaches it through `*exec.Process`: the guest's linear
memory, the abort flag set by `Terminate`, and `HostData` (the Runtime). -/
structure Process where
  Memory : List Nat
  Terminated : Bool
  HostData : Runtime
  deriving DecidableEq, Repr

/-- The outcome of a host function: it returns `val` to the guest, or it traps (a Go
`panic`, recovered by the VM); either way the state is as the call left it. -/
inductive HostResult (α : Type) where
  | ok (val : α) (proc : Process)
  | trap (err : HostError) (proc : Process)
  deriving DecidableEq, Repr

/-- The state a host call leaves behind. -/
def HostResult.proc {α : Type} : HostResult α → Process
  | .ok _ p => p
  | .trap _ p => p

/-- Whether a host call trapped. -/
def HostResult.trapped {α : Type} : HostResult α → Bool
  | .ok _ _ => false
  | .trap _ _ => true

/-- The wagon interpreter's `exec.Process.MemSize`: the size of the linear memory. -/
def Process.MemSize (proc : Process) : Nat := proc.Memory.length

/-- The wagon interpreter's `exec.Process.Terminate`: stop the current module. -/
def Process.Terminate (proc : Process) : Process := { proc with Terminated := true }

/-- The `exec.Process.ReadAt(p, off)` of the wagon interpreter (an external library), for a
zeroed buffer `p` of `n` bytes: it copies `length` bytes of memory from offset `off`
into `p`, where `length` is `n` or, when the memory ends before `off + n`, what is left
after `off`, and reports `io.ErrShortBuffer` when `length < n`. An offset beyond the
memory is a slice-bounds runtime panic (`none`). The result is the buffer, the count
and the error. -/
def Process.ReadAt (proc : Process) (n off : Nat) : Option (List Nat × Nat × Option HostError) :=
  let mem := proc.Memory
  if mem.length < off then none
  else
    let length := if mem.length < n + off then mem.length - off else n
    let buf := (mem.drop off).take length ++ List.replicate (n - length) 0
    some (buf, length, if length < n then some .shortBuffer else none)

/-- The `exec.Process.WriteAt(p, off)` of the wagon interpreter (an external library): it
copies the first `length` bytes of `p` into memory at offset `off`, where `length` is
`len(p)` or, when the memory ends before `off + len(p)`, what is left after `off`, and
reports `io.ErrShortWrite` when `length < len(p)`. An offset beyond the memory is a
slice-bounds runtime panic (`none`). The result is the count, the error and the process
with its memory updated. -/
def Process.WriteAt (proc : Process) (p : List Nat) (off : Nat) :
    Option (Nat × Option HostError × Process) :=
  let mem := proc.Memory
  if mem.length < off then none
  else
    let length := if mem.length < p.length + off then mem.length - off else p.length
    let mem2 := mem.take off ++ p.take length ++ mem.drop (off + length)
    some (length, if length < p.length then some .shortWrite else none,
      { proc with Memory := mem2 })

/-! ## smartcontract/service/wasmvm/utils.go -/

/-- A function signature of a module: `wasm.FunctionSig` of the wagon library. -/
structure FunctionSig where
  ParamTypes : List Nat
  ReturnTypes : List Nat
  deriving DecidableEq, Repr

/-- An export of a module: `wasm.ExportEntry` of the wagon library. -/
structure ExportEntry where
  FieldStr : String
  Kind : Nat
  Index : Nat
  deriving DecidableEq, Repr

/-- The export kind `wasm.ExternalFunction`. -/
def ExternalFunction : Nat := 0

/-- A parsed module, `wasm.Module` of the wagon library, with the sections
`checkOntoWasm` looks at; a section that is absent is a nil pointer. `Export` is the
`Entries` map of the export section (name, entry), `Function` the `Types` slice of the
function section, `Types` the `Entries` slice of the type section. -/
structure Module where
  Start : Option Nat
  Export : Option (List (String × ExportEntry))
  Function : Option (List Nat)
  Types : Option (List FunctionSig)
  deriving DecidableEq, Repr

/-- A compiled module: `exec.CompiledModule` of the wagon library. -/
structure CompiledModule where
  RawModule : Module
  deriving DecidableEq, Repr

/-- Go `checkOntoWasm`. Dereferencing an absent section and indexing outside a slice
are Go runtime panics (`fault`). -/
def checkOntoWasm (m : Module) : Outcome Unit :=
  if m.Start.isSome then .error (.validate 1)
  else
    match m.Export with
    | none => .error (.validate 2)
    | some entries =>
      if entries.length ≠ 1 then .error (.validate 3)
      else
        match entries.find? (fun e => decide (e.1 = "invoke")) with
        | none => .error (.validate 4)
        | some (_, entry) =>
          if entry.Kind ≠ ExternalFunction then .error (.validate 5)
          else
            match m.Function with
            | none => .fault
            | some ftypes =>
              match ftypes[entry.Index]? with
              | none => .fault
              | some fidx =>
                match m.Types with
                | none => .fault
                | some sigs =>
                  match sigs[fidx]? with
                  | none => .fault
                  | some ftype =>
                    if ftype.ReturnTypes.length > 0 then .error (.validate 6)
                    else if ftype.ParamTypes.length > 0 then .error (.validate 7)
                    else .ok ()

/-- The wagon library's part in `ReadWasmModule`: `wasm.ReadModule` (with imports
resolved against the host module `env`), `validate.VerifyModule`,
`validate.VerifyWasmCodeFromRust` and `exec.CompileModule`, each with the error it may
report. -/
structure WasmLib where
  ReadModule : List Nat → Except Nat Module
  VerifyModule : Module → Option Nat
  VerifyWasmCodeFromRust : List Nat → Option Nat
  CompileModule : Module → Option Nat

/-- Go `ReadWasmModule`. -/
def ReadWasmModule (lib : WasmLib) (Code : List Nat) (verify : Bool) : Outcome CompiledModule :=
  match lib.ReadModule Code with
  | .error code => .error (.external code)
  | .ok m =>
    let checked : Outcome Unit :=
      if verify then
        match checkOntoWasm m with
        | .error err => .error err
        | .fault => .fault
        | .ok _ =>
          match lib.VerifyModule m with
          | some code => .error (.external code)
          | none =>
            match lib.VerifyWasmCodeFromRust Code with
            | some code => .error (.external code)
            | none => .ok ()
      else .ok ()
    match checked with
    | .error err => .error err
    | .fault => .fault
    | .ok _ =>
      match lib.CompileModule m with
      | some code => .error (.external code)
      | none => .ok { RawModule := m }

/-- Go `ReadWasmMemory`. `ptr` and `len` are `uint32`; the sum is taken in `uint64`. -/
def ReadWasmMemory (proc : Process) (ptr len : Nat) : Outcome (List Nat) :=
  if proc.MemSize < (ptr + len) % 2 ^ 64 then .error .memoryTooSmall
  else
    match proc.ReadAt len ptr with
    | none => .fault
    | some (_, _, some err) => .error err
    | some (keybytes, _, none) => .ok keybytes

/-! ## smartcontract/service/wasmvm/runtime.go -/

/-- Go `(self *Runtime) checkGas`: `gaslimit` is a `uint64`, the subtraction is the
`uint64` one. -/
def checkGas (proc : Process) (gaslimit : Nat) : HostResult Unit :=
  let gas := proc.HostData.Service.GasLimit
  if gas ≥ gaslimit then
    .ok () { proc with HostData := { proc.HostData with Service :=
      { proc.HostData.Service with GasLimit := (gas + 2 ^ 64 - gaslimit) % 2 ^ 64 } } }
  else
    .trap .insufficientGas proc

/-! ## smartcontract/states/wasmContract.go -/

/-- Go `states.WasmContractParam`. -/
structure WasmContractParam where
  Address : Address
  Args : List Nat
  deriving DecidableEq, Repr

/-- Go `(this *WasmContractParam) Serialization`: the bytes appended to the sink
(`WriteAddress` writes the 20 address bytes). -/
def WasmContractParam.Serialization (this : WasmContractParam) (sink : List Nat) : List Nat :=
  sink ++ this.Address ++ WriteVarBytes this.Args

/-! ## smartcontract/service/native/native_service.go -/

/-- Go `states.ContractInvokeParam`. -/
structure ContractInvokeParam where
  Version : Nat
  Address : Address
  Method : List Nat
  Args : List Nat
  deriving DecidableEq, Repr

/-- Go `type NativeService struct`, without `ServiceMap` (see `NativeRegistry`). -/
structure NativeService where
  CacheDB : CacheDB
  Notifications : List NotifyEventInfo
  InvokeParam : ContractInvokeParam
  Input : List Nat
  Height : Nat
  Time : Nat
  ContextRef : ContextRef
  PreExec : Bool
  deriving DecidableEq, Repr

/-- Go `type Handler func(native *NativeService) ([]byte, error)`: the result bytes,
the error and the service as the handler leaves it. -/
abbrev Handler := NativeService → (List Nat × Option Nat) × NativeService

/-- Go `var Contracts map[common.Address]RegisterService` together with the
`ServiceMap` each registrar fills in: for a registered address, the handler of each
method name it registers. -/
abbrev NativeRegistry := Address → Option (List Nat → Option Handler)

/-- Go `BYTE_FALSE`. -/
def BYTE_FALSE : List Nat := [0]

/-- Go `(this *NativeService) Invoke`: the result bytes, the error and the service as
the call leaves it. -/
def NativeService.Invoke (Contracts : NativeRegistry) (this : NativeService) :
    (List Nat × Option HostError) × NativeService :=
  let contract := this.InvokeParam
  match Contracts contract.Address with
  | none => ((BYTE_FALSE, some .nativeNotRegistered), this)
  | some services =>
    match services contract.Method with
    | none => ((BYTE_FALSE, some .nativeMethodUnsupported), this)
    | some service =>
      let args := this.Input
      let this := { this with Input := contract.Args }
      let this := { this with ContextRef :=
        this.ContextRef.PushContext { ContractAddress := contract.Address, Code := [] } }
      let notifications := this.Notifications
      let this := { this with Notifications := [] }
      match service this with
      | ((result, some code), this) => ((result, some (.nativeExecute code)), this)
      | ((result, none), this) =>
        let this := { this with ContextRef := this.ContextRef.PopContext }
        let this := { this with ContextRef := this.ContextRef.PushNotifications this.Notifications }
        let this := { this with Notifications := notifications }
        let this := { this with Input := args }
        ((result, none), this)

/-! ## smartcontract/service/wasmvm/runtime.go and contract.go: host functions -/

/-- Go `types.TransactionType`, the two kinds an engine is created for. -/
inductive TransactionType where
  | InvokeNeo
  | InvokeWasm
  deriving DecidableEq, Repr

/-- Go `context.Engine`, the interface `NewExecuteEngine` returns: `Invoke` runs the
engine over the state it shares with its caller (cache, context stack, notifications,
gas counter) and returns the value (`none` is a nil interface), the error and that
state as it leaves it. -/
structure Engine where
  Invoke : WasmVmService → (Option (List Nat) × Option Nat) × WasmVmService

/-- What the host functions use that is not under src/: the gas constants of the
package, the hash functions, the notify codec, the native registry and the engine
factory of the context (`ContextRef.NewExecuteEngine`), the stack-VM argument and
result codecs (`util.GenerateNeoVMParamEvalStack`, `util.SetNeoServiceParamAndEngine`,
`neotypes.BuildResultFromNeo`), and the wagon library. -/
structure HostEnv where
  SHA256_GAS : Nat
  CALL_CONTRACT_GAS : Nat
  NATIVE_INVOKE_GAS : Nat
  CONTRACT_CREATE_GAS : Nat
  UINT_DEPLOY_CODE_LEN_GAS : Nat
  PER_UNIT_CODE_LEN : Nat
  MAX_NOTIFY_LENGTH : Nat
  CROSSVM_VERSION : Nat
  AddressFromVmCode : List Nat → Address
  sha256 : List Nat → List Nat
  DeserializeNotify : List Nat → List Nat
  IsNativeContract : Address → Bool
  Contracts : NativeRegistry
  NewExecuteEngine : List Nat → TransactionType → WasmVmService → Except Nat Engine
  GenerateNeoVMParamEvalStack : List Nat → Except Nat (List Nat)
  SetNeoServiceParamAndEngine : Address → Engine → List Nat → Except Nat Engine
  BuildResultFromNeo : List Nat → Except Nat (List Nat)
  lib : WasmLib

/-- The local `cost` of `Sha256`: `uint64((slen/1024)+1) * SHA256_GAS`, the sum in
`uint32`, the product in `uint64`. -/
def Sha256Cost (SHA256_GAS slen : Nat) : Nat :=
  (((slen / 1024 + 1) % 2 ^ 32) * SHA256_GAS) % 2 ^ 64

/-- Go `Sha256`. -/
def Sha256 (env : HostEnv) (proc : Process) (src slen dst : Nat) : HostResult Unit :=
  let cost := Sha256Cost env.SHA256_GAS slen
  match checkGas proc cost with
  | .trap err proc => .trap err proc
  | .ok _ proc =>
    match ReadWasmMemory proc src slen with
    | .error err => .trap err proc
    | .fault => .trap .runtimeFault proc
    | .ok bs =>
      let hash := env.sha256 bs
      match proc.WriteAt hash dst with
      | none => .trap .runtimeFault proc
      | some (_, some err, proc) => .trap err proc
      | some (_, none, proc) => .ok () proc

/-- Go `Ret`. -/
def Ret (proc : Process) (ptr len : Nat) : HostResult Unit :=
  match ReadWasmMemory proc ptr len with
  | .error err => .trap err proc
  | .fault => .trap .runtimeFault proc
  | .ok bs =>
    let proc := { proc with HostData := { proc.HostData with Output := bs } }
    .ok () proc.Terminate

/-- Go `Debug`; the log line is not part of the state. -/
def Debug (proc : Process) (ptr len : Nat) : HostResult Unit :=
  match ReadWasmMemory proc ptr len with
  | .error _ => .ok () proc
  | .fault => .trap .runtimeFault proc
  | .ok _ => .ok () proc

/-- Go `Notify`. -/
def Notify (env : HostEnv) (proc : Process) (ptr l : Nat) : HostResult Unit :=
  if l ≥ env.MAX_NOTIFY_LENGTH then .trap .notifyTooLong proc
  else
    match ReadWasmMemory proc ptr l with
    | .error err => .trap err proc
    | .fault => .trap .runtimeFault proc
    | .ok bs =>
      match proc.HostData.Service.ContextRef.CurrentContext with
      | none => .trap .runtimeFault proc
      | some ctx =>
        let notify : NotifyEventInfo :=
          { ContractAddress := ctx.ContractAddress, States := env.DeserializeNotify bs }
        .ok () { proc with HostData := { proc.HostData with Service :=
          { proc.HostData.Service with ContextRef :=
              proc.HostData.Service.ContextRef.PushNotifications [notify] } } }

/-- Go `RaiseException`, the host function `panic`. -/
def RaiseException (proc : Process) (ptr len : Nat) : HostResult Unit :=
  match ReadWasmMemory proc ptr len with
  | .error _ => .ok () proc
  | .fault => .trap .runtimeFault proc
  | .ok bs => .trap (.raiseException bs) proc

/-- Go `(self *Runtime) getContractType`: the type and the error; `none` is the
runtime panic of `VmType` on a stored record with an invalid flag. -/
def getContractType (env : HostEnv) (self : Runtime) (addr : Address) :
    Option (ContractType × Option HostError) :=
  if env.IsNativeContract addr then some (.NATIVE_CONTRACT, none)
  else
    match self.Service.CacheDB.GetContract addr with
    | none => some (.UNKOWN_CONTRACT, some .contractNotExist)
    | some dep =>
      match dep.VmType with
      | none => none
      | some ty =>
        if ty = WASMVM_TYPE then some (.WASMVM_CONTRACT, none)
        else some (.NEOVM_CONTRACT, none)

/-- Go `serializeStorageKey`. -/
def serializeStorageKey (contractAddress : Address) (key : List Nat) : List Nat :=
  contractAddress ++ key

/-- The `case NATIVE_CONTRACT` arm of `CallContract`: decode
`u8(version) | var_str(method) | var_bytes(args)`, charge `NATIVE_INVOKE_GAS`, run the
native service over the caller's cache and context. -/
def CallContract_native (env : HostEnv) (proc : Process) (contractAddress : Address)
    (inputs : List Nat) : HostResult (List Nat) :=
  let source : ZeroCopySource := inputs
  let ver := NextByte source
  if ver.eof then .trap .unexpectedEOF proc else
  let method := NextString ver.source
  if method.irregular then .trap .irregularData proc else
  if method.eof then .trap .unexpectedEOF proc else
  let args := NextVarBytes method.source
  if args.irregular then .trap .irregularData proc else
  if args.eof then .trap .unexpectedEOF proc else
  let contract : ContractInvokeParam :=
    { Version := ver.data, Address := contractAddress, Method := method.data, Args := args.data }
  match checkGas proc env.NATIVE_INVOKE_GAS with
  | .trap err proc => .trap err proc
  | .ok _ proc =>
    let native : NativeService :=
      { CacheDB := proc.HostData.Service.CacheDB, Notifications := [], InvokeParam := contract,
        Input := [], Height := proc.HostData.Service.Height, Time := proc.HostData.Service.Time,
        ContextRef := proc.HostData.Service.ContextRef, PreExec := proc.HostData.Service.PreExec }
    match native.Invoke env.Contracts with
    | ((tmpRes, err), native) =>
      let proc := { proc with HostData := { proc.HostData with Service :=
        { proc.HostData.Service with CacheDB := native.CacheDB, ContextRef := native.ContextRef } } }
      match err with
      | some err => .trap (.nativeInvoke err) proc
      | none => .ok tmpRes proc

/-- The `case WASMVM_CONTRACT` arm of `CallContract`. -/
def CallContract_wasm (env : HostEnv) (proc : Process) (contractAddress : Address)
    (inputs : List Nat) : HostResult (List Nat) :=
  let conParam : WasmContractParam := { Address := contractAddress, Args := inputs }
  let param := conParam.Serialization []
  match env.NewExecuteEngine param .InvokeWasm proc.HostData.Service with
  | .error code => .trap (.external code) proc
  | .ok newservice =>
    match newservice.Invoke proc.HostData.Service with
    | ((tmpRes, err), service) =>
      let proc := { proc with HostData := { proc.HostData with Service := service } }
      match err with
      | some code => .trap (.external code) proc
      | none =>
        match tmpRes with
        | none => .trap .runtimeFault proc
        | some bytes => .ok bytes proc

/-- The `case NEOVM_CONTRACT` arm of `CallContract`. -/
def CallContract_neo (env : HostEnv) (proc : Process) (contractAddress : Address)
    (inputs : List Nat) : HostResult (List Nat) :=
  match env.GenerateNeoVMParamEvalStack inputs with
  | .error code => .trap (.external code) proc
  | .ok evalstack =>
    match env.NewExecuteEngine [] .InvokeNeo proc.HostData.Service with
    | .error code => .trap (.external code) proc
    | .ok neoservice =>
      match env.SetNeoServiceParamAndEngine contractAddress neoservice evalstack with
      | .error code => .trap (.external code) proc
      | .ok neoservice =>
        match neoservice.Invoke proc.HostData.Service with
        | ((tmp, err), service) =>
          let proc := { proc with HostData := { proc.HostData with Service := service } }
          match err with
          | some code => .trap (.external code) proc
          | none =>
            match tmp with
            | none => .ok [] proc
            | some val =>
              match env.BuildResultFromNeo val with
              | .error code => .trap (.external code) proc
              | .ok bytes => .ok (env.CROSSVM_VERSION :: bytes) proc

/-- Go `CallContract`. -/
def CallContract (env : HostEnv) (proc : Process) (contractAddr inputPtr inputLen : Nat) :
    HostResult Nat :=
  match checkGas proc env.CALL_CONTRACT_GAS with
  | .trap err proc => .trap err proc
  | .ok _ proc =>
    match proc.ReadAt 20 contractAddr with
    | none => .trap .runtimeFault proc
    | some (_, _, some err) => .trap err proc
    | some (contractAddress, _, none) =>
      match ReadWasmMemory proc inputPtr inputLen with
      | .error err => .trap err proc
      | .fault => .trap .runtimeFault proc
      | .ok inputs =>
        match getContractType env proc.HostData contractAddress with
        | none => .trap .runtimeFault proc
        | some (_, some err) => .trap err proc
        | some (contracttype, none) =>
          let called : HostResult (List Nat) :=
            match contracttype with
            | .NATIVE_CONTRACT => CallContract_native env proc contractAddress inputs
            | .WASMVM_CONTRACT => CallContract_wasm env proc contractAddress inputs
            | .NEOVM_CONTRACT => CallContract_neo env proc contractAddress inputs
            | .UNKOWN_CONTRACT => .trap .notSupportedContractType proc
          match called with
          | .trap err proc => .trap err proc
          | .ok result proc =>
            let proc := { proc with HostData := { proc.HostData with CallOutPut := result } }
            .ok (proc.HostData.CallOutPut.length % 2 ^ 32) proc

/-- Go `(self *Runtime) isContractExist`. -/
def isContractExist (self : Runtime) (contractAddress : Address) : Bool :=
  (self.Service.CacheDB.GetContract contractAddress).isSome

/-- The local `cost` of `ContractCreate` and `ContractMigrate`:
`CONTRACT_CREATE_GAS + uint64(uint64(codeLen)/PER_UNIT_CODE_LEN)*UINT_DEPLOY_CODE_LEN_GAS`
in `uint64`. -/
def createCost (env : HostEnv) (codeLen : Nat) : Nat :=
  (env.CONTRACT_CREATE_GAS +
    ((codeLen / env.PER_UNIT_CODE_LEN) * env.UINT_DEPLOY_CODE_LEN_GAS) % 2 ^ 64) % 2 ^ 64

/-- The part `ContractCreate` and `ContractMigrate` share, line for line: read the code,
charge the cost, read the five metadata strings, build and validate the DeployCode,
take its WASM code, load and verify the module, compute the address and refuse one that
is already deployed. It yields the DeployCode (with its address memoized) and the
address. -/
def createPreamble (env : HostEnv) (proc : Process)
    (codePtr codeLen vmType namePtr nameLen verPtr verLen authorPtr authorLen
      emailPtr emailLen descPtr descLen : Nat) : HostResult (DeployCode × Address) :=
  match ReadWasmMemory proc codePtr codeLen with
  | .error err => .trap err proc
  | .fault => .trap .runtimeFault proc
  | .ok code =>
  match checkGas proc (createCost env codeLen) with
  | .trap err proc => .trap err proc
  | .ok _ proc =>
  match ReadWasmMemory proc namePtr nameLen with
  | .error err => .trap err proc
  | .fault => .trap .runtimeFault proc
  | .ok name =>
  match ReadWasmMemory proc verPtr verLen with
  | .error err => .trap err proc
  | .fault => .trap .runtimeFault proc
  | .ok version =>
  match ReadWasmMemory proc authorPtr authorLen with
  | .error err => .trap err proc
  | .fault => .trap .runtimeFault proc
  | .ok author =>
  match ReadWasmMemory proc emailPtr emailLen with
  | .error err => .trap err proc
  | .fault => .trap .runtimeFault proc
  | .ok email =>
  match ReadWasmMemory proc descPtr descLen with
  | .error err => .trap err proc
  | .fault => .trap .runtimeFault proc
  | .ok desc =>
  match CreateDeployCode code vmType name version author email desc with
  | .error err => .trap (.deploy err) proc
  | .ok dep =>
  match dep.GetWasmCode with
  | .error err => .trap (.deploy err) proc
  | .ok wasmCode =>
  match ReadWasmModule env.lib wasmCode true with
  | .error err => .trap err proc
  | .fault => .trap .runtimeFault proc
  | .ok _ =>
  match dep.Address env.AddressFromVmCode with
  | (contractAddr, dep) =>
  if isContractExist proc.HostData contractAddr then .trap .contractDeployed proc
  else .ok (dep, contractAddr) proc

/-- Go `ContractCreate`. The error of the final `WriteAt` is not looked at. -/
def ContractCreate (env : HostEnv) (proc : Process)
    (codePtr codeLen vmType namePtr nameLen verPtr verLen authorPtr authorLen
      emailPtr emailLen descPtr descLen newAddressPtr : Nat) : HostResult Nat :=
  match createPreamble env proc codePtr codeLen vmType namePtr nameLen verPtr verLen
      authorPtr authorLen emailPtr emailLen descPtr descLen with
  | .trap err proc => .trap err proc
  | .ok (dep, contractAddr) proc =>
    let proc := { proc with HostData := { proc.HostData with Service :=
      { proc.HostData.Service with CacheDB :=
          proc.HostData.Service.CacheDB.PutContract env.AddressFromVmCode dep } } }
    match proc.WriteAt contractAddr newAddressPtr with
    | none => .trap .runtimeFault proc
    | some (length, _, proc) => .ok (length % 2 ^ 32) proc

/-- Go `ContractMigrate`. -/
def ContractMigrate (env : HostEnv) (proc : Process)
    (codePtr codeLen vmType namePtr nameLen verPtr verLen authorPtr authorLen
      emailPtr emailLen descPtr descLen newAddressPtr : Nat) : HostResult Nat :=
  match createPreamble env proc codePtr codeLen vmType namePtr nameLen verPtr verLen
      authorPtr authorLen emailPtr emailLen descPtr descLen with
  | .trap err proc => .trap err proc
  | .ok (dep, contractAddr) proc =>
    match proc.HostData.Service.ContextRef.CurrentContext with
    | none => .trap .runtimeFault proc
    | some ctx =>
      let oldAddress := ctx.ContractAddress
      let db := proc.HostData.Service.CacheDB.PutContract env.AddressFromVmCode dep
      let db := db.DeleteContract oldAddress
      let iter := db.NewIterator oldAddress
      let db := iter.entries.foldl
        (fun db e => (db.Put (serializeStorageKey contractAddr (e.1.drop 20)) e.2).Delete e.1) db
      let proc := { proc with HostData := { proc.HostData with Service :=
        { proc.HostData.Service with CacheDB := db } } }
      match iter.err with
      | some err => .trap err proc
      | none =>
        match proc.WriteAt contractAddr newAddressPtr with
        | none => .trap .runtimeFault proc
        | some (_, some err, proc) => .trap err proc
        | some (length, none, proc) => .ok (length % 2 ^ 32) proc

/-- Go `ContractDestroy`. -/
def ContractDestroy (proc : Process) : HostResult Unit :=
  match proc.HostData.Service.ContextRef.CurrentContext with
  | none => .trap .runtimeFault proc
  | some ctx =>
    let contractAddress := ctx.ContractAddress
    let iter := proc.HostData.Service.CacheDB.NewIterator contractAddress
    let db := iter.entries.foldl (fun db e => db.Delete e.1) proc.HostData.Service.CacheDB
    let proc := { proc with HostData := { proc.HostData with Service :=
      { proc.HostData.Service with CacheDB := db } } }
    match iter.err with
    | some err => .trap err proc
    | none =>
      let proc := { proc with HostData := { proc.HostData with Service :=
        { proc.HostData.Service with CacheDB :=
            proc.HostData.Service.CacheDB.DeleteContract contractAddress } } }
      .ok () proc.Terminate

/-- A small WASM-flagged DeployCode used to instantiate the theorems below. -/
def sampleDeploy : DeployCode :=
  { code := [0, 97, 115, 109], vmFlags := 3, Name := [110], Version := [118],
    Author := [97], Email := [101], Description := [100, 101], address := ADDRESS_EMPTY }

/-! ## Auxiliary definitions for stating the claims -/

/-- The process with its shared gas counter set to `g` and nothing else changed. -/
def Process.withGasLimit (proc : Process) (g : Nat) : Process :=
  { proc with HostData := { proc.HostData with Service :=
    { proc.HostData.Service with GasLimit := g } } }

/-- A run of `checkGas` calls with the given amounts, each on the state the previous
call left (a call that traps leaves the state as it is): the final state and the sum of
the amounts of the calls that did not trap. -/
def chargeSequence (proc : Process) : List Nat → Process × Nat
  | [] => (proc, 0)
  | n :: ns =>
    match checkGas proc n with
    | .ok _ p => ((chargeSequence p ns).1, n + (chargeSequence p ns).2)
    | .trap _ p => chargeSequence p ns

/-- A stand-in for the address hash, used to instantiate theorems: 20 bytes, the first
one the byte sum of the code plus one. -/
def sampleHash (code : List Nat) : Address := (code.sum % 255 + 1) :: List.replicate 19 0

/-- A small environment used to instantiate theorems: gas costs of 10 per unit, code
length unit 1024, `sampleHash` for the address hash, a constant digest, no native
contract, no engine, and a wagon library that accepts every module. -/
def sampleEnv : HostEnv :=
  { SHA256_GAS := 10, CALL_CONTRACT_GAS := 10, NATIVE_INVOKE_GAS := 10,
    CONTRACT_CREATE_GAS := 10, UINT_DEPLOY_CODE_LEN_GAS := 10, PER_UNIT_CODE_LEN := 1024,
    MAX_NOTIFY_LENGTH := 1024, CROSSVM_VERSION := 0,
    AddressFromVmCode := sampleHash,
    sha256 := fun _ => List.replicate 32 0,
    DeserializeNotify := fun bs => bs,
    IsNativeContract := fun _ => false,
    Contracts := fun _ => none,
    NewExecuteEngine := fun _ _ _ => .error 0,
    GenerateNeoVMParamEvalStack := fun bs => .ok bs,
    SetNeoServiceParamAndEngine := fun _ e _ => .ok e,
    BuildResultFromNeo := fun bs => .ok bs,
    lib := { ReadModule := fun _ => .ok { Start := none, Export := none, Function := none,
                                          Types := none },
             VerifyModule := fun _ => none, VerifyWasmCodeFromRust := fun _ => none,
             CompileModule := fun _ => none } }

/-- A small process used to instantiate theorems: 64 bytes of zeroed memory, a gas
limit of 100, an empty cache and one context frame. -/
def sampleProc : Process :=
  { Memory := List.replicate 64 0, Terminated := false,
    HostData :=
      { Service :=
          { CacheDB := { contracts := [], store := [], iterFault := none },
            ContextRef := { Contexts := [{ ContractAddress := List.replicate 20 7, Code := [] }],
                            Notifications := [] },
            Time := 0, Height := 1, PreExec := false, GasLimit := 100 },
        Input := [], Output := [], CallOutPut := [] } }

/-- The native service `CallContract` builds for a native target: the caller's cache and
context, the decoded invoke parameter, no input and no notifications yet. -/
def nativeServiceFor (proc : Process) (contract : ContractInvokeParam) : NativeService :=
  { CacheDB := proc.HostData.Service.CacheDB, Notifications := [], InvokeParam := contract,
    Input := [], Height := proc.HostData.Service.Height, Time := proc.HostData.Service.Time,
    ContextRef := proc.HostData.Service.ContextRef, PreExec := proc.HostData.Service.PreExec }

/-- The state `NativeService.Invoke` hands to the handler: the arguments as input, the
callee's frame pushed, an empty notification buffer. -/
def handlerEntryState (this : NativeService) : NativeService :=
  { this with
    Input := this.InvokeParam.Args,
    ContextRef := this.ContextRef.PushContext
      { ContractAddress := this.InvokeParam.Address, Code := [] },
    Notifications := [] }

/-- The address of the native contract of the fixtures below. -/
def sampleNativeAddress : Address := List.replicate 19 0 ++ [2]

/-- A module that passes `checkOntoWasm`: no start section, one exported function
`invoke` with signature `() -> ()`. -/
def sampleModule : Module :=
  { Start := none,
    Export := some [("invoke", { FieldStr := "invoke", Kind := ExternalFunction, Index := 0 })],
    Function := some [0],
    Types := some [{ ParamTypes := [], ReturnTypes := [] }] }

/-- The environment `sampleEnv` with a wagon library that parses every code to
`sampleModule`. -/
def sampleDeployEnv : HostEnv :=
  { sampleEnv with
    lib := { ReadModule := fun _ => .ok sampleModule, VerifyModule := fun _ => none,
             VerifyWasmCodeFromRust := fun _ => none, CompileModule := fun _ => none } }

/-- The process `sampleProc` with the four code bytes of `sampleDeploy` at offset 0 of
its 64-byte memory. -/
def sampleCodeProc : Process :=
  { sampleProc with Memory := [0, 97, 115, 109] ++ List.replicate 60 0 }

/-- The process `sampleCodeProc` with `sampleDeploy` already stored at the address of
its code. -/
def sampleDeployedProc : Process :=
  { sampleCodeProc with
    HostData := { sampleCodeProc.HostData with
      Service := { sampleCodeProc.HostData.Service with
        CacheDB := { contracts := [(sampleHash [0, 97, 115, 109], sampleDeploy)],
                     store := [], iterFault := none } } } }

/-- A process in which a deployed contract runs: the context address is the address of
the code `[0, 97, 115, 109]`, which is stored there and owns two storage keys; the guest
memory holds that code at offset 0 and a second code, `[0, 97, 115, 110]`, at offset 4. -/
def sampleMigrateProc : Process :=
  { Memory := [0, 97, 115, 109, 0, 97, 115, 110] ++ List.replicate 56 0, Terminated := false,
    HostData :=
      { Service :=
          { CacheDB :=
              { contracts := [(sampleHash [0, 97, 115, 109], sampleDeploy)],
                store := [(sampleHash [0, 97, 115, 109] ++ [120], [1]),
                          (sampleHash [0, 97, 115, 109] ++ [121], [2])],
                iterFault := none },
            ContextRef :=
              { Contexts := [{ ContractAddress := sampleHash [0, 97, 115, 109], Code := [] }],
                Notifications := [] },
            Time := 0, Height := 1, PreExec := false, GasLimit := 100 },
        Input := [], Output := [], CallOutPut := [] } }

/-! ## smartcontract/service/wasmvm/wasm_service.go -/

/-- Modelled from the spec: `common.ZeroCopySource.NextAddress` is not under src/. Reads
the 20 bytes of an address; at the end of the input it reports `eof` and the empty
address. -/
def NextAddress (source : ZeroCopySource) : Read Address :=
  let buf := NextBytes source 20
  if buf.eof then { data := ADDRESS_EMPTY, irregular := false, eof := true, source := buf.source }
  else buf

/-- Go `(this *WasmContractParam) Deserialization`: the receiver as the call leaves it
and the error. The `eof` of the address read is overwritten by the next read. -/
def WasmContractParam.Deserialization (this : WasmContractParam) (source : ZeroCopySource) :
    WasmContractParam × Option HostError :=
  let r1 := NextAddress source
  let this := { this with Address := r1.data }
  let r2 := NextVarBytes r1.source
  let this := { this with Args := r2.data }
  if r2.irregular then (this, some .irregularData)
  else if r2.eof then (this, some .unexpectedEOF)
  else (this, none)

/-- The errors `WasmVmService.Invoke` returns. The constructors stand for the Go values:
`ERR_EXECUTE_CODE`, `deserialize` = the error of the parameter's `Deserialization`,
`contractNotExist` = "wasm contract does not exist", `notWasmContract` = "not a wasm
contract", `readModule` = the error of `ReadWasmModule`, `VM_INIT_FAULT`,
`methodNotExist` = "[Call]Method:invoke does not exist!",
`sigError` = "[Call]ExecCode error! Invoke function sig error",
`execError` = "[Call]ExecCode error!" with the error of the VM,
`runtimeFault` = a Go runtime panic leaving `Invoke`. -/
inductive InvokeError where
  | ERR_EXECUTE_CODE
  | deserialize (err : HostError)
  | contractNotExist
  | notWasmContract
  | readModule (err : HostError)
  | VM_INIT_FAULT
  | methodNotExist
  | sigError
  | execError (code : Nat)
  | runtimeFault
  deriving DecidableEq, Repr

/-- Go `WASM_MEM_LIMITATION`. -/
def WASM_MEM_LIMITATION : Nat := 10 * 1024 * 1024

/-- What `WasmVmService.Invoke` uses of the module cache and of the wagon interpreter:
the lookup in the global `CodeCache` (by contract address), `exec.NewVMWithCompiled`
(its error, or the initial linear memory of the new VM) and `vm.ExecCode`, which runs
the guest function of the given index over the process and returns its error and the
process as the run leaves it. -/
structure VmLib where
  CodeCacheGet : Address → Option CompiledModule
  NewVMWithCompiled : CompiledModule → Nat → Except Nat (List Nat)
  ExecCode : CompiledModule → Nat → Process → Option Nat × Process

/-- Go `(this *WasmVmService) Invoke`, with `Code` the `Code` field of the service: the
returned value (`host.Output`), the error, and the service as the call leaves it. The
insertion of a freshly read module into the global `CodeCache` is not part of that
state. -/
def WasmVmService.Invoke (env : HostEnv) (vm : VmLib) (this : WasmVmService)
    (Code : List Nat) : (Option (List Nat) × Option InvokeError) × WasmVmService :=
  if Code.length = 0 then ((none, some .ERR_EXECUTE_CODE), this)
  else
    match WasmContractParam.Deserialization { Address := ADDRESS_EMPTY, Args := [] } Code with
    | (_, some err) => ((none, some (.deserialize err)), this)
    | (contract, none) =>
      match this.CacheDB.GetContract contract.Address with
      | none => ((none, some .contractNotExist), this)
      | some code =>
        match code.GetWasmCode with
        | .error .unreachable => ((none, some .runtimeFault), this)
        | .error _ => ((none, some .notWasmContract), this)
        | .ok wasmCode =>
          let this := { this with ContextRef :=
            this.ContextRef.PushContext { ContractAddress := contract.Address, Code := wasmCode } }
          let host : Runtime :=
            { Service := this, Input := contract.Args, Output := [], CallOutPut := [] }
          let loaded : Outcome CompiledModule :=
            match vm.CodeCacheGet contract.Address with
            | some cached => .ok cached
            | none => ReadWasmModule env.lib wasmCode false
          match loaded with
          | .error err => ((none, some (.readModule err)), this)
          | .fault => ((none, some .runtimeFault), this)
          | .ok compiled =>
            match vm.NewVMWithCompiled compiled WASM_MEM_LIMITATION with
            | .error _ => ((none, some .VM_INIT_FAULT), this)
            | .ok memory =>
              match compiled.RawModule.Export with
              | none => ((none, some .runtimeFault), this)
              | some entries =>
                match entries.find? (fun e => decide (e.1 = "invoke")) with
                | none => ((none, some .methodNotExist), this)
                | some (_, entry) =>
                  match compiled.RawModule.Function with
                  | none => ((none, some .runtimeFault), this)
                  | some ftypes =>
                    match ftypes[entry.Index]? with
                    | none => ((none, some .runtimeFault), this)
                    | some fidx =>
                      match compiled.RawModule.Types with
                      | none => ((none, some .runtimeFault), this)
                      | some sigs =>
                        match sigs[fidx]? with
                        | none => ((none, some .runtimeFault), this)
                        | some ftype =>
                          if ftype.ReturnTypes.length > 0 then ((none, some .sigError), this)
                          else
                            match vm.ExecCode compiled entry.Index
                                { Memory := memory, Terminated := false, HostData := host } with
                            | (some code, proc) =>
                              ((none, some (.execError code)), proc.HostData.Service)
                            | (none, proc) =>
                              let this := proc.HostData.Service
                              let this := { this with ContextRef := this.ContextRef.PopContext }
                              ((some proc.HostData.Output, none), this)

/-- A native handler used to instantiate theorems: it fails with error 7 and changes
nothing. -/
def sampleFailingHandler : Handler := fun native => (([], some 7), native)

/-- A native registry with one contract at `sampleNativeAddress`, whose only method,
named by the single byte 109, is `sampleFailingHandler`. -/
def sampleFailingRegistry : NativeRegistry := fun a =>
  if a = sampleNativeAddress then
    some (fun m => if m = [109] then some sampleFailingHandler else none)
  else none

/-- The native service built over `sampleProc` for a call of method `[109]` of
`sampleNativeAddress` with the argument `[5]`. -/
def sampleNativeService : NativeService :=
  nativeServiceFor sampleProc (ContractInvokeParam.mk 0 sampleNativeAddress [109] [5])

/-- A VM library used to instantiate theorems: an empty module cache, a VM with 64 bytes
of memory, and a guest whose execution traps with error 1 leaving the state as it
is. -/
def sampleTrapVm : VmLib :=
  { CodeCacheGet := fun _ => none,
    NewVMWithCompiled := fun _ _ => .ok (List.replicate 64 0),
    ExecCode := fun _ _ proc => (some 1, proc) }

/-- A VM library as `sampleTrapVm` whose guest returns, leaving the state as it is. -/
def sampleReturnVm : VmLib :=
  { sampleTrapVm with ExecCode := fun _ _ proc => (none, proc) }

/-- A VM library as `sampleTrapVm` that fails to instantiate every module. -/
def sampleInitFaultVm : VmLib :=
  { sampleTrapVm with NewVMWithCompiled := fun _ _ => .error 1 }

/-- The environment `sampleEnv` with a wagon library that fails to read every code. -/
def sampleBrokenLibEnv : HostEnv :=
  { sampleEnv with
    lib := { ReadModule := fun _ => .error 1, VerifyModule := fun _ => none,
             VerifyWasmCodeFromRust := fun _ => none, CompileModule := fun _ => none } }

/-- The invoke code of a WASM transaction that calls the contract of `sampleDeploy` with
no arguments: the 20 address bytes, then an empty `var_bytes`. -/
def sampleInvokeCode : List Nat := sampleHash [0, 97, 115, 109] ++ [0]

/-- The process `WasmVmService.Invoke` hands to the guest: the fresh memory of the VM,
and as host data the service with the callee's frame pushed, the arguments as input and
no output. -/
def guestEntryProcess (this : WasmVmService) (contract : WasmContractParam)
    (wasmCode memory : List Nat) : Process :=
  Process.mk memory false
    (Runtime.mk
      (WasmVmService.mk this.CacheDB
        (this.ContextRef.PushContext (Context.mk contract.Address wasmCode))
        this.Time this.Height this.PreExec this.GasLimit)
      contract.Args [] [])

/-- The depth of the context stack of a WASM service. -/
def WasmVmService.depth (this : WasmVmService) : Nat := this.ContextRef.Contexts.length

/-- The depth of the context stack of a native service. -/
def NativeService.depth (this : NativeService) : Nat := this.ContextRef.Contexts.length

/-! ## core/store/ledgerstore/tx_handler.go -/

/-- Go `event.ExecuteNotify`: the record of the execution of one transaction. -/
structure ExecuteNotify where
  State : Nat
  GasConsumed : Nat
  Notify : List NotifyEventInfo
  deriving DecidableEq, Repr

/-- Go `event.CONTRACT_STATE_FAIL`. -/
def CONTRACT_STATE_FAIL : Nat := 0

/-- Go `event.CONTRACT_STATE_SUCCESS`. -/
def CONTRACT_STATE_SUCCESS : Nat := 1

/-- The errors the handlers hand to `overlay.SetError`: the three messages
"get CONTRACT_CREATE_NAME gas failed", "get UINT_DEPLOY_CODE_LEN_NAME gas failed" and
"get UINT_INVOKE_CODE_LEN_NAME gas failed". -/
inductive OverlayError where
  | createGasMissing
  | deployCodeLenGasMissing
  | invokeCodeLenGasMissing
  deriving DecidableEq, Repr

/-- Modelled from the spec: `overlaydb.OverlayDB` is not under src/. The spec (3, 4.2,
7) gives the layer below the caches, into which `commit` flushes and which can be
marked errored; the model is its contents and the error it was marked with. -/
structure OverlayDB where
  db : CacheDB
  error : Option OverlayError
  deriving DecidableEq, Repr

/-- Modelled from the spec: `overlay.SetError`, mark the overlay errored. -/
def OverlayDB.SetError (overlay : OverlayDB) (err : OverlayError) : OverlayDB :=
  { overlay with error := some err }

/-- Modelled from the spec: `storage.NewCacheDB(overlay)`, an independent buffer over
the overlay with no pending write; its live view is the contents of the overlay. -/
def NewCacheDB (overlay : OverlayDB) : CacheDB := overlay.db

/-- Modelled from the spec: `cache.Commit()`, flush the pending writes of the cache into
the overlay below it, after which the overlay holds the live view of the cache. -/
def CacheDB.Commit (cache : CacheDB) (overlay : OverlayDB) : OverlayDB :=
  { overlay with db := cache }

/-- The fields of `types.Transaction` the handlers read; `TxType` is read by the invoke
handler only. The payload is passed to each handler next to the transaction. -/
structure Transaction where
  TxType : TransactionType
  GasPrice : Nat
  GasLimit : Nat
  Payer : Address
  deriving DecidableEq, Repr

/-- The fields of `block.Header` the handlers read. -/
structure Block where
  Height : Nat
  Timestamp : Nat
  deriving DecidableEq, Repr

/-- The fields of `smartcontract.Config` the model carries. -/
structure Config where
  Time : Nat
  Height : Nat
  deriving DecidableEq, Repr

/-- The errors the two handlers return. The constructors stand for the Go values:
`readModule` = the error of `ReadWasmModule`, `native` = the error of a `NativeCall`,
`payerGasInsufficient` = "payer gas insufficient, need %d , only have %d",
`gasLimitInsufficient` = "gasLimit insufficient, need:%d actual:%d",
`balanceLessThanMinGas` = "balance gas: %d less than min gas: %d",
`balanceInsufficientForCode` = "balance gas insufficient: balance:%d < code length need
gas:%d", `invokeGasLimitInsufficient` = "invoke transaction gasLimit insufficient:
need%d actual:%d", `gasInsufficient` = "gas insufficient, balance:%d < costGas:%d",
`engine` = the error of `engine.Invoke`, `runtimeFault` = a Go runtime panic leaving the
handler. -/
inductive TxError where
  | readModule (err : HostError)
  | native (err : HostError)
  | payerGasInsufficient
  | gasLimitInsufficient
  | balanceLessThanMinGas
  | balanceInsufficientForCode
  | invokeGasLimitInsufficient
  | gasInsufficient
  | engine (code : Nat)
  | runtimeFault
  deriving DecidableEq, Repr

/-- What a handler leaves behind: the error it returns (`none` is nil), the overlay, the
live view of the work cache it was given, and the notify record. -/
structure TxResult where
  err : Option TxError
  overlay : OverlayDB
  cache : CacheDB
  notify : ExecuteNotify
  deriving DecidableEq, Repr

/-- What the handlers use that is not under src/: the host environment (native
registry, wagon library, engine factory, address hash), the names of the gas table,
the constants `neovm.PER_UNIT_CODE_LEN`, `neovm.MIN_TRANSACTION_GAS` and
`ninit.COMMIT_DPOS_BYTES`, the addresses and method names of the ONG contract, and the
codecs `common.SerializeToBytes(&ont.Transfers{...})`, `utils.EncodeAddress` and
`common.BigIntFromNeoBytes`. -/
structure LedgerEnv where
  host : HostEnv
  CONTRACT_CREATE_NAME : String
  UINT_DEPLOY_CODE_LEN_NAME : String
  UINT_INVOKE_CODE_LEN_NAME : String
  PER_UNIT_CODE_LEN : Nat
  MIN_TRANSACTION_GAS : Nat
  COMMIT_DPOS_BYTES : List Nat
  OngContractAddress : Address
  GovernanceContractAddress : Address
  TRANSFER_NAME : List Nat
  BALANCEOF_NAME : List Nat
  SerializeTransfers : Address → Address → Nat → List Nat
  EncodeAddress : Address → List Nat
  BigIntFromNeoBytes : List Nat → Nat

/-- Modelled from the spec: `SmartContract.NewNativeService` is not under src/. The
native engine of a new `SmartContract`: its cache, the time and height of its
config, an empty context stack and no notifications. -/
def NewNativeService (config : Config) (cache : CacheDB) : NativeService :=
  NativeService.mk cache [] (ContractInvokeParam.mk 0 ADDRESS_EMPTY [] []) []
    config.Height config.Time (ContextRef.mk [] []) false

/-- Go `(this *NativeService) NativeCall`. -/
def NativeService.NativeCall (Contracts : NativeRegistry) (this : NativeService)
    (address : Address) (method args : List Nat) :
    (List Nat × Option HostError) × NativeService :=
  NativeService.Invoke Contracts
    { this with InvokeParam := ContractInvokeParam.mk 0 address method args }

/-- Go `calcGasByCodeLen`: `uint64(codeLen/neovm.PER_UNIT_CODE_LEN) * codeGas`, the
product in `uint64`. -/
def calcGasByCodeLen (env : LedgerEnv) (codeLen codeGas : Nat) : Nat :=
  (codeLen / env.PER_UNIT_CODE_LEN) % 2 ^ 64 * codeGas % 2 ^ 64

/-- Go `genNativeTransferCode`. -/
def genNativeTransferCode (env : LedgerEnv) (src dst : Address) (value : Nat) : List Nat :=
  env.SerializeTransfers src dst value

/-- Go `getBalanceFromNative`: the balance, the error, and the cache as the native call
leaves it. -/
def getBalanceFromNative (env : LedgerEnv) (config : Config) (cache : CacheDB)
    (address : Address) : (Nat × Option TxError) × CacheDB :=
  let service := NewNativeService config cache
  match service.NativeCall env.host.Contracts env.OngContractAddress env.BALANCEOF_NAME
      (env.EncodeAddress address) with
  | ((_, some err), service) => ((0, some (.native err)), service.CacheDB)
  | ((result, none), service) =>
    ((env.BigIntFromNeoBytes result % 2 ^ 64, none), service.CacheDB)

/-- Go `isBalanceSufficient`. -/
def isBalanceSufficient (env : LedgerEnv) (payer : Address) (cache : CacheDB)
    (config : Config) (gas : Nat) : (Nat × Option TxError) × CacheDB :=
  match getBalanceFromNative env config cache payer with
  | ((_, some err), cache) => ((0, some err), cache)
  | ((balance, none), cache) =>
    if balance < gas then ((0, some .payerGasInsufficient), cache)
    else ((balance, none), cache)

/-- Go `chargeCostGas`: the notifications of the transfer, the error, and the cache as
the native call leaves it. -/
def chargeCostGas (env : LedgerEnv) (payer : Address) (gas : Nat) (config : Config)
    (cache : CacheDB) : (List NotifyEventInfo × Option TxError) × CacheDB :=
  let params := genNativeTransferCode env payer env.GovernanceContractAddress gas
  let service := NewNativeService config cache
  match service.NativeCall env.host.Contracts env.OngContractAddress env.TRANSFER_NAME
      params with
  | ((_, some err), service) => (([], some (.native err)), service.CacheDB)
  | ((_, none), service) => ((service.ContextRef.Notifications, none), service.CacheDB)

/-- Go `costInvalidGas`: the error, the overlay and the notify record as the call
leaves them. -/
def costInvalidGas (env : LedgerEnv) (address : Address) (gas : Nat) (config : Config)
    (overlay : OverlayDB) (notify : ExecuteNotify) :
    Option TxError × OverlayDB × ExecuteNotify :=
  let cache := NewCacheDB overlay
  match chargeCostGas env address gas config cache with
  | ((_, some err), _) => (some err, overlay, notify)
  | ((notifies, none), cache) =>
    let overlay := cache.Commit overlay
    let notify := { notify with GasConsumed := gas }
    let notify := { notify with Notify := notify.Notify ++ notifies }
    (none, overlay, notify)

/-- The idiom of both handlers
`if err := costInvalidGas(payer, gas, ...); err != nil { return err }; return e`:
the result of the handler that ends this way, with `cache` its work cache. -/
def failWithInvalidGas (env : LedgerEnv) (payer : Address) (gas : Nat) (config : Config)
    (overlay : OverlayDB) (cache : CacheDB) (notify : ExecuteNotify) (e : TxError) :
    TxResult :=
  match costInvalidGas env payer gas config overlay notify with
  | (some err, overlay, notify) => TxResult.mk (some err) overlay cache notify
  | (none, overlay, notify) => TxResult.mk (some e) overlay cache notify

/-- The text of `HandleDeployTransaction` after the fee block, from
`address := deploy.Address()` to `return nil`. -/
def deployStore (env : LedgerEnv) (overlay : OverlayDB) (cache : CacheDB)
    (deploy : DeployCode) (notify : ExecuteNotify) (notifies : List NotifyEventInfo)
    (gasConsumed : Nat) : TxResult :=
  let r := deploy.Address env.host.AddressFromVmCode
  let address := r.1
  let deploy := r.2
  let cache :=
    match cache.GetContract address with
    | none => cache.PutContract env.host.AddressFromVmCode deploy
    | some _ => cache
  let overlay := cache.Commit overlay
  let notify := { notify with Notify := notify.Notify ++ notifies }
  let notify := { notify with GasConsumed := gasConsumed }
  let notify := { notify with State := CONTRACT_STATE_SUCCESS }
  TxResult.mk none overlay cache notify

/-- Go `(self *StateStore) HandleDeployTransaction`, with `deploy` the payload of the
transaction. -/
def HandleDeployTransaction (env : LedgerEnv) (overlay : OverlayDB)
    (gasTable : String → Option Nat) (cache : CacheDB) (tx : Transaction)
    (deploy : DeployCode) (block : Block) (notify : ExecuteNotify) : TxResult :=
  match deploy.VmType with
  | none => TxResult.mk (some .runtimeFault) overlay cache notify
  | some ty =>
    let checked : Option TxError :=
      if ty = WASMVM_TYPE then
        match ReadWasmModule env.host.lib deploy.GetRawCode true with
        | .error err => some (.readModule err)
        | .fault => some .runtimeFault
        | .ok _ => none
      else none
    match checked with
    | some err => TxResult.mk (some err) overlay cache notify
    | none =>
      if tx.GasPrice ≠ 0 then
        let config : Config := Config.mk block.Timestamp block.Height
        match gasTable env.CONTRACT_CREATE_NAME with
        | none => TxResult.mk none (overlay.SetError .createGasMissing) cache notify
        | some createGasPrice =>
          match gasTable env.UINT_DEPLOY_CODE_LEN_NAME with
          | none => TxResult.mk none (overlay.SetError .deployCodeLenGasMissing) cache notify
          | some uintCodePrice =>
            let gasLimit :=
              (createGasPrice + calcGasByCodeLen env deploy.GetRawCode.length uintCodePrice)
                % 2 ^ 64
            match isBalanceSufficient env tx.Payer cache config
                (gasLimit * tx.GasPrice % 2 ^ 64) with
            | ((balance, some err), cache) =>
              failWithInvalidGas env tx.Payer balance config overlay cache notify err
            | ((_, none), cache) =>
              if tx.GasLimit < gasLimit then
                failWithInvalidGas env tx.Payer (tx.GasLimit * tx.GasPrice % 2 ^ 64) config
                  overlay cache notify .gasLimitInsufficient
              else
                let gasConsumed := gasLimit * tx.GasPrice % 2 ^ 64
                match chargeCostGas env tx.Payer gasConsumed config cache with
                | ((_, some err), cache) => TxResult.mk (some err) overlay cache notify
                | ((notifies, none), cache) =>
                  let overlay := cache.Commit overlay
                  deployStore env overlay cache deploy notify notifies gasConsumed
      else deployStore env overlay cache deploy notify [] 0

/-- The fee pre-flight of `HandleInvokeTransaction` (the block `if isCharge { ... }`):
either the result the handler returns from inside the block, or `codeLenGasLimit`,
`availableGasLimit` and the work cache as the block leaves them. -/
def invokePreflight (env : LedgerEnv) (overlay : OverlayDB) (gasTable : String → Option Nat)
    (cache : CacheDB) (tx : Transaction) (invoke : List Nat) (config : Config)
    (notify : ExecuteNotify) (isCharge : Bool) : Except TxResult (Nat × Nat × CacheDB) :=
  let availableGasLimit := tx.GasLimit
  if isCharge then
    match gasTable env.UINT_INVOKE_CODE_LEN_NAME with
    | none => .error (TxResult.mk none (overlay.SetError .invokeCodeLenGasMissing) cache notify)
    | some uintCodeGasPrice =>
      match getBalanceFromNative env config cache tx.Payer with
      | ((_, some err), cache) => .error (TxResult.mk (some err) overlay cache notify)
      | ((oldBalance, none), cache) =>
        let minGas := env.MIN_TRANSACTION_GAS * tx.GasPrice % 2 ^ 64
        if oldBalance < minGas then
          .error (failWithInvalidGas env tx.Payer oldBalance config overlay cache notify
            .balanceLessThanMinGas)
        else
          let codeLenGasLimit := calcGasByCodeLen env invoke.length uintCodeGasPrice
          if oldBalance < codeLenGasLimit * tx.GasPrice % 2 ^ 64 then
            .error (failWithInvalidGas env tx.Payer oldBalance config overlay cache notify
              .balanceInsufficientForCode)
          else if tx.GasLimit < codeLenGasLimit then
            .error (failWithInvalidGas env tx.Payer (tx.GasLimit * tx.GasPrice % 2 ^ 64)
              config overlay cache notify .invokeGasLimitInsufficient)
          else
            let maxAvaGasLimit := oldBalance / tx.GasPrice
            let availableGasLimit :=
              if availableGasLimit > maxAvaGasLimit then maxAvaGasLimit else availableGasLimit
            .ok (codeLenGasLimit, availableGasLimit, cache)
  else .ok (0, availableGasLimit, cache)

/-- Go `(self *StateStore) HandleInvokeTransaction`, with `invoke` the code of the
payload. The `SmartContract` the engine runs over is the state an `Engine` shares with
its caller: cache, context stack and notifications, gas counter. A nil engine (the
error of `NewExecuteEngine` is dropped) makes `engine.Invoke()` a runtime panic. -/
def HandleInvokeTransaction (env : LedgerEnv) (overlay : OverlayDB)
    (gasTable : String → Option Nat) (cache : CacheDB) (tx : Transaction)
    (invoke : List Nat) (block : Block) (notify : ExecuteNotify) : TxResult :=
  let code := invoke
  let sysTransFlag := decide (code = env.COMMIT_DPOS_BYTES) || decide (block.Height = 0)
  let isCharge := !sysTransFlag && decide (tx.GasPrice ≠ 0)
  let config : Config := Config.mk block.Timestamp block.Height
  match invokePreflight env overlay gasTable cache tx invoke config notify isCharge with
  | .error r => r
  | .ok (codeLenGasLimit, availableGasLimit, cache) =>
    let sc : WasmVmService :=
      WasmVmService.mk cache (ContextRef.mk [] []) config.Time config.Height false
        ((availableGasLimit + 2 ^ 64 - codeLenGasLimit) % 2 ^ 64)
    match env.host.NewExecuteEngine invoke tx.TxType sc with
    | .error _ => TxResult.mk (some .runtimeFault) overlay cache notify
    | .ok engine =>
      match engine.Invoke sc with
      | ((_, err), sc) =>
        let costGasLimit := (availableGasLimit + 2 ^ 64 - sc.GasLimit) % 2 ^ 64
        let costGasLimit :=
          if costGasLimit < env.MIN_TRANSACTION_GAS then env.MIN_TRANSACTION_GAS
          else costGasLimit
        let costGas := costGasLimit * tx.GasPrice % 2 ^ 64
        match err with
        | some code =>
          if isCharge then
            failWithInvalidGas env tx.Payer costGas config overlay sc.CacheDB notify
              (.engine code)
          else TxResult.mk (some (.engine code)) overlay sc.CacheDB notify
        | none =>
          let charged : Except TxResult (List NotifyEventInfo × CacheDB) :=
            if isCharge then
              match getBalanceFromNative env config sc.CacheDB tx.Payer with
              | ((_, some err), cache) => .error (TxResult.mk (some err) overlay cache notify)
              | ((newBalance, none), cache) =>
                if newBalance < costGas then
                  .error (failWithInvalidGas env tx.Payer costGas config overlay cache notify
                    .gasInsufficient)
                else
                  match chargeCostGas env tx.Payer costGas config cache with
                  | ((_, some err), cache) =>
                    .error (TxResult.mk (some err) overlay cache notify)
                  | ((notifies, none), cache) => .ok (notifies, cache)
            else .ok ([], sc.CacheDB)
          match charged with
          | .error r => r
          | .ok (notifies, cache) =>
            let notify := { notify with Notify := notify.Notify ++ sc.ContextRef.Notifications }
            let notify := { notify with Notify := notify.Notify ++ notifies }
            let notify := { notify with GasConsumed := costGas }
            let notify := { notify with State := CONTRACT_STATE_SUCCESS }
            let overlay := cache.Commit overlay
            TxResult.mk none overlay cache notify

/-! ## Fixtures for the transaction handlers -/

/-- The address of the fee-token contract of the fixtures below. -/
def sampleOngAddress : Address := List.replicate 19 0 ++ [2]

/-- The governance address of the fixtures below. -/
def sampleGovernanceAddress : Address := List.replicate 19 0 ++ [7]

/-- The payer of the fixtures below. -/
def samplePayer : Address := List.replicate 19 0 ++ [9]

/-- A balance query used to instantiate theorems: the bytes stored under the token
address followed by the queried address, nothing changed. -/
def sampleBalanceOf : Handler := fun native =>
  (((native.CacheDB.Get (sampleOngAddress ++ native.Input)).getD [], none), native)

/-- A transfer used to instantiate theorems: the input is `from(20) | to(20) | value`
(little-endian); it fails with error 1 when the balance of `from` is below the value,
and otherwise moves the value and emits one notification. -/
def sampleTransfer : Handler := fun native =>
  let src := native.Input.take 20
  let dst := (native.Input.drop 20).take 20
  let value := leValue (native.Input.drop 40)
  let balance := leValue ((native.CacheDB.Get (sampleOngAddress ++ src)).getD [])
  if balance < value then (([0], some 1), native)
  else
    let db := native.CacheDB.Put (sampleOngAddress ++ src) (leBytes 8 (balance - value))
    let credit := leValue ((db.Get (sampleOngAddress ++ dst)).getD [])
    let db := db.Put (sampleOngAddress ++ dst) (leBytes 8 (credit + value))
    (([1], none),
      { native with
        CacheDB := db,
        Notifications :=
          native.Notifications ++ [NotifyEventInfo.mk sampleOngAddress (leBytes 8 value)] })

/-- A native registry with the fee-token contract only: method `[98]` is
`sampleBalanceOf`, method `[116]` is `sampleTransfer`. -/
def sampleOngRegistry : NativeRegistry := fun a =>
  if a = sampleOngAddress then
    some (fun m =>
      if m = [98] then some sampleBalanceOf
      else if m = [116] then some sampleTransfer
      else none)
  else none

/-- The host environment of the ledger fixtures: `sampleDeployEnv` (every code parses to
`sampleModule`) with `sampleOngRegistry`. -/
def sampleOngHost : HostEnv := { sampleDeployEnv with Contracts := sampleOngRegistry }

/-- The host environment `sampleEnv` (every code parses to a module without an export
section, which `checkOntoWasm` rejects) with `sampleOngRegistry`. -/
def sampleStrictHost : HostEnv := { sampleEnv with Contracts := sampleOngRegistry }

/-- A ledger environment used to instantiate theorems: code-length unit 2, minimal
transaction gas 20, little-endian codecs. -/
def sampleLedgerEnv : LedgerEnv :=
  { host := sampleOngHost,
    CONTRACT_CREATE_NAME := "create",
    UINT_DEPLOY_CODE_LEN_NAME := "deploy.len",
    UINT_INVOKE_CODE_LEN_NAME := "invoke.len",
    PER_UNIT_CODE_LEN := 2,
    MIN_TRANSACTION_GAS := 20,
    COMMIT_DPOS_BYTES := [0, 0, 0],
    OngContractAddress := sampleOngAddress,
    GovernanceContractAddress := sampleGovernanceAddress,
    TRANSFER_NAME := [116],
    BALANCEOF_NAME := [98],
    SerializeTransfers := fun src dst value => src ++ dst ++ leBytes 8 value,
    EncodeAddress := fun a => a,
    BigIntFromNeoBytes := leValue }

/-- The ledger environment `sampleLedgerEnv` over `sampleStrictHost`. -/
def sampleStrictLedgerEnv : LedgerEnv := { sampleLedgerEnv with host := sampleStrictHost }

/-- A gas table with the three entries the handlers look up: 100 to create a contract,
10 per unit of deployed code, 10 per unit of invoked code. -/
def sampleGasTable : String → Option Nat := fun name =>
  if name = "create" then some 100
  else if name = "deploy.len" then some 10
  else if name = "invoke.len" then some 10
  else none

/-- A gas table without entries. -/
def sampleEmptyGasTable : String → Option Nat := fun _ => none

/-- A cache in which `samplePayer` owns 1000 units of the fee token and no contract is
stored. -/
def sampleLedgerCache : CacheDB :=
  { contracts := [],
    store := [(sampleOngAddress ++ samplePayer, leBytes 8 1000)],
    iterFault := none }

/-- An overlay that holds `sampleLedgerCache` and is not marked errored. -/
def sampleOverlay : OverlayDB := { db := sampleLedgerCache, error := none }

/-- A transaction of `samplePayer` with gas price 2 and gas limit 50. -/
def sampleTx : Transaction :=
  { TxType := .InvokeWasm, GasPrice := 2, GasLimit := 50, Payer := samplePayer }

/-- A block of height 1. -/
def sampleBlock : Block := { Height := 1, Timestamp := 0 }

/-- A notify record on which nothing has been recorded yet. -/
def sampleNotify : ExecuteNotify := { State := CONTRACT_STATE_FAIL, GasConsumed := 0, Notify := [] }

/-- A module whose only export, `invoke`, has function index 1 while the function
section holds one function: the shape of a module with one imported function, whose
index space counts the import first. -/
def sampleImportModule : Module :=
  { Start := none,
    Export := some [("invoke", { FieldStr := "invoke", Kind := ExternalFunction, Index := 1 })],
    Function := some [0],
    Types := some [{ ParamTypes := [], ReturnTypes := [] }] }

/-- A module as `sampleImportModule` without a function section. -/
def sampleNoFunctionModule : Module := { sampleImportModule with Function := none }

/-- A second contract address of the fixtures, not the address of any sample code. -/
def sampleOtherAddress : Address := List.replicate 19 0 ++ [200]

/-- The process `sampleMigrateProc` with a second contract stored at
`sampleOtherAddress`, which owns one storage key. -/
def sampleSharedProc : Process :=
  Process.mk sampleMigrateProc.Memory false
    (Runtime.mk
      (WasmVmService.mk
        (CacheDB.mk
          [(sampleHash [0, 97, 115, 109], sampleDeploy), (sampleOtherAddress, sampleDeploy)]
          [(sampleHash [0, 97, 115, 109] ++ [120], [1]),
           (sampleOtherAddress ++ [120], [9]),
           (sampleHash [0, 97, 115, 109] ++ [121], [2])]
          none)
        sampleMigrateProc.HostData.Service.ContextRef 0 1 false 100)
      [] [] [])

/-- A transaction of `samplePayer` with gas price 2 and gas limit 200. -/
def sampleRichTx : Transaction :=
  { TxType := .InvokeWasm, GasPrice := 2, GasLimit := 200, Payer := samplePayer }

/-- A transaction of `samplePayer` with gas price 10 and gas limit 200. -/
def sampleCostlyTx : Transaction :=
  { TxType := .InvokeWasm, GasPrice := 10, GasLimit := 200, Payer := samplePayer }

/-- The local `isCharge` of `HandleInvokeTransaction`: the call is not system-privileged
(its code is not `COMMIT_DPOS_BYTES` and the block height is not 0) and the gas price is
not 0. -/
def invokeIsCharge (env : LedgerEnv) (tx : Transaction) (invoke : List Nat) (block : Block) :
    Bool :=
  !(decide (invoke = env.COMMIT_DPOS_BYTES) || decide (block.Height = 0)) &&
    decide (tx.GasPrice ≠ 0)

/-- The local `sc` of `HandleInvokeTransaction`, the `SmartContract` the engine is
created for: the work cache, an empty context stack, the time and height of the block,
and the gas budget. -/
def invokeContract (cache : CacheDB) (block : Block) (budget : Nat) : WasmVmService :=
  WasmVmService.mk cache (ContextRef.mk [] []) block.Timestamp block.Height false budget

/-- The local `costGas` of `HandleInvokeTransaction` for an available gas limit and the
gas the engine left: `costGasLimit = availableGasLimit - sc.Gas`, raised to
`MIN_TRANSACTION_GAS` when below it, times the gas price, all in `uint64`. -/
def invokeCostGas (env : LedgerEnv) (tx : Transaction) (availableGasLimit remaining : Nat) :
    Nat :=
  let costGasLimit := (availableGasLimit + 2 ^ 64 - remaining) % 2 ^ 64
  let costGasLimit :=
    if costGasLimit < env.MIN_TRANSACTION_GAS then env.MIN_TRANSACTION_GAS else costGasLimit
  costGasLimit * tx.GasPrice % 2 ^ 64

/-- An engine used to instantiate theorems: it uses 5 units of gas, writes one storage
key, emits one notification and returns the byte 1. -/
def sampleEngine : Engine :=
  Engine.mk (fun sc =>
    ((some [1], none),
      WasmVmService.mk (sc.CacheDB.Put [1] [1])
        (sc.ContextRef.PushNotifications [NotifyEventInfo.mk samplePayer [7]])
        sc.Time sc.Height sc.PreExec (sc.GasLimit - 5)))

/-- An engine used to instantiate theorems: it fails with error 9 after writing one
storage key, and leaves no gas. -/
def sampleFailingEngine : Engine :=
  Engine.mk (fun sc =>
    ((none, some 9),
      WasmVmService.mk (sc.CacheDB.Put [1] [1]) sc.ContextRef sc.Time sc.Height sc.PreExec 0))

/-- The ledger environment `sampleLedgerEnv` whose engine factory yields `sampleEngine`
for every code. -/
def sampleRunLedgerEnv : LedgerEnv :=
  { sampleLedgerEnv with
    host := { sampleOngHost with NewExecuteEngine := fun _ _ _ => .ok sampleEngine } }

/-- The ledger environment `sampleLedgerEnv` whose engine factory yields
`sampleFailingEngine` for every code. -/
def sampleCrashLedgerEnv : LedgerEnv :=
  { sampleLedgerEnv with
    host := { sampleOngHost with NewExecuteEngine := fun _ _ _ => .ok sampleFailingEngine } }

/-- A transaction of `samplePayer` with gas price 2 and gas limit 10, below the minimal
transaction gas 20 of the fixtures. -/
def sampleSmallTx : Transaction :=
  { TxType := .InvokeWasm, GasPrice := 2, GasLimit := 10, Payer := samplePayer }

/-- A cache in which `samplePayer` owns 30 units of the fee token. -/
def samplePoorCache : CacheDB :=
  { contracts := [],
    store := [(sampleOngAddress ++ samplePayer, leBytes 8 30)],
    iterFault := none }

/-- An overlay that holds `samplePoorCache` and is not marked errored. -/
def samplePoorOverlay : OverlayDB := { db := samplePoorCache, error := none }

/-- A notify record whose state is already `CONTRACT_STATE_SUCCESS`. -/
def sampleSuccessNotify : ExecuteNotify :=
  { State := CONTRACT_STATE_SUCCESS, GasConsumed := 0, Notify := [] }

/-- The ledger environment with another engine factory and nothing else changed. -/
def LedgerEnv.withEngineFactory (env : LedgerEnv)
    (f : List Nat → TransactionType → WasmVmService → Except Nat Engine) : LedgerEnv :=
  { env with host := { env.host with NewExecuteEngine := f } }

/-- A transaction of `samplePayer` with gas price 2^62 and gas limit 200: the products
of 20 and of 100 with the price are multiples of 2^64. -/
def sampleWrapInvokeTx : Transaction :=
  { TxType := .InvokeWasm, GasPrice := 2 ^ 62, GasLimit := 200, Payer := samplePayer }

/-- An engine used to instantiate theorems: it fails with error 9 and leaves no gas,
after writing the gas it was started with (8 bytes, little-endian) under the key
`[2]`. -/
def sampleProbeEngine : Engine :=
  Engine.mk (fun sc =>
    ((none, some 9),
      WasmVmService.mk (sc.CacheDB.Put [2] (leBytes 8 sc.GasLimit)) sc.ContextRef sc.Time
        sc.Height sc.PreExec 0))

/-- The ledger environment `sampleLedgerEnv` whose engine factory yields
`sampleProbeEngine` for every code. -/
def sampleProbeLedgerEnv : LedgerEnv :=
  { sampleLedgerEnv with
    host := { sampleOngHost with NewExecuteEngine := fun _ _ _ => .ok sampleProbeEngine } }

/-! # Theorems -/

theorem validateDeployCode_eq_none_iff (dep : DeployCode) :
    validateDeployCode dep = none ↔ dep.withinCaps := by
  unfold validateDeployCode checkVmFlags DeployCode.VmType DeployCode.withinCaps
    maxWasmCodeSize WASMVM_TYPE NEOVM_TYPE
  by_cases h0 : dep.vmFlags = 0
  · simp only [h0]; simp; split_ifs <;> simp <;> omega
  · by_cases h1 : dep.vmFlags = 1
    · simp only [h1]; simp; split_ifs <;> simp <;> omega
    · by_cases h3 : dep.vmFlags = 3
      · simp only [h3]; simp; split_ifs <;> simp <;> omega
      · simp [h0, h1, h3]

/-! ## Wire primitives: reading back what was written -/

theorem length_leBytes (k v : Nat) : (leBytes k v).length = k := by
  induction k generalizing v with
  | zero => rfl
  | succ k ih => simp [leBytes, ih]

theorem leValue_leBytes (k v : Nat) (h : v < 256 ^ k) : leValue (leBytes k v) = v := by
  induction k generalizing v with
  | zero => simp at h; simp [leBytes, leValue, h]
  | succ k ih =>
    have h2 : v / 256 < 256 ^ k := by
      rw [Nat.div_lt_iff_lt_mul (by norm_num)]; rw [pow_succ] at h; exact h
    simp only [leBytes, leValue, ih _ h2]
    omega

theorem NextBytes_append (xs rest : List Nat) :
    NextBytes (xs ++ rest) xs.length =
      { data := xs, irregular := false, eof := false, source := rest } := by
  simp [NextBytes]

theorem NextVarUint_WriteVarUint (n : Nat) (rest : List Nat) (h : n < 2 ^ 64) :
    NextVarUint (WriteVarUint n ++ rest) =
      { data := n, irregular := false, eof := false, source := rest } := by
  unfold WriteVarUint
  split_ifs with h1 h2 h3
  · have a1 : n ≠ 253 := by omega
    have a2 : n ≠ 254 := by omega
    have a3 : n ≠ 255 := by omega
    simp [NextVarUint, NextByte, a1, a2, a3]
  · have hv : leValue (leBytes 2 n) = n := leValue_leBytes 2 n (by norm_num; omega)
    have hb := NextBytes_append (leBytes 2 n) rest
    rw [length_leBytes] at hb
    simp [NextVarUint, NextByte, hb, hv, getVarUintSize, h1, h2]
  · have hv : leValue (leBytes 4 n) = n := leValue_leBytes 4 n (by norm_num; omega)
    have hb := NextBytes_append (leBytes 4 n) rest
    rw [length_leBytes] at hb
    simp [NextVarUint, NextByte, hb, hv, getVarUintSize, h1, h2, h3]
  · have hv : leValue (leBytes 8 n) = n := leValue_leBytes 8 n (by norm_num; omega)
    have hb := NextBytes_append (leBytes 8 n) rest
    rw [length_leBytes] at hb
    simp [NextVarUint, NextByte, hb, hv, getVarUintSize, h1, h2, h3]

theorem NextVarBytes_WriteVarBytes (bs rest : List Nat) (h : bs.length < 2 ^ 64) :
    NextVarBytes (WriteVarBytes bs ++ rest) =
      { data := bs, irregular := false, eof := false, source := rest } := by
  unfold NextVarBytes WriteVarBytes
  rw [List.append_assoc, NextVarUint_WriteVarUint _ _ h]
  cases bs with
  | nil => simp
  | cons b bs =>
    have hb := NextBytes_append (b :: bs) rest
    simp only [List.length_cons, List.cons_append] at hb
    simp [hb]

theorem NextString_WriteString (bs rest : List Nat) (h : bs.length < 2 ^ 64) :
    NextString (WriteString bs ++ rest) =
      { data := bs, irregular := false, eof := false, source := rest } :=
  NextVarBytes_WriteVarBytes bs rest h

theorem NextByte_WriteByte (c : Nat) (rest : List Nat) :
    NextByte (WriteByte c ++ rest) =
      { data := c, irregular := false, eof := false, source := rest } := rfl

theorem ToArray_eq (d : DeployCode) :
    d.ToArray = WriteVarBytes d.code ++ (WriteByte d.vmFlags ++ (WriteString d.Name ++
      (WriteString d.Version ++ (WriteString d.Author ++ (WriteString d.Email ++
      (WriteString d.Description ++ [])))))) := by
  simp [DeployCode.ToArray, DeployCode.Serialization]

/-- Reading back an encoding: whatever the receiver held, deserializing `ToArray d`
fills in the seven fields of `d`, keeps the receiver's memoized address and returns
the verdict of `validateDeployCode`. -/
theorem Deserialization_ToArray (dc d : DeployCode)
    (hc : d.code.length < 2 ^ 64) (hn : d.Name.length < 2 ^ 64)
    (hv : d.Version.length < 2 ^ 64) (ha : d.Author.length < 2 ^ 64)
    (he : d.Email.length < 2 ^ 64) (hd : d.Description.length < 2 ^ 64) :
    dc.Deserialization d.ToArray =
      ({ d with address := dc.address }, validateDeployCode { d with address := dc.address }) := by
  rw [ToArray_eq]
  unfold DeployCode.Deserialization
  simp only [NextVarBytes_WriteVarBytes _ _ hc, NextByte_WriteByte, NextString_WriteString _ _ hn,
    NextString_WriteString _ _ hv, NextString_WriteString _ _ ha, NextString_WriteString _ _ he,
    NextString_WriteString _ _ hd]
  cases hval : validateDeployCode { d with address := dc.address } <;> simp [hval]

theorem withinCaps_lengths (d : DeployCode) (h : d.withinCaps) :
    d.code.length < 2 ^ 64 ∧ d.Name.length < 2 ^ 64 ∧ d.Version.length < 2 ^ 64 ∧
    d.Author.length < 2 ^ 64 ∧ d.Email.length < 2 ^ 64 ∧ d.Description.length < 2 ^ 64 := by
  obtain ⟨_, h2, h3, h4, h5, h6, h7⟩ := h
  have : d.code.length ≤ 1024 * 1024 := by split_ifs at h2 <;> omega
  norm_num
  omega

theorem NewDeployCode_ok (code : List Nat) (vmType : VmType)
    (name version author email description : List Nat) (d : DeployCode)
    (h : NewDeployCode code vmType name version author email description = .ok d) :
    d = { code := code, vmFlags := vmType, Name := name, Version := version, Author := author,
          Email := email, Description := description, address := ADDRESS_EMPTY } ∧
    validateDeployCode d = none := by
  unfold NewDeployCode at h
  simp only at h
  split at h
  · cases h
  · rename_i hval
    injection h with h
    subst h
    exact ⟨rfl, hval⟩

/-! ## Wire primitives: reading a truncated encoding -/

/-- A list that begins `a ++ b` either stops inside `a` or contains all of `a`. -/
theorem prefix_append_cases (p a b : List Nat) (h : p <+: a ++ b) :
    (p <+: a ∧ p.length < a.length) ∨ ∃ q, p = a ++ q ∧ q <+: b := by
  by_cases hl : p.length < a.length
  · left
    exact ⟨List.prefix_of_prefix_length_le h (List.prefix_append a b) (by omega), hl⟩
  · right
    have ha : a <+: p :=
      List.prefix_of_prefix_length_le (List.prefix_append a b) h (by omega)
    obtain ⟨q, rfl⟩ := ha
    exact ⟨q, rfl, (List.prefix_append_right_inj a).mp h⟩

theorem NextVarUint_nil :
    NextVarUint [] = { data := 0, irregular := false, eof := true, source := [] } := rfl

theorem NextVarBytes_nil :
    NextVarBytes [] = { data := [], irregular := false, eof := true, source := [] } := rfl

theorem NextString_nil :
    NextString [] = { data := [], irregular := false, eof := true, source := [] } := rfl

theorem NextByte_nil :
    NextByte [] = { data := 0, irregular := false, eof := true, source := [] } := rfl

theorem NextVarUint_marker_short (m k : Nat) (q : List Nat)
    (hm : (m = 0xFD ∧ k = 2) ∨ (m = 0xFE ∧ k = 4) ∨ (m = 0xFF ∧ k = 8))
    (hq : q.length < k) :
    NextVarUint (m :: q) = { data := 0, irregular := false, eof := true, source := [] } := by
  rcases hm with ⟨rfl, rfl⟩ | ⟨rfl, rfl⟩ | ⟨rfl, rfl⟩ <;>
    simp [NextVarUint, NextByte, NextBytes, hq]

theorem NextVarUint_truncated (n : Nat) (p : List Nat)
    (hp : p <+: WriteVarUint n) (hlt : p.length < (WriteVarUint n).length) :
    NextVarUint p = { data := 0, irregular := false, eof := true, source := [] } := by
  have key : ∀ m k : Nat, WriteVarUint n = m :: leBytes k n →
      ((m = 0xFD ∧ k = 2) ∨ (m = 0xFE ∧ k = 4) ∨ (m = 0xFF ∧ k = 8)) →
      NextVarUint p = { data := 0, irregular := false, eof := true, source := [] } := by
    intro m k hw hm
    rw [hw] at hp hlt
    cases p with
    | nil => rfl
    | cons a q =>
      obtain ⟨t, ht⟩ := hp
      simp only [List.cons_append, List.cons.injEq] at ht
      obtain ⟨rfl, ht⟩ := ht
      simp only [List.length_cons, length_leBytes] at hlt
      exact NextVarUint_marker_short a k q hm (by omega)
  unfold WriteVarUint at hp hlt key
  split_ifs at hp hlt key with h1 h2 h3
  · simp only [List.length_singleton, Nat.lt_one_iff, List.length_eq_zero] at hlt
    subst hlt
    rfl
  · exact key 0xFD 2 rfl (by simp)
  · exact key 0xFE 4 rfl (by simp)
  · exact key 0xFF 8 rfl (by simp)

theorem NextVarBytes_truncated (bs p : List Nat) (hb : bs.length < 2 ^ 64)
    (hp : p <+: WriteVarBytes bs) (hlt : p.length < (WriteVarBytes bs).length) :
    (NextVarBytes p).irregular = false ∧ (NextVarBytes p).eof = true ∧
      (NextVarBytes p).source = [] := by
  unfold WriteVarBytes at hp hlt
  rcases prefix_append_cases p _ _ hp with ⟨h1, h2⟩ | ⟨q, rfl, hq⟩
  · simp [NextVarBytes, NextVarUint_truncated _ p h1 h2]
  · have hql : q.length < bs.length := by
      simp only [List.length_append] at hlt; omega
    have hpos : bs.length > 0 := by omega
    simp [NextVarBytes, NextVarUint_WriteVarUint _ q hb, hpos, NextBytes, hql]

theorem NextString_truncated (bs p : List Nat) (hb : bs.length < 2 ^ 64)
    (hp : p <+: WriteString bs) (hlt : p.length < (WriteString bs).length) :
    (NextString p).irregular = false ∧ (NextString p).eof = true ∧
      (NextString p).source = [] :=
  NextVarBytes_truncated bs p hb hp hlt

theorem NextVarBytes_WriteVarBytes_end (bs : List Nat) (h : bs.length < 2 ^ 64) :
    NextVarBytes (WriteVarBytes bs) =
      { data := bs, irregular := false, eof := false, source := [] } := by
  simpa using NextVarBytes_WriteVarBytes bs [] h

/-- A proper prefix of an encoding is rejected with `ErrUnexpectedEOF`, wherever the
cut falls: once a read runs out of input the source is at its end, so every later
read reports `eof` again and none reports `irregular`. -/
theorem Deserialization_truncated (dc d : DeployCode) (p : List Nat)
    (hc : d.code.length < 2 ^ 64) (hn : d.Name.length < 2 ^ 64)
    (hv : d.Version.length < 2 ^ 64) (ha : d.Author.length < 2 ^ 64)
    (he : d.Email.length < 2 ^ 64) (hd : d.Description.length < 2 ^ 64)
    (hp : p <+: d.ToArray) (hne : p ≠ d.ToArray) :
    (dc.Deserialization p).2 = some .ErrUnexpectedEOF := by
  rw [ToArray_eq] at hp hne
  rcases prefix_append_cases p _ _ hp with ⟨h1, h2⟩ | ⟨q1, rfl, hp1⟩
  · obtain ⟨i, e, so⟩ := NextVarBytes_truncated _ p hc h1 h2
    simp [DeployCode.Deserialization, i, so, NextByte_nil, NextString_nil]
  rcases prefix_append_cases q1 _ _ hp1 with ⟨h1, h2⟩ | ⟨q2, rfl, hp2⟩
  · have hq : q1 = [] := by
      simpa [WriteByte] using h2
    subst hq
    simp [DeployCode.Deserialization, NextVarBytes_WriteVarBytes_end _ hc, NextByte_nil,
      NextString_nil]
  rcases prefix_append_cases q2 _ _ hp2 with ⟨h1, h2⟩ | ⟨q3, rfl, hp3⟩
  · obtain ⟨i, e, so⟩ := NextString_truncated _ q2 hn h1 h2
    simp [DeployCode.Deserialization, NextVarBytes_WriteVarBytes _ _ hc, NextByte_WriteByte,
      i, so, NextString_nil]
  rcases prefix_append_cases q3 _ _ hp3 with ⟨h1, h2⟩ | ⟨q4, rfl, hp4⟩
  · obtain ⟨i, e, so⟩ := NextString_truncated _ q3 hv h1 h2
    simp [DeployCode.Deserialization, NextVarBytes_WriteVarBytes _ _ hc, NextByte_WriteByte,
      NextString_WriteString _ _ hn, i, so, NextString_nil]
  rcases prefix_append_cases q4 _ _ hp4 with ⟨h1, h2⟩ | ⟨q5, rfl, hp5⟩
  · obtain ⟨i, e, so⟩ := NextString_truncated _ q4 ha h1 h2
    simp [DeployCode.Deserialization, NextVarBytes_WriteVarBytes _ _ hc, NextByte_WriteByte,
      NextString_WriteString _ _ hn, NextString_WriteString _ _ hv, i, so, NextString_nil]
  rcases prefix_append_cases q5 _ _ hp5 with ⟨h1, h2⟩ | ⟨q6, rfl, hp6⟩
  · obtain ⟨i, e, so⟩ := NextString_truncated _ q5 he h1 h2
    simp [DeployCode.Deserialization, NextVarBytes_WriteVarBytes _ _ hc, NextByte_WriteByte,
      NextString_WriteString _ _ hn, NextString_WriteString _ _ hv,
      NextString_WriteString _ _ ha, i, so, NextString_nil]
  rcases prefix_append_cases q6 _ _ hp6 with ⟨h1, h2⟩ | ⟨q7, rfl, hp7⟩
  · obtain ⟨i, e, so⟩ := NextString_truncated _ q6 hd h1 h2
    simp [DeployCode.Deserialization, NextVarBytes_WriteVarBytes _ _ hc, NextByte_WriteByte,
      NextString_WriteString _ _ hn, NextString_WriteString _ _ hv,
      NextString_WriteString _ _ ha, NextString_WriteString _ _ he, i, e]
  · have hq : q7 = [] := List.prefix_nil.mp hp7
    subst hq
    exact absurd rfl hne

theorem Deserialization_valid (dc : DeployCode) (b : List Nat)
    (h : (dc.Deserialization b).2 = none) :
    validateDeployCode (dc.Deserialization b).1 = none := by
  unfold DeployCode.Deserialization at h ⊢
  simp only at h ⊢
  split_ifs at h ⊢
  split at h
  · simp at h
  · rename_i hval
    simp only [hval]

theorem VmType_of_withinCaps (d : DeployCode) (h : d.withinCaps) :
    d.VmType ≠ none ∧ ((d.vmFlags = 0 ∨ d.vmFlags = 1) → d.VmType = some NEOVM_TYPE) ∧
      (d.vmFlags = 3 → d.VmType = some WASMVM_TYPE) := by
  obtain ⟨hf, _⟩ := h
  unfold DeployCode.VmType
  rcases hf with h0 | h1 | h3 <;> simp [*]

theorem NewDeployCode_wasm_too_long (code : List Nat) (h : code.length = 512 * 1024 + 1) :
    NewDeployCode code WASMVM_TYPE [] [] [] [] [] = .error .codeTooLong := by
  simp [NewDeployCode, validateDeployCode, checkVmFlags, DeployCode.VmType, WASMVM_TYPE,
    maxWasmCodeSize, h]

theorem NewDeployCode_wasm_at_cap (code : List Nat) (h : code.length = 512 * 1024) :
    NewDeployCode code WASMVM_TYPE [] [] [] [] [] =
      .ok { code := code, vmFlags := 3, Name := [], Version := [], Author := [], Email := [],
            Description := [], address := ADDRESS_EMPTY } := by
  simp [NewDeployCode, validateDeployCode, checkVmFlags, DeployCode.VmType, WASMVM_TYPE,
    maxWasmCodeSize, h]

/-! ## The claims on the DeployCode codec -/

/-- C1: for every DeployCode `d` accepted by `NewDeployCode`, deserializing the bytes
of `ToArray d` into a fresh DeployCode succeeds (no error) and yields `d` again: the
same code, vmFlags, Name, Version, Author, Email and Description as were given to the
constructor, with all length caps holding. -/
theorem C1_deserialize_toArray_roundtrip (code : List Nat) (vmType : VmType)
    (name version author email description : List Nat) (d : DeployCode)
    (h : NewDeployCode code vmType name version author email description = .ok d) :
    DeployCode.zero.Deserialization d.ToArray = (d, none) ∧
    d.code = code ∧ d.vmFlags = vmType ∧ d.Name = name ∧ d.Version = version ∧
    d.Author = author ∧ d.Email = email ∧ d.Description = description ∧ d.withinCaps := by
  obtain ⟨hd, hval⟩ := NewDeployCode_ok _ _ _ _ _ _ _ _ h
  have hcaps := (validateDeployCode_eq_none_iff d).mp hval
  obtain ⟨l1, l2, l3, l4, l5, l6⟩ := withinCaps_lengths d hcaps
  have hrt := Deserialization_ToArray DeployCode.zero d l1 l2 l3 l4 l5 l6
  subst hd
  have hz : DeployCode.zero.address = ADDRESS_EMPTY := rfl
  simp only [hz] at hrt
  rw [hval] at hrt
  exact ⟨hrt, rfl, rfl, rfl, rfl, rfl, rfl, rfl, hcaps⟩

theorem C1_deserialize_toArray_roundtrip_witness :
    NewDeployCode [0, 97, 115, 109] 3 [110] [118] [97] [101] [100, 101] = .ok sampleDeploy ∧
    DeployCode.zero.Deserialization sampleDeploy.ToArray = (sampleDeploy, none) :=
  ⟨rfl,
   (C1_deserialize_toArray_roundtrip [0, 97, 115, 109] 3 [110] [118] [97] [101] [100, 101]
      sampleDeploy rfl).1⟩

/-- C2: `validateDeployCode`, and therefore `NewDeployCode`, accepts a DeployCode if and
only if vmFlags is 0, 1 or 3, the code has at most 512*1024 bytes when vmFlags = 3 and
at most 1024*1024 otherwise, Name, Version, Author and Email have at most 252 bytes each
and Description at most 65536; a WASM code of 512*1024+1 bytes is rejected (code too
long) and one of exactly 512*1024 bytes is accepted. -/
theorem C2_validateDeployCode_accepts_iff (dep : DeployCode) (code : List Nat) (vmType : VmType)
    (name version author email description : List Nat) :
    (validateDeployCode dep = none ↔
      ((dep.vmFlags = 0 ∨ dep.vmFlags = 1 ∨ dep.vmFlags = 3) ∧
       (if dep.vmFlags = 3 then dep.code.length ≤ 512 * 1024
        else dep.code.length ≤ 1024 * 1024) ∧
       dep.Name.length ≤ 252 ∧ dep.Version.length ≤ 252 ∧ dep.Author.length ≤ 252 ∧
       dep.Email.length ≤ 252 ∧ dep.Description.length ≤ 65536)) ∧
    ((∃ d, NewDeployCode code vmType name version author email description = .ok d) ↔
      ((vmType = 0 ∨ vmType = 1 ∨ vmType = 3) ∧
       (if vmType = 3 then code.length ≤ 512 * 1024 else code.length ≤ 1024 * 1024) ∧
       name.length ≤ 252 ∧ version.length ≤ 252 ∧ author.length ≤ 252 ∧
       email.length ≤ 252 ∧ description.length ≤ 65536)) ∧
    NewDeployCode (List.replicate (512 * 1024 + 1) 0) WASMVM_TYPE [] [] [] [] [] =
      .error .codeTooLong ∧
    (∃ d, NewDeployCode (List.replicate (512 * 1024) 0) WASMVM_TYPE [] [] [] [] [] = .ok d) := by
  refine ⟨validateDeployCode_eq_none_iff dep, ?_, ?_, ?_⟩
  · have hiff := validateDeployCode_eq_none_iff
      { code := code, vmFlags := vmType, Name := name, Version := version, Author := author,
        Email := email, Description := description, address := ADDRESS_EMPTY }
    unfold DeployCode.withinCaps at hiff
    simp only at hiff
    rw [← hiff]
    unfold NewDeployCode
    simp only
    cases hval : validateDeployCode _ <;> simp
  · exact NewDeployCode_wasm_too_long _ (List.length_replicate _ _)
  · exact ⟨_, NewDeployCode_wasm_at_cap _ (List.length_replicate _ _)⟩

/-- C3: for every byte string `b` (and whatever the receiver held before), if
`Deserialization b` returns no error then the decoded DeployCode passes
`validateDeployCode`: vmFlags is 0, 1 or 3 and every length cap holds, so `VmType` does
not reach its `unreachable` panic and returns NEOVM_TYPE for flags 0 or 1 and
WASMVM_TYPE for flag 3. -/
theorem C3_decoded_deploycode_is_valid (dc : DeployCode) (b : List Nat)
    (h : (dc.Deserialization b).2 = none) :
    validateDeployCode (dc.Deserialization b).1 = none ∧
    (dc.Deserialization b).1.withinCaps ∧
    (dc.Deserialization b).1.VmType ≠ none ∧
    (((dc.Deserialization b).1.vmFlags = 0 ∨ (dc.Deserialization b).1.vmFlags = 1) →
      (dc.Deserialization b).1.VmType = some NEOVM_TYPE) ∧
    ((dc.Deserialization b).1.vmFlags = 3 →
      (dc.Deserialization b).1.VmType = some WASMVM_TYPE) := by
  have hv := Deserialization_valid dc b h
  have hc := (validateDeployCode_eq_none_iff _).mp hv
  exact ⟨hv, hc, VmType_of_withinCaps _ hc⟩

theorem C3_decoded_deploycode_is_valid_witness :
    (DeployCode.zero.Deserialization [1, 7, 3, 0, 0, 0, 0, 0]).2 = none ∧
    (DeployCode.zero.Deserialization [1, 7, 3, 0, 0, 0, 0, 0]).1.VmType = some WASMVM_TYPE :=
  ⟨by decide,
   (C3_decoded_deploycode_is_valid DeployCode.zero [1, 7, 3, 0, 0, 0, 0, 0] (by decide)).2.2.2.2
     (by decide)⟩

/-- C4: for every valid DeployCode `d` and every proper prefix `p` of `ToArray d`,
`Deserialization p` fails with `ErrUnexpectedEOF` (whatever the receiver held): a
truncated encoding is never accepted, also when the cut falls inside an early field
whose `eof` result is overwritten by the reads of the later fields. -/
theorem C4_truncated_encoding_rejected (dc d : DeployCode) (p : List Nat)
    (hvalid : validateDeployCode d = none) (hp : p <+: d.ToArray) (hne : p ≠ d.ToArray) :
    (dc.Deserialization p).2 = some .ErrUnexpectedEOF := by
  have hcaps := (validateDeployCode_eq_none_iff d).mp hvalid
  obtain ⟨l1, l2, l3, l4, l5, l6⟩ := withinCaps_lengths d hcaps
  exact Deserialization_truncated dc d p l1 l2 l3 l4 l5 l6 hp hne

theorem C4_truncated_encoding_rejected_witness :
    (DeployCode.zero.Deserialization [2, 7, 7, 3, 2, 1]).2 = some .ErrUnexpectedEOF :=
  C4_truncated_encoding_rejected DeployCode.zero
    { code := [7, 7], vmFlags := 3, Name := [1, 2], Version := [], Author := [], Email := [],
      Description := [], address := ADDRESS_EMPTY }
    [2, 7, 7, 3, 2, 1] (by decide) (by decide) (by decide)

theorem validateDeployCode_address (d : DeployCode) (a : Address) :
    validateDeployCode { d with address := a } = validateDeployCode d := rfl

/-- C5 (the code at the failing input): a DeployCode whose address was computed once
(`Address` memoizes the hash of its code, which is not the empty address) and which is
then deserialized again from the encoding of a valid DeployCode `d2` takes the code of
`d2` but keeps the old memo: `Address` returns the hash of the old code, not
`AddressFromVmCode` of the current code. -/
theorem C5_address_stale_after_second_deserialization (AddressFromVmCode : List Nat → Address)
    (d1 d2 : DeployCode) (hfresh : d1.address = ADDRESS_EMPTY)
    (hvalid : validateDeployCode d2 = none)
    (hne : AddressFromVmCode d1.code ≠ ADDRESS_EMPTY) :
    (d1.Address AddressFromVmCode).1 = AddressFromVmCode d1.code ∧
    ((d1.Address AddressFromVmCode).2.Deserialization d2.ToArray).2 = none ∧
    ((d1.Address AddressFromVmCode).2.Deserialization d2.ToArray).1.code = d2.code ∧
    (((d1.Address AddressFromVmCode).2.Deserialization d2.ToArray).1.Address
        AddressFromVmCode).1 = AddressFromVmCode d1.code := by
  have hcaps := (validateDeployCode_eq_none_iff d2).mp hvalid
  obtain ⟨l1, l2, l3, l4, l5, l6⟩ := withinCaps_lengths d2 hcaps
  have hrt := Deserialization_ToArray (d1.Address AddressFromVmCode).2 d2 l1 l2 l3 l4 l5 l6
  rw [validateDeployCode_address, hvalid] at hrt
  have ha : (d1.Address AddressFromVmCode).2.address = AddressFromVmCode d1.code := by
    simp [DeployCode.Address, hfresh]
  refine ⟨by simp [DeployCode.Address, hfresh], by rw [hrt], by rw [hrt], ?_⟩
  rw [hrt]
  simp [DeployCode.Address, hfresh, hne]

theorem C5_address_stale_after_second_deserialization_witness :
    (((sampleDeploy.Address sampleHash).2.Deserialization
        (DeployCode.ToArray { sampleDeploy with code := [1] })).1.Address sampleHash).1 =
      sampleHash sampleDeploy.code ∧
    ((sampleDeploy.Address sampleHash).2.Deserialization
        (DeployCode.ToArray { sampleDeploy with code := [1] })).1.code = [1] ∧
    sampleHash sampleDeploy.code ≠ sampleHash [1] :=
  ⟨(C5_address_stale_after_second_deserialization sampleHash sampleDeploy
      { sampleDeploy with code := [1] } rfl rfl (by decide)).2.2.2,
   (C5_address_stale_after_second_deserialization sampleHash sampleDeploy
      { sampleDeploy with code := [1] } rfl rfl (by decide)).2.2.1,
   by decide⟩

/-! ## The gas meter -/

theorem checkGas_ok (proc : Process) (n : Nat) (h : n ≤ proc.HostData.Service.GasLimit)
    (hL : proc.HostData.Service.GasLimit < 2 ^ 64) :
    checkGas proc n = .ok () (proc.withGasLimit (proc.HostData.Service.GasLimit - n)) := by
  unfold checkGas Process.withGasLimit
  have : (proc.HostData.Service.GasLimit + 2 ^ 64 - n) % 2 ^ 64 =
      proc.HostData.Service.GasLimit - n := by
    have e : proc.HostData.Service.GasLimit + 2 ^ 64 - n =
        (proc.HostData.Service.GasLimit - n) + 2 ^ 64 := by omega
    rw [e, Nat.add_mod_right, Nat.mod_eq_of_lt (by omega)]
  simp only [ge_iff_le, h, if_true, this]

theorem checkGas_trap (proc : Process) (n : Nat) (h : proc.HostData.Service.GasLimit < n) :
    checkGas proc n = .trap .insufficientGas proc := by
  unfold checkGas
  simp [Nat.not_le.mpr h]

theorem withGasLimit_self (proc : Process) :
    proc.withGasLimit proc.HostData.Service.GasLimit = proc := rfl

theorem withGasLimit_withGasLimit (proc : Process) (a b : Nat) :
    (proc.withGasLimit a).withGasLimit b = proc.withGasLimit b := rfl

theorem chargeSequence_spec (ns : List Nat) (proc : Process)
    (hL : proc.HostData.Service.GasLimit < 2 ^ 64) :
    (chargeSequence proc ns).1 =
        proc.withGasLimit (chargeSequence proc ns).1.HostData.Service.GasLimit ∧
    (chargeSequence proc ns).1.HostData.Service.GasLimit + (chargeSequence proc ns).2 =
        proc.HostData.Service.GasLimit := by
  induction ns generalizing proc with
  | nil => exact ⟨rfl, rfl⟩
  | cons n ns ih =>
    by_cases h : n ≤ proc.HostData.Service.GasLimit
    · have hc := checkGas_ok proc n h hL
      simp only [chargeSequence, hc]
      have hL2 : (proc.withGasLimit (proc.HostData.Service.GasLimit - n)).HostData.Service.GasLimit
          < 2 ^ 64 := by
        show proc.HostData.Service.GasLimit - n < 2 ^ 64
        omega
      obtain ⟨h1, h2⟩ := ih _ hL2
      refine ⟨?_, ?_⟩
      · rw [h1]; rfl
      · have : (proc.withGasLimit (proc.HostData.Service.GasLimit - n)).HostData.Service.GasLimit
            = proc.HostData.Service.GasLimit - n := rfl
        rw [this] at h2
        omega
    · have hc := checkGas_trap proc n (by omega)
      simp only [chargeSequence, hc]
      exact ih proc hL

/-- C6: for every gas limit `L` and charge `n` (64-bit values), `checkGas n` sets the
shared limit to `L - n` and changes nothing else when `L >= n`, and traps leaving the
state (so the limit `L`) as it is when `L < n`; over any sequence `ns` of `checkGas`
calls the final limit is at most the initial one (it never wraps below zero) and the sum
of the amounts of the calls that did not trap equals initial limit minus final limit. -/
theorem C6_checkGas_never_wraps (proc : Process) (n : Nat) (ns : List Nat)
    (hL : proc.HostData.Service.GasLimit < 2 ^ 64) :
    (n ≤ proc.HostData.Service.GasLimit →
      checkGas proc n = .ok () (proc.withGasLimit (proc.HostData.Service.GasLimit - n))) ∧
    (proc.HostData.Service.GasLimit < n → checkGas proc n = .trap .insufficientGas proc) ∧
    (chargeSequence proc ns).1.HostData.Service.GasLimit ≤ proc.HostData.Service.GasLimit ∧
    (chargeSequence proc ns).2 =
      proc.HostData.Service.GasLimit - (chargeSequence proc ns).1.HostData.Service.GasLimit ∧
    (chargeSequence proc ns).1 =
      proc.withGasLimit (chargeSequence proc ns).1.HostData.Service.GasLimit := by
  obtain ⟨h1, h2⟩ := chargeSequence_spec ns proc hL
  exact ⟨fun h => checkGas_ok proc n h hL, checkGas_trap proc n, by omega, by omega, h1⟩

theorem C6_checkGas_never_wraps_witness :
    checkGas sampleProc 30 = .ok () (sampleProc.withGasLimit 70) ∧
    checkGas sampleProc 101 = .trap .insufficientGas sampleProc ∧
    (chargeSequence sampleProc [30, 80, 70]).2 =
      100 - (chargeSequence sampleProc [30, 80, 70]).1.HostData.Service.GasLimit :=
  ⟨(C6_checkGas_never_wraps sampleProc 30 [] (by decide)).1 (by decide),
   (C6_checkGas_never_wraps sampleProc 101 [] (by decide)).2.1 (by decide),
   (C6_checkGas_never_wraps sampleProc 0 [30, 80, 70] (by decide)).2.2.2.1⟩

/-! ## Guest memory -/

theorem ReadAt_in_bounds (proc : Process) (n off : Nat) (h : off + n ≤ proc.Memory.length) :
    proc.ReadAt n off = some ((proc.Memory.drop off).take n, n, none) := by
  unfold Process.ReadAt
  have h1 : ¬ proc.Memory.length < off := by omega
  have h2 : ¬ proc.Memory.length < n + off := by omega
  simp [h1, h2]

theorem ReadWasmMemory_in_bounds (proc : Process) (ptr len : Nat)
    (hp : ptr < 2 ^ 32) (hl : len < 2 ^ 32) (h : ptr + len ≤ proc.MemSize) :
    ReadWasmMemory proc ptr len = .ok ((proc.Memory.drop ptr).take len) := by
  unfold ReadWasmMemory
  have hm : (ptr + len) % 2 ^ 64 = ptr + len := Nat.mod_eq_of_lt (by omega)
  have h1 : ¬ proc.MemSize < ptr + len := by omega
  rw [hm, if_neg h1, ReadAt_in_bounds proc len ptr (by unfold Process.MemSize at h; omega)]

theorem ReadWasmMemory_out_of_bounds (proc : Process) (ptr len : Nat)
    (hp : ptr < 2 ^ 32) (hl : len < 2 ^ 32) (h : proc.MemSize < ptr + len) :
    ReadWasmMemory proc ptr len = .error .memoryTooSmall := by
  unfold ReadWasmMemory
  have hm : (ptr + len) % 2 ^ 64 = ptr + len := Nat.mod_eq_of_lt (by omega)
  rw [hm, if_pos h]

/-- C8: for every 32-bit `ptr` and `len` and every memory, `ReadWasmMemory` returns an
error if and only if `ptr + len` (the sum taken without 32-bit wrap-around) exceeds the
memory size; otherwise it neither errors nor faults and returns exactly the `len` bytes
of guest memory at offsets `ptr .. ptr+len-1`. -/
theorem C8_ReadWasmMemory_bounds (proc : Process) (ptr len : Nat)
    (hp : ptr < 2 ^ 32) (hl : len < 2 ^ 32) :
    ((∃ err, ReadWasmMemory proc ptr len = .error err) ↔ proc.MemSize < ptr + len) ∧
    ReadWasmMemory proc ptr len ≠ .fault ∧
    (ptr + len ≤ proc.MemSize →
      ∃ bs, ReadWasmMemory proc ptr len = .ok bs ∧ bs.length = len ∧
        ∀ i, i < len → bs[i]? = proc.Memory[ptr + i]?) := by
  by_cases h : proc.MemSize < ptr + len
  · have e := ReadWasmMemory_out_of_bounds proc ptr len hp hl h
    refine ⟨⟨fun _ => h, fun _ => ⟨_, e⟩⟩, (by rw [e]; simp), fun h2 => by omega⟩
  · have h2 : ptr + len ≤ proc.MemSize := by omega
    have e := ReadWasmMemory_in_bounds proc ptr len hp hl h2
    refine ⟨⟨fun ⟨err, he⟩ => (by rw [e] at he; cases he), fun h3 => absurd h3 h⟩,
      (by rw [e]; simp), fun _ => ⟨_, e, ?_, ?_⟩⟩
    · unfold Process.MemSize at h2
      simp only [List.length_take, List.length_drop]
      omega
    · intro i hi
      rw [List.getElem?_take_of_lt hi, List.getElem?_drop]

theorem C8_ReadWasmMemory_bounds_witness :
    ∃ bs, ReadWasmMemory sampleProc 60 4 = .ok bs ∧ bs.length = 4 ∧
      ∀ i, i < 4 → bs[i]? = sampleProc.Memory[60 + i]? :=
  (C8_ReadWasmMemory_bounds sampleProc 60 4 (by norm_num) (by norm_num)).2.2 (by decide)

/-! ## Host functions: gas and out-of-bounds reads -/

theorem checkGas_cases (proc : Process) (n : Nat) :
    checkGas proc n = .trap .insufficientGas proc ∨
    ∃ g, g ≤ proc.HostData.Service.GasLimit ∧ checkGas proc n = .ok () (proc.withGasLimit g) := by
  by_cases h : n ≤ proc.HostData.Service.GasLimit
  · right
    refine ⟨(proc.HostData.Service.GasLimit + 2 ^ 64 - n) % 2 ^ 64, ?_, ?_⟩
    · have e : proc.HostData.Service.GasLimit + 2 ^ 64 - n =
          (proc.HostData.Service.GasLimit - n) + 2 ^ 64 := by omega
      rw [e, Nat.add_mod_right]
      exact le_trans (Nat.mod_le _ _) (Nat.sub_le _ _)
    · unfold checkGas Process.withGasLimit
      simp only [ge_iff_le, h, if_true]
  · left
    exact checkGas_trap proc n (by omega)

theorem ReadWasmMemory_withGasLimit (proc : Process) (g ptr len : Nat) :
    ReadWasmMemory (proc.withGasLimit g) ptr len = ReadWasmMemory proc ptr len := rfl

theorem ReadAt_withGasLimit (proc : Process) (g n off : Nat) :
    (proc.withGasLimit g).ReadAt n off = proc.ReadAt n off := rfl

theorem Sha256_cost_exact (g slen : Nat) (hs : slen < 2 ^ 32) :
    Sha256Cost g slen = ((slen / 1024 + 1) * g) % 2 ^ 64 := by
  unfold Sha256Cost
  rw [Nat.mod_eq_of_lt (by omega : slen / 1024 + 1 < 2 ^ 32)]

theorem WriteAt_HostData (proc : Process) (p : List Nat) (off n : Nat) (e : Option HostError)
    (proc2 : Process) (h : proc.WriteAt p off = some (n, e, proc2)) :
    proc2.HostData = proc.HostData := by
  unfold Process.WriteAt at h
  by_cases hm : proc.Memory.length < off
  · simp [hm] at h
  · simp only [hm, if_false, Option.some.injEq, Prod.mk.injEq] at h
    obtain ⟨_, _, rfl⟩ := h
    rfl

theorem Sha256_gas_after (env : HostEnv) (proc : Process) (src slen dst : Nat)
    (hL : proc.HostData.Service.GasLimit < 2 ^ 64)
    (hc : Sha256Cost env.SHA256_GAS slen ≤ proc.HostData.Service.GasLimit) :
    (Sha256 env proc src slen dst).proc.HostData.Service.GasLimit =
      proc.HostData.Service.GasLimit - Sha256Cost env.SHA256_GAS slen := by
  unfold Sha256
  simp only [checkGas_ok proc _ hc hL, ReadWasmMemory_withGasLimit]
  cases ReadWasmMemory proc src slen with
  | error err => rfl
  | fault => rfl
  | ok bs =>
    simp only
    cases hw : (proc.withGasLimit (proc.HostData.Service.GasLimit -
        Sha256Cost env.SHA256_GAS slen)).WriteAt (env.sha256 bs) dst with
    | none => rfl
    | some r =>
      obtain ⟨n, e, p2⟩ := r
      have hh := WriteAt_HostData _ _ _ _ _ _ hw
      cases e <;> simp only [HostResult.proc, hh] <;> rfl

/-- C7 (the claim fails): with SHA256_GAS = 10 and a gas limit of 100, `sha256` of a
zero-length source leaves 90: it charges 10, not `ceil(0 / 1024) * 10 = 0`; and for a
source of 1024 bytes the cost is 20, not `ceil(1024 / 1024) * 10 = 10`. -/
theorem C7_sha256_cost_counterexample :
    sampleProc.HostData.Service.GasLimit = 100 ∧
    (Sha256 sampleEnv sampleProc 0 0 0).proc.HostData.Service.GasLimit = 90 ∧
    (0 + 1023) / 1024 * sampleEnv.SHA256_GAS = 0 ∧
    Sha256Cost sampleEnv.SHA256_GAS 1024 = 20 ∧
    (1024 + 1023) / 1024 * sampleEnv.SHA256_GAS = 10 := by
  refine ⟨rfl, ?_, rfl, rfl, rfl⟩
  decide

/-- C7 (amended): for every 32-bit source length `slen`, the gas `sha256` charges before
hashing is `(floor(slen / 1024) + 1) * SHA256_GAS` in 64-bit arithmetic: the 32-bit sum
does not wrap; the factor is `ceil(slen / 1024)` when `slen` is not a multiple of 1024
and `ceil(slen / 1024) + 1` when it is; a call whose gas limit covers the cost leaves
the limit lowered by exactly that cost, and a call whose limit does not traps with the
state unchanged. -/
theorem C7_sha256_charges_floor_plus_one (env : HostEnv) (proc : Process) (src slen dst : Nat)
    (hs : slen < 2 ^ 32) (hL : proc.HostData.Service.GasLimit < 2 ^ 64) :
    Sha256Cost env.SHA256_GAS slen = ((slen / 1024 + 1) * env.SHA256_GAS) % 2 ^ 64 ∧
    (slen % 1024 ≠ 0 → slen / 1024 + 1 = (slen + 1023) / 1024) ∧
    (slen % 1024 = 0 → slen / 1024 + 1 = (slen + 1023) / 1024 + 1) ∧
    (Sha256Cost env.SHA256_GAS slen ≤ proc.HostData.Service.GasLimit →
      (Sha256 env proc src slen dst).proc.HostData.Service.GasLimit =
        proc.HostData.Service.GasLimit - Sha256Cost env.SHA256_GAS slen) ∧
    (proc.HostData.Service.GasLimit < Sha256Cost env.SHA256_GAS slen →
      Sha256 env proc src slen dst = .trap .insufficientGas proc) := by
  refine ⟨Sha256_cost_exact _ _ hs, fun h => by omega, fun h => by omega,
    Sha256_gas_after env proc src slen dst hL, fun h => ?_⟩
  unfold Sha256
  simp only [checkGas_trap proc _ h]

theorem C7_sha256_charges_floor_plus_one_witness :
    Sha256Cost sampleEnv.SHA256_GAS 1024 = ((1024 / 1024 + 1) * sampleEnv.SHA256_GAS) % 2 ^ 64 ∧
    (Sha256 sampleEnv sampleProc 0 1024 0).proc.HostData.Service.GasLimit =
      sampleProc.HostData.Service.GasLimit - Sha256Cost sampleEnv.SHA256_GAS 1024 :=
  ⟨(C7_sha256_charges_floor_plus_one sampleEnv sampleProc 0 1024 0 (by norm_num)
      (by decide)).1,
   (C7_sha256_charges_floor_plus_one sampleEnv sampleProc 0 1024 0 (by norm_num)
      (by decide)).2.2.2.1 (by decide)⟩

theorem Sha256_out_of_bounds (env : HostEnv) (proc : Process) (src slen dst : Nat)
    (hp : src < 2 ^ 32) (hl : slen < 2 ^ 32) (hoob : proc.MemSize < src + slen) :
    (Sha256 env proc src slen dst).trapped = true ∧
    ∃ g, g ≤ proc.HostData.Service.GasLimit ∧
      (Sha256 env proc src slen dst).proc = proc.withGasLimit g := by
  have hr := ReadWasmMemory_out_of_bounds proc src slen hp hl hoob
  unfold Sha256
  rcases checkGas_cases proc (Sha256Cost env.SHA256_GAS slen) with hc | ⟨g, hg, hc⟩
  · simp only [hc]
    exact ⟨rfl, _, le_refl _, rfl⟩
  · simp only [hc, ReadWasmMemory_withGasLimit, hr]
    exact ⟨rfl, g, hg, rfl⟩

theorem Notify_out_of_bounds (env : HostEnv) (proc : Process) (ptr l : Nat)
    (hp : ptr < 2 ^ 32) (hl : l < 2 ^ 32) (hoob : proc.MemSize < ptr + l) :
    (Notify env proc ptr l).trapped = true ∧ (Notify env proc ptr l).proc = proc := by
  have hr := ReadWasmMemory_out_of_bounds proc ptr l hp hl hoob
  unfold Notify
  by_cases h : l ≥ env.MAX_NOTIFY_LENGTH
  · simp only [h, if_true]
    exact ⟨rfl, rfl⟩
  · simp only [h, if_false, hr]
    exact ⟨rfl, rfl⟩

theorem CallContract_out_of_bounds (env : HostEnv) (proc : Process)
    (contractAddr inputPtr inputLen : Nat)
    (hp : inputPtr < 2 ^ 32) (hl : inputLen < 2 ^ 32) (hoob : proc.MemSize < inputPtr + inputLen) :
    (CallContract env proc contractAddr inputPtr inputLen).trapped = true ∧
    ∃ g, g ≤ proc.HostData.Service.GasLimit ∧
      (CallContract env proc contractAddr inputPtr inputLen).proc = proc.withGasLimit g := by
  have hr := ReadWasmMemory_out_of_bounds proc inputPtr inputLen hp hl hoob
  unfold CallContract
  rcases checkGas_cases proc env.CALL_CONTRACT_GAS with hc | ⟨g, hg, hc⟩
  · simp only [hc]
    exact ⟨rfl, _, le_refl _, rfl⟩
  · simp only [hc, ReadWasmMemory_withGasLimit, ReadAt_withGasLimit, hr]
    cases proc.ReadAt 20 contractAddr with
    | none => exact ⟨rfl, g, hg, rfl⟩
    | some r =>
      obtain ⟨a, n, e⟩ := r
      cases e with
      | none => exact ⟨rfl, g, hg, rfl⟩
      | some err => exact ⟨rfl, g, hg, rfl⟩

/-- Every outcome of the shared preamble leaves the state as it was, except that the
gas limit may have been lowered. -/
theorem createPreamble_frame (env : HostEnv) (proc : Process)
    (codePtr codeLen vmType namePtr nameLen verPtr verLen authorPtr authorLen
      emailPtr emailLen descPtr descLen : Nat) :
    ∃ g, g ≤ proc.HostData.Service.GasLimit ∧
      (createPreamble env proc codePtr codeLen vmType namePtr nameLen verPtr verLen
        authorPtr authorLen emailPtr emailLen descPtr descLen).proc = proc.withGasLimit g := by
  unfold createPreamble
  cases ReadWasmMemory proc codePtr codeLen with
  | error err => exact ⟨_, le_refl _, rfl⟩
  | fault => exact ⟨_, le_refl _, rfl⟩
  | ok code =>
    simp only
    rcases checkGas_cases proc (createCost env codeLen) with hc | ⟨g, hg, hc⟩
    · simp only [hc]
      exact ⟨_, le_refl _, rfl⟩
    · simp only [hc]
      refine ⟨g, hg, ?_⟩
      repeat' split
      all_goals rfl

/-- The shared preamble succeeds only if each of its six guest-memory reads does. -/
theorem createPreamble_ok_reads (env : HostEnv) (proc : Process)
    (codePtr codeLen vmType namePtr nameLen verPtr verLen authorPtr authorLen
      emailPtr emailLen descPtr descLen : Nat) (r : DeployCode × Address) (p : Process)
    (h : createPreamble env proc codePtr codeLen vmType namePtr nameLen verPtr verLen
        authorPtr authorLen emailPtr emailLen descPtr descLen = .ok r p) :
    (∃ bs, ReadWasmMemory proc codePtr codeLen = .ok bs) ∧
    (∃ bs, ReadWasmMemory proc namePtr nameLen = .ok bs) ∧
    (∃ bs, ReadWasmMemory proc verPtr verLen = .ok bs) ∧
    (∃ bs, ReadWasmMemory proc authorPtr authorLen = .ok bs) ∧
    (∃ bs, ReadWasmMemory proc emailPtr emailLen = .ok bs) ∧
    (∃ bs, ReadWasmMemory proc descPtr descLen = .ok bs) := by
  unfold createPreamble at h
  cases h1 : ReadWasmMemory proc codePtr codeLen <;> simp only [h1] at h <;> try cases h
  rcases checkGas_cases proc (createCost env codeLen) with hc | ⟨g, hg, hc⟩
  · simp only [hc] at h; cases h
  simp only [hc, ReadWasmMemory_withGasLimit] at h
  cases h2 : ReadWasmMemory proc namePtr nameLen <;> simp only [h2] at h <;> try cases h
  cases h3 : ReadWasmMemory proc verPtr verLen <;> simp only [h3] at h <;> try cases h
  cases h4 : ReadWasmMemory proc authorPtr authorLen <;> simp only [h4] at h <;> try cases h
  cases h5 : ReadWasmMemory proc emailPtr emailLen <;> simp only [h5] at h <;> try cases h
  cases h6 : ReadWasmMemory proc descPtr descLen <;> simp only [h6] at h <;> try cases h
  exact ⟨⟨_, rfl⟩, ⟨_, rfl⟩, ⟨_, rfl⟩, ⟨_, rfl⟩, ⟨_, rfl⟩, ⟨_, rfl⟩⟩

/-- When one of the six `(ptr, len)` pairs of the shared preamble is out of bounds the
preamble traps, and the state is as before except for the gas limit. -/
theorem createPreamble_out_of_bounds (env : HostEnv) (proc : Process) (ptr len : Nat)
    (codePtr codeLen vmType namePtr nameLen verPtr verLen authorPtr authorLen
      emailPtr emailLen descPtr descLen : Nat)
    (hp : ptr < 2 ^ 32) (hl : len < 2 ^ 32) (hoob : proc.MemSize < ptr + len)
    (hpair : (codePtr = ptr ∧ codeLen = len) ∨ (namePtr = ptr ∧ nameLen = len) ∨
      (verPtr = ptr ∧ verLen = len) ∨ (authorPtr = ptr ∧ authorLen = len) ∨
      (emailPtr = ptr ∧ emailLen = len) ∨ (descPtr = ptr ∧ descLen = len)) :
    ∃ err g, g ≤ proc.HostData.Service.GasLimit ∧
      createPreamble env proc codePtr codeLen vmType namePtr nameLen verPtr verLen
        authorPtr authorLen emailPtr emailLen descPtr descLen =
        .trap err (proc.withGasLimit g) := by
  have hr := ReadWasmMemory_out_of_bounds proc ptr len hp hl hoob
  obtain ⟨g, hg, hf⟩ := createPreamble_frame env proc codePtr codeLen vmType namePtr nameLen
    verPtr verLen authorPtr authorLen emailPtr emailLen descPtr descLen
  cases hres : createPreamble env proc codePtr codeLen vmType namePtr nameLen verPtr verLen
      authorPtr authorLen emailPtr emailLen descPtr descLen with
  | trap err p =>
    rw [hres] at hf
    exact ⟨err, g, hg, by rw [← hf]; rfl⟩
  | ok r p =>
    exfalso
    obtain ⟨⟨_, h1⟩, ⟨_, h2⟩, ⟨_, h3⟩, ⟨_, h4⟩, ⟨_, h5⟩, ⟨_, h6⟩⟩ :=
      createPreamble_ok_reads env proc _ _ _ _ _ _ _ _ _ _ _ _ _ r p hres
    rcases hpair with ⟨rfl, rfl⟩ | ⟨rfl, rfl⟩ | ⟨rfl, rfl⟩ | ⟨rfl, rfl⟩ | ⟨rfl, rfl⟩ | ⟨rfl, rfl⟩
    · rw [hr] at h1; cases h1
    · rw [hr] at h2; cases h2
    · rw [hr] at h3; cases h3
    · rw [hr] at h4; cases h4
    · rw [hr] at h5; cases h5
    · rw [hr] at h6; cases h6

theorem createPreamble_code_out_of_bounds (env : HostEnv) (proc : Process)
    (codePtr codeLen vmType namePtr nameLen verPtr verLen authorPtr authorLen
      emailPtr emailLen descPtr descLen : Nat)
    (hp : codePtr < 2 ^ 32) (hl : codeLen < 2 ^ 32) (hoob : proc.MemSize < codePtr + codeLen) :
    createPreamble env proc codePtr codeLen vmType namePtr nameLen verPtr verLen
      authorPtr authorLen emailPtr emailLen descPtr descLen = .trap .memoryTooSmall proc := by
  unfold createPreamble
  simp only [ReadWasmMemory_out_of_bounds proc codePtr codeLen hp hl hoob]

/-- C9 (the claim fails): in a 64-byte memory with a gas limit of 100, `debug` with
`ptr + len = 68` does not trap (it returns normally), and `sha256` with the same pair
traps only after its gas was charged: the limit is 90 afterwards, not 100. -/
theorem C9_out_of_bounds_counterexample :
    sampleProc.MemSize < 60 + 8 ∧
    Debug sampleProc 60 8 = .ok () sampleProc ∧
    Sha256 sampleEnv sampleProc 60 8 0 = .trap .memoryTooSmall (sampleProc.withGasLimit 90) ∧
    sampleProc.HostData.Service.GasLimit = 100 := by
  decide

/-- C9 (amended): for every 32-bit pair with `ptr + len > mem_size`:
`return` and `notify` trap and leave the whole state unchanged; `debug` does not trap,
it returns normally with the state unchanged; `sha256` and `call_contract` trap, and
`contract_create` and `contract_migrate` trap when any of their six `(ptr, len)` pairs
is that pair, leaving Output, CallOutPut, the cache, the notifications and the guest
memory unchanged while the gas limit is either unchanged or lowered by the charge
made before the read (it is unchanged when the pair is the code pair of
`contract_create` or `contract_migrate`). -/
theorem C9_out_of_bounds_read_traps (env : HostEnv) (proc : Process) (ptr len : Nat)
    (hp : ptr < 2 ^ 32) (hl : len < 2 ^ 32) (hoob : proc.MemSize < ptr + len) :
    Ret proc ptr len = .trap .memoryTooSmall proc ∧
    ((Notify env proc ptr len).trapped = true ∧ (Notify env proc ptr len).proc = proc) ∧
    Debug proc ptr len = .ok () proc ∧
    (∀ dst, (Sha256 env proc ptr len dst).trapped = true ∧
      ∃ g, g ≤ proc.HostData.Service.GasLimit ∧
        (Sha256 env proc ptr len dst).proc = proc.withGasLimit g) ∧
    (∀ contractAddr, (CallContract env proc contractAddr ptr len).trapped = true ∧
      ∃ g, g ≤ proc.HostData.Service.GasLimit ∧
        (CallContract env proc contractAddr ptr len).proc = proc.withGasLimit g) ∧
    (∀ vmType namePtr nameLen verPtr verLen authorPtr authorLen emailPtr emailLen
        descPtr descLen newAddressPtr,
      ContractCreate env proc ptr len vmType namePtr nameLen verPtr verLen authorPtr
        authorLen emailPtr emailLen descPtr descLen newAddressPtr =
          .trap .memoryTooSmall proc ∧
      ContractMigrate env proc ptr len vmType namePtr nameLen verPtr verLen authorPtr
        authorLen emailPtr emailLen descPtr descLen newAddressPtr =
          .trap .memoryTooSmall proc) ∧
    (∀ codePtr codeLen vmType namePtr nameLen verPtr verLen authorPtr authorLen emailPtr
        emailLen descPtr descLen newAddressPtr,
      ((codePtr = ptr ∧ codeLen = len) ∨ (namePtr = ptr ∧ nameLen = len) ∨
        (verPtr = ptr ∧ verLen = len) ∨ (authorPtr = ptr ∧ authorLen = len) ∨
        (emailPtr = ptr ∧ emailLen = len) ∨ (descPtr = ptr ∧ descLen = len)) →
      ∃ e1 e2 g, g ≤ proc.HostData.Service.GasLimit ∧
        ContractCreate env proc codePtr codeLen vmType namePtr nameLen verPtr verLen
          authorPtr authorLen emailPtr emailLen descPtr descLen newAddressPtr =
            .trap e1 (proc.withGasLimit g) ∧
        ContractMigrate env proc codePtr codeLen vmType namePtr nameLen verPtr verLen
          authorPtr authorLen emailPtr emailLen descPtr descLen newAddressPtr =
            .trap e2 (proc.withGasLimit g)) := by
  have hr := ReadWasmMemory_out_of_bounds proc ptr len hp hl hoob
  refine ⟨by simp only [Ret, hr], Notify_out_of_bounds env proc ptr len hp hl hoob,
    by simp only [Debug, hr], fun dst => Sha256_out_of_bounds env proc ptr len dst hp hl hoob,
    fun a => CallContract_out_of_bounds env proc a ptr len hp hl hoob, ?_, ?_⟩
  · intro vmType namePtr nameLen verPtr verLen authorPtr authorLen emailPtr emailLen
      descPtr descLen newAddressPtr
    have hpre := createPreamble_code_out_of_bounds env proc ptr len vmType namePtr nameLen
      verPtr verLen authorPtr authorLen emailPtr emailLen descPtr descLen hp hl hoob
    exact ⟨by simp only [ContractCreate, hpre], by simp only [ContractMigrate, hpre]⟩
  · intro codePtr codeLen vmType namePtr nameLen verPtr verLen authorPtr authorLen emailPtr
      emailLen descPtr descLen newAddressPtr hpair
    obtain ⟨err, g, hg, hpre⟩ := createPreamble_out_of_bounds env proc ptr len codePtr codeLen
      vmType namePtr nameLen verPtr verLen authorPtr authorLen emailPtr emailLen descPtr
      descLen hp hl hoob hpair
    exact ⟨err, err, g, hg, by simp only [ContractCreate, hpre],
      by simp only [ContractMigrate, hpre]⟩

theorem C9_out_of_bounds_read_traps_witness :
    sampleProc.MemSize < 60 + 8 ∧
    Ret sampleProc 60 8 = .trap .memoryTooSmall sampleProc ∧
    Debug sampleProc 60 8 = .ok () sampleProc :=
  ⟨by decide,
   (C9_out_of_bounds_read_traps sampleEnv sampleProc 60 8 (by norm_num) (by norm_num)
      (by decide)).1,
   (C9_out_of_bounds_read_traps sampleEnv sampleProc 60 8 (by norm_num) (by norm_num)
      (by decide)).2.2.1⟩

/-- C10 (the code at the failing input): when the guest-memory read of the message
fails (`ptr + len > mem_size`), `RaiseException`, the host function `panic`, does not
trap: it returns normally to the guest with the state unchanged. It traps, with the
message, only when the read succeeds. -/
theorem C10_panic_returns_when_read_fails (proc : Process) (ptr len : Nat)
    (hp : ptr < 2 ^ 32) (hl : len < 2 ^ 32) :
    (proc.MemSize < ptr + len →
      RaiseException proc ptr len = .ok () proc ∧
      (RaiseException proc ptr len).trapped = false) ∧
    (ptr + len ≤ proc.MemSize →
      RaiseException proc ptr len =
        .trap (.raiseException ((proc.Memory.drop ptr).take len)) proc) := by
  refine ⟨fun hoob => ?_, fun hin => ?_⟩
  · have hr := ReadWasmMemory_out_of_bounds proc ptr len hp hl hoob
    simp only [RaiseException, hr, HostResult.trapped, and_self]
  · have hr := ReadWasmMemory_in_bounds proc ptr len hp hl hin
    simp only [RaiseException, hr]

theorem C10_panic_returns_when_read_fails_witness :
    sampleProc.MemSize < 60 + 8 ∧
    RaiseException sampleProc 60 8 = .ok () sampleProc ∧
    (RaiseException sampleProc 60 8).trapped = false :=
  ⟨by decide,
   (C10_panic_returns_when_read_fails sampleProc 60 8 (by norm_num) (by norm_num)).1
     (by decide)⟩

/-! ## Contract type resolution and cross-contract calls -/

theorem getContractType_native (env : HostEnv) (self : Runtime) (addr : Address)
    (h : env.IsNativeContract addr = true) :
    getContractType env self addr = some (.NATIVE_CONTRACT, none) := by
  simp [getContractType, h]

theorem getContractType_absent (env : HostEnv) (self : Runtime) (addr : Address)
    (h : env.IsNativeContract addr = false)
    (hg : self.Service.CacheDB.GetContract addr = none) :
    getContractType env self addr = some (.UNKOWN_CONTRACT, some .contractNotExist) := by
  simp [getContractType, h, hg]

theorem CallContract_unknown_traps (env : HostEnv) (proc : Process)
    (contractAddr inputPtr inputLen : Nat) (a : Address) (n : Nat)
    (hr : proc.ReadAt 20 contractAddr = some (a, n, none))
    (hn : env.IsNativeContract a = false)
    (hg : proc.HostData.Service.CacheDB.GetContract a = none) :
    (CallContract env proc contractAddr inputPtr inputLen).trapped = true := by
  unfold CallContract
  rcases checkGas_cases proc env.CALL_CONTRACT_GAS with hc | ⟨g, _, hc⟩
  · simp only [hc]; rfl
  · simp only [hc, ReadAt_withGasLimit, hr, ReadWasmMemory_withGasLimit]
    cases ReadWasmMemory proc inputPtr inputLen with
    | error err => rfl
    | fault => rfl
    | ok inputs =>
      have hk : getContractType env (proc.withGasLimit g).HostData a =
          some (.UNKOWN_CONTRACT, some .contractNotExist) :=
        getContractType_absent env _ a hn hg
      simp only [hk]
      rfl

/-- C11: for every address `a`, `getContractType a` returns NATIVE when `a` is a native
contract address, whatever is stored under `a`; otherwise WASMVM when the DeployCode
stored at `a` has vm type WASM; otherwise NEOVM when a DeployCode with vm flags 0 or 1
is stored; otherwise (no DeployCode stored) UNKNOWN together with an error, and a
`call_contract` to such an address traps. -/
theorem C11_getContractType_resolution (env : HostEnv) (self : Runtime) (addr : Address)
    (proc : Process) (contractAddr inputPtr inputLen n : Nat) :
    (env.IsNativeContract addr = true →
      getContractType env self addr = some (.NATIVE_CONTRACT, none)) ∧
    (∀ dep, env.IsNativeContract addr = false →
      self.Service.CacheDB.GetContract addr = some dep → dep.VmType = some WASMVM_TYPE →
      getContractType env self addr = some (.WASMVM_CONTRACT, none)) ∧
    (∀ dep, env.IsNativeContract addr = false →
      self.Service.CacheDB.GetContract addr = some dep → (dep.vmFlags = 0 ∨ dep.vmFlags = 1) →
      getContractType env self addr = some (.NEOVM_CONTRACT, none)) ∧
    (env.IsNativeContract addr = false → self.Service.CacheDB.GetContract addr = none →
      getContractType env self addr = some (.UNKOWN_CONTRACT, some .contractNotExist)) ∧
    (proc.ReadAt 20 contractAddr = some (addr, n, none) →
      env.IsNativeContract addr = false →
      proc.HostData.Service.CacheDB.GetContract addr = none →
      (CallContract env proc contractAddr inputPtr inputLen).trapped = true) := by
  refine ⟨getContractType_native env self addr, ?_, ?_, getContractType_absent env self addr,
    CallContract_unknown_traps env proc contractAddr inputPtr inputLen addr n⟩
  · intro dep hn hg hv
    simp [getContractType, hn, hg, hv]
  · intro dep hn hg hf
    have hv : dep.VmType = some NEOVM_TYPE := by
      unfold DeployCode.VmType
      rcases hf with h | h <;> simp [h]
    simp [getContractType, hn, hg, hv, NEOVM_TYPE, WASMVM_TYPE]

theorem checkGas_ok_inv (proc : Process) (n : Nat) (p : Process)
    (h : checkGas proc n = .ok () p) :
    ∃ g, g ≤ proc.HostData.Service.GasLimit ∧ p = proc.withGasLimit g := by
  rcases checkGas_cases proc n with hc | ⟨g, hg, hc⟩
  · rw [hc] at h; cases h
  · rw [hc] at h
    injection h with _ h
    exact ⟨g, hg, h.symm⟩

theorem CreateDeployCode_ok (code : List Nat) (vmType : Nat)
    (name version author email desc : List Nat) (d : DeployCode)
    (h : CreateDeployCode code vmType name version author email desc = .ok d) :
    d = { code := code, vmFlags := vmType, Name := name, Version := version, Author := author,
          Email := email, Description := desc, address := ADDRESS_EMPTY } ∧
    validateDeployCode d = none := by
  unfold CreateDeployCode at h
  split_ifs at h
  simp only at h
  split at h
  · cases h
  · rename_i hval
    injection h with h
    subst h
    exact ⟨rfl, hval⟩

theorem Address_of_fresh (AddressFromVmCode : List Nat → Address) (d : DeployCode)
    (h : d.address = ADDRESS_EMPTY) :
    (d.Address AddressFromVmCode).1 = AddressFromVmCode d.code ∧
    (d.Address AddressFromVmCode).2 = { d with address := AddressFromVmCode d.code } ∧
    ((d.Address AddressFromVmCode).2.Address AddressFromVmCode).1 = AddressFromVmCode d.code := by
  refine ⟨by simp [DeployCode.Address, h], by simp [DeployCode.Address, h], ?_⟩
  simp only [DeployCode.Address, h, if_true]
  split_ifs with h2
  · rfl
  · rfl

theorem GetWasmCode_ok (d : DeployCode) (c : List Nat) (h : d.GetWasmCode = .ok c) :
    d.vmFlags = 3 ∧ c = d.code := by
  unfold DeployCode.GetWasmCode DeployCode.VmType at h
  by_cases h3 : d.vmFlags = 3
  · simp [h3, WASMVM_TYPE] at h
    exact ⟨h3, h.symm⟩
  · by_cases h01 : d.vmFlags = 0 ∨ d.vmFlags = 1
    · simp [h01, NEOVM_TYPE, WASMVM_TYPE] at h
    · simp [h01, h3] at h

/-- What a successful preamble did: it charged gas and changed nothing else, read the
six fields, built a valid WASM-flagged DeployCode from them, loaded and verified its
code as a module, and found no DeployCode stored at the address of the code. -/
theorem createPreamble_ok_inv (env : HostEnv) (proc : Process)
    (codePtr codeLen vmType namePtr nameLen verPtr verLen authorPtr authorLen
      emailPtr emailLen descPtr descLen : Nat) (dep : DeployCode) (addr : Address)
    (p : Process)
    (h : createPreamble env proc codePtr codeLen vmType namePtr nameLen verPtr verLen
        authorPtr authorLen emailPtr emailLen descPtr descLen = .ok (dep, addr) p) :
    ∃ g code name version author email desc m,
      g ≤ proc.HostData.Service.GasLimit ∧ p = proc.withGasLimit g ∧
      ReadWasmMemory proc codePtr codeLen = .ok code ∧
      ReadWasmMemory proc namePtr nameLen = .ok name ∧
      ReadWasmMemory proc verPtr verLen = .ok version ∧
      ReadWasmMemory proc authorPtr authorLen = .ok author ∧
      ReadWasmMemory proc emailPtr emailLen = .ok email ∧
      ReadWasmMemory proc descPtr descLen = .ok desc ∧
      vmType = 3 ∧
      ReadWasmModule env.lib code true = .ok m ∧
      addr = env.AddressFromVmCode code ∧
      dep = { code := code, vmFlags := 3, Name := name, Version := version, Author := author,
              Email := email, Description := desc, address := env.AddressFromVmCode code } ∧
      validateDeployCode dep = none ∧
      proc.HostData.Service.CacheDB.GetContract addr = none := by
  unfold createPreamble at h
  cases h1 : ReadWasmMemory proc codePtr codeLen <;> simp only [h1] at h <;> try cases h
  rename_i code
  rcases checkGas_cases proc (createCost env codeLen) with hc | ⟨g, hg, hc⟩
  · simp only [hc] at h; cases h
  simp only [hc, ReadWasmMemory_withGasLimit] at h
  cases h2 : ReadWasmMemory proc namePtr nameLen <;> simp only [h2] at h <;> try cases h
  rename_i name
  cases h3 : ReadWasmMemory proc verPtr verLen <;> simp only [h3] at h <;> try cases h
  rename_i version
  cases h4 : ReadWasmMemory proc authorPtr authorLen <;> simp only [h4] at h <;> try cases h
  rename_i author
  cases h5 : ReadWasmMemory proc emailPtr emailLen <;> simp only [h5] at h <;> try cases h
  rename_i email
  cases h6 : ReadWasmMemory proc descPtr descLen <;> simp only [h6] at h <;> try cases h
  rename_i desc
  cases h7 : CreateDeployCode code vmType name version author email desc <;>
    simp only [h7] at h <;> try cases h
  rename_i dep0
  obtain ⟨hd0, hval⟩ := CreateDeployCode_ok _ _ _ _ _ _ _ _ h7
  cases h8 : dep0.GetWasmCode <;> simp only [h8] at h <;> try cases h
  rename_i wasmCode
  obtain ⟨hflag, hwc⟩ := GetWasmCode_ok _ _ h8
  cases h9 : ReadWasmModule env.lib wasmCode true <;> simp only [h9] at h <;> try cases h
  rename_i m
  have hfresh : dep0.address = ADDRESS_EMPTY := by rw [hd0]
  obtain ⟨ha1, ha2, _⟩ := Address_of_fresh env.AddressFromVmCode dep0 hfresh
  split_ifs at h with hex
  simp only [HostResult.ok.injEq, Prod.mk.injEq] at h
  obtain ⟨⟨hdep, haddr⟩, hp⟩ := h
  have hcode : dep0.code = code := by rw [hd0]
  have hvm : vmType = 3 := by rw [hd0] at hflag; exact hflag
  subst hvm
  refine ⟨g, code, name, version, author, email, desc, m, hg, hp.symm, rfl, rfl, rfl, rfl, rfl,
    rfl, rfl, ?_, ?_, ?_, ?_, ?_⟩
  · rw [← hcode, ← hwc]; exact h9
  · rw [← haddr, ha1, hcode]
  · rw [← hdep, ha2, hd0]
  · rw [← hdep, ha2]; exact hval
  · rw [← haddr]
    have hex2 : (proc.HostData.Service.CacheDB.GetContract
        (dep0.Address env.AddressFromVmCode).1).isSome = false := by
      simpa [isContractExist] using hex
    cases hgc : proc.HostData.Service.CacheDB.GetContract
        (dep0.Address env.AddressFromVmCode).1 with
    | none => rfl
    | some x => rw [hgc] at hex2; cases hex2

theorem ContractCreate_of_preamble_trap (env : HostEnv) (proc : Process)
    (codePtr codeLen vmType namePtr nameLen verPtr verLen authorPtr authorLen
      emailPtr emailLen descPtr descLen newAddressPtr : Nat) (err : HostError) (p : Process)
    (h : createPreamble env proc codePtr codeLen vmType namePtr nameLen verPtr verLen
        authorPtr authorLen emailPtr emailLen descPtr descLen = .trap err p) :
    ∃ g, g ≤ proc.HostData.Service.GasLimit ∧
      ContractCreate env proc codePtr codeLen vmType namePtr nameLen verPtr verLen
        authorPtr authorLen emailPtr emailLen descPtr descLen newAddressPtr =
        .trap err (proc.withGasLimit g) := by
  obtain ⟨g, hg, hf⟩ := createPreamble_frame env proc codePtr codeLen vmType namePtr nameLen
    verPtr verLen authorPtr authorLen emailPtr emailLen descPtr descLen
  rw [h] at hf
  have hp : p = proc.withGasLimit g := hf
  exact ⟨g, hg, by simp only [ContractCreate, h, hp]⟩

/-- C16: for every `contract_create` whose code (the bytes read at the code pair) hashes
to an address that already has a DeployCode in the cache, the call traps; the state it
leaves differs from the state before at most in the gas limit, so the stored DeployCode
at that address is unchanged and nothing is written to guest memory. -/
theorem C16_create_existing_traps (env : HostEnv) (proc : Process)
    (codePtr codeLen vmType namePtr nameLen verPtr verLen authorPtr authorLen
      emailPtr emailLen descPtr descLen newAddressPtr : Nat) (code : List Nat)
    (dc : DeployCode)
    (hread : ReadWasmMemory proc codePtr codeLen = .ok code)
    (hexists : proc.HostData.Service.CacheDB.GetContract (env.AddressFromVmCode code) = some dc) :
    ∃ err g, g ≤ proc.HostData.Service.GasLimit ∧
      ContractCreate env proc codePtr codeLen vmType namePtr nameLen verPtr verLen
        authorPtr authorLen emailPtr emailLen descPtr descLen newAddressPtr =
        .trap err (proc.withGasLimit g) ∧
      (proc.withGasLimit g).HostData.Service.CacheDB.GetContract (env.AddressFromVmCode code) =
        some dc ∧
      (proc.withGasLimit g).HostData.Service.CacheDB = proc.HostData.Service.CacheDB ∧
      (proc.withGasLimit g).Memory = proc.Memory := by
  cases hpre : createPreamble env proc codePtr codeLen vmType namePtr nameLen verPtr verLen
      authorPtr authorLen emailPtr emailLen descPtr descLen with
  | trap err p =>
    obtain ⟨g, hg, hc⟩ := ContractCreate_of_preamble_trap env proc codePtr codeLen vmType
      namePtr nameLen verPtr verLen authorPtr authorLen emailPtr emailLen descPtr descLen
      newAddressPtr err p hpre
    exact ⟨err, g, hg, hc, hexists, rfl, rfl⟩
  | ok r p =>
    exfalso
    obtain ⟨dep, addr⟩ := r
    obtain ⟨g, code2, _, _, _, _, _, _, _, _, h1, _, _, _, _, _, _, _, haddr, _, _, hnone⟩ :=
      createPreamble_ok_inv env proc _ _ _ _ _ _ _ _ _ _ _ _ _ dep addr p hpre
    rw [hread] at h1
    injection h1 with h1
    subst h1
    rw [haddr, hexists] at hnone
    cases hnone

theorem C16_create_existing_traps_witness :
    ∃ err g, g ≤ sampleDeployedProc.HostData.Service.GasLimit ∧
      ContractCreate sampleDeployEnv sampleDeployedProc 0 4 3 0 0 0 0 0 0 0 0 0 0 32 =
        .trap err (sampleDeployedProc.withGasLimit g) ∧
      (sampleDeployedProc.withGasLimit g).HostData.Service.CacheDB.GetContract
        (sampleDeployEnv.AddressFromVmCode [0, 97, 115, 109]) = some sampleDeploy ∧
      (sampleDeployedProc.withGasLimit g).HostData.Service.CacheDB =
        sampleDeployedProc.HostData.Service.CacheDB ∧
      (sampleDeployedProc.withGasLimit g).Memory = sampleDeployedProc.Memory :=
  C16_create_existing_traps sampleDeployEnv sampleDeployedProc 0 4 3 0 0 0 0 0 0 0 0 0 0 32
    [0, 97, 115, 109] sampleDeploy (by decide) (by decide)

theorem WriteAt_short (proc : Process) (p : List Nat) (off : Nat)
    (h1 : off ≤ proc.Memory.length) (h2 : proc.Memory.length < off + p.length) :
    ∃ proc2, proc.WriteAt p off = some (proc.Memory.length - off, some .shortWrite, proc2) := by
  unfold Process.WriteAt
  have a1 : ¬ proc.Memory.length < off := by omega
  have a2 : proc.Memory.length < p.length + off := by omega
  have a3 : proc.Memory.length - off < p.length := by omega
  simp only [a1, a2, a3, if_true, if_false]
  exact ⟨_, rfl⟩

theorem ContractCreate_tail_short (q : Process) (addr : Address) (ptr : Nat)
    (hlen : addr.length = 20) (h1 : ptr ≤ q.Memory.length) (h2 : q.Memory.length < ptr + 20) :
    ∃ p2, (match q.WriteAt addr ptr with
      | none => HostResult.trap .runtimeFault q
      | some (length, _, proc) => HostResult.ok (length % 2 ^ 32) proc) =
      HostResult.ok (q.Memory.length - ptr) p2 := by
  obtain ⟨proc2, hw⟩ := WriteAt_short q addr ptr h1 (by rw [hlen]; exact h2)
  rw [hw]
  exact ⟨proc2, by simp only; rw [Nat.mod_eq_of_lt (by omega)]⟩

/-- C17 (the code at the failing input): when the preamble of `contract_create`
succeeds and the 20 address bytes do not fit in guest memory after `out_addr_ptr`
(`out_addr_ptr <= mem_size < out_addr_ptr + 20`), the call does not trap: the error of
the final `WriteAt` is dropped, only `mem_size - out_addr_ptr` bytes are written and that
number, below 20, is returned to the guest. -/
theorem C17_create_returns_after_short_write (env : HostEnv) (proc : Process)
    (codePtr codeLen vmType namePtr nameLen verPtr verLen authorPtr authorLen
      emailPtr emailLen descPtr descLen newAddressPtr : Nat) (dep : DeployCode)
    (addr : Address) (p : Process)
    (hpre : createPreamble env proc codePtr codeLen vmType namePtr nameLen verPtr verLen
        authorPtr authorLen emailPtr emailLen descPtr descLen = .ok (dep, addr) p)
    (hlen : addr.length = 20)
    (h1 : newAddressPtr ≤ proc.MemSize) (h2 : proc.MemSize < newAddressPtr + 20) :
    proc.MemSize - newAddressPtr < 20 ∧
    ∃ p2, ContractCreate env proc codePtr codeLen vmType namePtr nameLen verPtr verLen
        authorPtr authorLen emailPtr emailLen descPtr descLen newAddressPtr =
        .ok (proc.MemSize - newAddressPtr) p2 := by
  have hlt : proc.MemSize - newAddressPtr < 20 := by omega
  refine ⟨hlt, ?_⟩
  obtain ⟨g, hg, hf⟩ := createPreamble_frame env proc codePtr codeLen vmType namePtr nameLen
    verPtr verLen authorPtr authorLen emailPtr emailLen descPtr descLen
  rw [hpre] at hf
  have hp : p = proc.withGasLimit g := hf
  subst hp
  unfold ContractCreate
  simp only [hpre]
  exact ContractCreate_tail_short _ addr newAddressPtr hlen h1 h2

theorem C17_create_returns_after_short_write_witness :
    ∃ p2, ContractCreate sampleDeployEnv sampleCodeProc 0 4 3 0 0 0 0 0 0 0 0 0 0 60 =
      .ok (sampleCodeProc.MemSize - 60) p2 :=
  (C17_create_returns_after_short_write sampleDeployEnv sampleCodeProc 0 4 3 0 0 0 0 0 0 0 0 0 0
    60 { sampleDeploy with Name := [], Version := [], Author := [], Email := [],
                           Description := [], address := sampleHash [0, 97, 115, 109] }
    (sampleHash [0, 97, 115, 109]) (sampleCodeProc.withGasLimit 90) (by decide) (by decide)
    (by decide) (by decide)).2

/-- C18 (the claim fails): `contract_create` with vm_type 1, a 4-byte code, empty
metadata, a gas limit of 100 for a cost of 10 and no contract deployed traps with "not
wasm contract" and stores nothing, although `CreateDeployCode` accepts these fields. -/
theorem C18_create_stack_vm_counterexample :
    ContractCreate sampleDeployEnv sampleCodeProc 0 4 1 0 0 0 0 0 0 0 0 0 0 32 =
      .trap (.deploy .notWasmContract) (sampleCodeProc.withGasLimit 90) ∧
    (∃ d, CreateDeployCode [0, 97, 115, 109] 1 [] [] [] [] [] = .ok d) ∧
    createCost sampleDeployEnv 4 = 10 ∧
    sampleCodeProc.HostData.Service.CacheDB.contracts = [] := by
  refine ⟨by decide, ⟨_, rfl⟩, by decide, rfl⟩

/-- C18 (amended): `contract_create` accepts vm_type 3 only. For every other vm_type,
0 and 1 included, the call traps whatever the fields, gas and deployed contracts are,
and leaves the state unchanged but for the gas limit, so nothing is stored; and a call
that returns had vm_type 3 and a code that `ReadWasmModule` loaded and verified. -/
theorem C18_create_accepts_wasm_only (env : HostEnv) (proc : Process)
    (codePtr codeLen vmType namePtr nameLen verPtr verLen authorPtr authorLen
      emailPtr emailLen descPtr descLen newAddressPtr : Nat) :
    (vmType ≠ 3 →
      ∃ err g, g ≤ proc.HostData.Service.GasLimit ∧
        ContractCreate env proc codePtr codeLen vmType namePtr nameLen verPtr verLen
          authorPtr authorLen emailPtr emailLen descPtr descLen newAddressPtr =
          .trap err (proc.withGasLimit g)) ∧
    (∀ v p, ContractCreate env proc codePtr codeLen vmType namePtr nameLen verPtr verLen
        authorPtr authorLen emailPtr emailLen descPtr descLen newAddressPtr = .ok v p →
      vmType = 3 ∧ ∃ code m, ReadWasmMemory proc codePtr codeLen = .ok code ∧
        ReadWasmModule env.lib code true = .ok m) := by
  have key : ∀ r p, createPreamble env proc codePtr codeLen vmType namePtr nameLen verPtr
      verLen authorPtr authorLen emailPtr emailLen descPtr descLen = .ok r p →
      vmType = 3 ∧ ∃ code m, ReadWasmMemory proc codePtr codeLen = .ok code ∧
        ReadWasmModule env.lib code true = .ok m := by
    intro r p hpre
    obtain ⟨dep, addr⟩ := r
    obtain ⟨g, code, _, _, _, _, _, m, _, _, h1, _, _, _, _, _, hvm, hmod, _⟩ :=
      createPreamble_ok_inv env proc _ _ _ _ _ _ _ _ _ _ _ _ _ dep addr p hpre
    exact ⟨hvm, code, m, h1, hmod⟩
  constructor
  · intro hne
    cases hpre : createPreamble env proc codePtr codeLen vmType namePtr nameLen verPtr verLen
        authorPtr authorLen emailPtr emailLen descPtr descLen with
    | trap err p =>
      obtain ⟨g, hg, hc⟩ := ContractCreate_of_preamble_trap env proc codePtr codeLen vmType
        namePtr nameLen verPtr verLen authorPtr authorLen emailPtr emailLen descPtr descLen
        newAddressPtr err p hpre
      exact ⟨err, g, hg, hc⟩
    | ok r p => exact absurd (key r p hpre).1 hne
  · intro v p hok
    cases hpre : createPreamble env proc codePtr codeLen vmType namePtr nameLen verPtr verLen
        authorPtr authorLen emailPtr emailLen descPtr descLen with
    | trap err p0 =>
      simp only [ContractCreate, hpre] at hok
      cases hok
    | ok r p0 => exact key r p0 hpre

/-! ## The cache: deletes, puts and the iterator -/

theorem CacheDB_Get_eq_none_iff (db : CacheDB) (key : List Nat) :
    db.Get key = none ↔ ∀ e ∈ db.store, e.1 ≠ key := by
  simp [CacheDB.Get]

theorem foldl_Delete_contracts (L : List (List Nat × List Nat)) (db : CacheDB) :
    (L.foldl (fun db e => db.Delete e.1) db).contracts = db.contracts ∧
    (L.foldl (fun db e => db.Delete e.1) db).iterFault = db.iterFault := by
  induction L generalizing db with
  | nil => exact ⟨rfl, rfl⟩
  | cons e L ih =>
    rw [List.foldl_cons]
    exact ih (db.Delete e.1)

theorem mem_foldl_Delete (L : List (List Nat × List Nat)) (db : CacheDB)
    (x : List Nat × List Nat) :
    x ∈ (L.foldl (fun db e => db.Delete e.1) db).store ↔
      x ∈ db.store ∧ ∀ e ∈ L, x.1 ≠ e.1 := by
  induction L generalizing db with
  | nil => simp
  | cons e L ih =>
    rw [List.foldl_cons, ih]
    simp only [CacheDB.Delete, List.mem_filter, decide_eq_true_eq, List.mem_cons,
      forall_eq_or_imp]
    tauto

theorem mem_NewIterator (db : CacheDB) (pre : List Nat) (x : List Nat × List Nat)
    (h : (db.NewIterator pre).err = none) :
    x ∈ (db.NewIterator pre).entries ↔ x ∈ db.store ∧ pre <+: x.1 := by
  unfold CacheDB.NewIterator at h ⊢
  cases hf : db.iterFault with
  | some f => simp [hf] at h
  | none =>
    simp only [hf, List.mem_insertionSort, List.mem_filter, List.isPrefixOf_iff_prefix]

theorem GetContract_DeleteContract (db : CacheDB) (addr : Address) :
    (db.DeleteContract addr).GetContract addr = none := by
  simp [CacheDB.GetContract, CacheDB.DeleteContract]

/-- C15: after every `contract_destroy` whose iteration reports no error, with `self`
the address of the current context: the call returns, no key that begins with `self`
remains in the live view of the cache, `GetContract self` is absent, and the VM is
terminated. -/
theorem C15_destroy_sweeps_contract (proc : Process) (ctx : Context)
    (hctx : proc.HostData.Service.ContextRef.CurrentContext = some ctx)
    (hiter : (proc.HostData.Service.CacheDB.NewIterator ctx.ContractAddress).err = none) :
    ∃ p, ContractDestroy proc = .ok () p ∧
      (∀ key, ctx.ContractAddress <+: key → p.HostData.Service.CacheDB.Get key = none) ∧
      p.HostData.Service.CacheDB.GetContract ctx.ContractAddress = none ∧
      p.Terminated = true := by
  unfold ContractDestroy
  simp only [hctx, hiter]
  refine ⟨_, rfl, ?_, ?_, rfl⟩
  · intro key hkey
    rw [CacheDB_Get_eq_none_iff]
    intro e he
    simp only [Process.Terminate, CacheDB.DeleteContract] at he
    rw [mem_foldl_Delete] at he
    intro hek
    subst hek
    exact he.2 e ((mem_NewIterator _ _ e hiter).mpr ⟨he.1, hkey⟩) rfl
  · simp only [Process.Terminate]
    exact GetContract_DeleteContract _ _

theorem find?_filter_of_imp {α : Type} (p q : α → Bool) (l : List α)
    (h : ∀ x, p x = true → q x = true) :
    (l.filter q).find? p = l.find? p := by
  induction l with
  | nil => rfl
  | cons a l ih =>
    by_cases hq : q a = true
    · rw [List.filter_cons_of_pos hq]
      by_cases hp : p a = true
      · rw [List.find?_cons_of_pos _ hp, List.find?_cons_of_pos _ hp]
      · rw [List.find?_cons_of_neg _ hp, List.find?_cons_of_neg _ hp, ih]
    · rw [List.filter_cons_of_neg hq]
      have hp : ¬ p a = true := fun hp => hq (h a hp)
      rw [List.find?_cons_of_neg _ hp, ih]

/-- The live view after one step of the migration loop: the old key is gone, the new key
holds the value, every other key is as before. -/
theorem Get_Put_Delete (db : CacheDB) (k v d key : List Nat) :
    ((db.Put k v).Delete d).Get key =
      if key = d then none else if key = k then some v else db.Get key := by
  unfold CacheDB.Get CacheDB.Put CacheDB.Delete
  simp only
  by_cases hd : key = d
  · subst hd
    simp only [if_true, Option.map_eq_none', List.find?_eq_none, List.mem_filter,
      decide_eq_true_eq]
    intro x hx
    exact hx.2
  · simp only [hd, if_false]
    rw [find?_filter_of_imp]
    · by_cases hk : key = k
      · subst hk
        simp
      · simp only [hk, if_false]
        have hkk : ¬ k = key := fun h => hk h.symm
        rw [List.find?_cons_of_neg _ (by simpa using hkk), find?_filter_of_imp]
        intro x hx
        simp only [decide_eq_true_eq] at hx ⊢
        rw [hx]; exact hk
    · intro x hx
      simp only [decide_eq_true_eq] at hx ⊢
      rw [hx]; exact hd

theorem prefix_eq_of_append (a b k : List Nat) (hl : a.length = b.length)
    (h : a <+: b ++ k) : a = b := by
  have h2 : a <+: b := List.prefix_of_prefix_length_le h (List.prefix_append b k) (by omega)
  exact h2.eq_of_length hl

theorem drop_of_isPrefix (old key : List Nat) (h : old <+: key) :
    key = old ++ key.drop old.length := by
  obtain ⟨t, rfl⟩ := h
  simp

theorem foldl_migrate_contracts (new : Address) (L : List (List Nat × List Nat)) (db : CacheDB) :
    (L.foldl (fun db e =>
      (db.Put (serializeStorageKey new (e.1.drop 20)) e.2).Delete e.1) db).contracts =
      db.contracts := by
  induction L generalizing db with
  | nil => rfl
  | cons e L ih =>
    rw [List.foldl_cons, ih]
    rfl

/-- Keys that the loop neither deletes nor writes are as before. -/
theorem foldl_migrate_other (new : Address) (L : List (List Nat × List Nat)) (db : CacheDB)
    (key : List Nat) (h1 : ∀ e ∈ L, key ≠ e.1)
    (h2 : ∀ e ∈ L, key ≠ serializeStorageKey new (e.1.drop 20)) :
    (L.foldl (fun db e =>
      (db.Put (serializeStorageKey new (e.1.drop 20)) e.2).Delete e.1) db).Get key =
      db.Get key := by
  induction L generalizing db with
  | nil => rfl
  | cons e L ih =>
    rw [List.foldl_cons, ih _ (fun x hx => h1 x (List.mem_cons_of_mem _ hx))
      (fun x hx => h2 x (List.mem_cons_of_mem _ hx)), Get_Put_Delete]
    simp only [h1 e (List.mem_cons_self _ _), h2 e (List.mem_cons_self _ _), if_false]

/-- No key under the old address is left when the loop has run over all of them. -/
theorem foldl_migrate_sweeps (old new : Address) (hlen : old.length = new.length)
    (hne : new ≠ old) (L : List (List Nat × List Nat)) (db : CacheDB)
    (hall : ∀ x ∈ db.store, old <+: x.1 → ∃ e ∈ L, x.1 = e.1)
    (key : List Nat) (hkey : old <+: key) :
    (L.foldl (fun db e =>
      (db.Put (serializeStorageKey new (e.1.drop 20)) e.2).Delete e.1) db).Get key = none := by
  induction L generalizing db with
  | nil =>
    rw [List.foldl_nil, CacheDB_Get_eq_none_iff]
    intro x hx hxk
    obtain ⟨e, he, _⟩ := hall x hx (hxk ▸ hkey)
    cases he
  | cons e L ih =>
    rw [List.foldl_cons]
    apply ih
    intro x hx hpre
    simp only [CacheDB.Delete, CacheDB.Put, List.mem_filter, List.mem_cons,
      decide_eq_true_eq] at hx
    obtain ⟨hx1, hx2⟩ := hx
    rcases hx1 with rfl | ⟨hx1, _⟩
    · exfalso
      exact hne (prefix_eq_of_append old new _ hlen hpre).symm
    · obtain ⟨e2, he2, hk⟩ := hall x hx1 hpre
      rcases List.mem_cons.mp he2 with rfl | he2
      · exact absurd hk hx2
      · exact ⟨e2, he2, hk⟩

/-- Every entry the loop runs over ends up under the new address with its value. -/
theorem foldl_migrate_moves (old new : Address) (h20 : old.length = 20) (hlen : new.length = 20)
    (hne : new ≠ old) (L : List (List Nat × List Nat)) (db : CacheDB)
    (hpre : ∀ e ∈ L, old <+: e.1) (hnd : (L.map Prod.fst).Nodup)
    (e0 : List Nat × List Nat) (he0 : e0 ∈ L) :
    (L.foldl (fun db e =>
      (db.Put (serializeStorageKey new (e.1.drop 20)) e.2).Delete e.1) db).Get
        (serializeStorageKey new (e0.1.drop 20)) = some e0.2 := by
  have hform : ∀ e ∈ L, e.1 = old ++ e.1.drop 20 := fun e he => by
    have := drop_of_isPrefix old e.1 (hpre e he)
    rw [h20] at this
    exact this
  have hcross : ∀ a b : List Nat × List Nat, old <+: b.1 →
      serializeStorageKey new (a.1.drop 20) ≠ b.1 := by
    intro a b hb heq
    rw [← heq] at hb
    exact hne (prefix_eq_of_append old new _ (by omega) hb).symm
  induction L generalizing db with
  | nil => cases he0
  | cons e L ih =>
    rw [List.foldl_cons]
    simp only [List.map_cons, List.nodup_cons, List.mem_map, not_exists, not_and] at hnd
    rcases List.mem_cons.mp he0 with rfl | he0
    · rw [foldl_migrate_other, Get_Put_Delete]
      · have h1 : serializeStorageKey new (e0.1.drop 20) ≠ e0.1 :=
          hcross e0 e0 (hpre e0 (List.mem_cons_self _ _))
        simp only [h1, if_false, if_true]
      · intro x hx
        exact hcross e0 x (hpre x (List.mem_cons_of_mem _ hx))
      · intro x hx heq
        unfold serializeStorageKey at heq
        have hd : e0.1.drop 20 = x.1.drop 20 := List.append_cancel_left heq
        have hk : x.1 = e0.1 := by
          rw [hform x (List.mem_cons_of_mem _ hx), hform e0 (List.mem_cons_self _ _), hd]
        exact hnd.1 x hx hk
    · exact ih _ (fun x hx => hpre x (List.mem_cons_of_mem _ hx)) hnd.2 he0
        (fun x hx => hform x (List.mem_cons_of_mem _ hx))

/-- The cache a successful `ContractMigrate` leaves: the new record put, the old one
deleted, then the loop over the iterator of the old address. -/
theorem ContractMigrate_ok_inv (env : HostEnv) (proc : Process)
    (codePtr codeLen vmType namePtr nameLen verPtr verLen authorPtr authorLen
      emailPtr emailLen descPtr descLen newAddressPtr v : Nat) (p : Process)
    (h : ContractMigrate env proc codePtr codeLen vmType namePtr nameLen verPtr verLen
        authorPtr authorLen emailPtr emailLen descPtr descLen newAddressPtr = .ok v p) :
    ∃ dep addr g ctx,
      createPreamble env proc codePtr codeLen vmType namePtr nameLen verPtr verLen
        authorPtr authorLen emailPtr emailLen descPtr descLen =
        .ok (dep, addr) (proc.withGasLimit g) ∧
      proc.HostData.Service.ContextRef.CurrentContext = some ctx ∧
      (((proc.HostData.Service.CacheDB.PutContract env.AddressFromVmCode dep).DeleteContract
        ctx.ContractAddress).NewIterator ctx.ContractAddress).err = none ∧
      p.HostData.Service.CacheDB =
        (((proc.HostData.Service.CacheDB.PutContract env.AddressFromVmCode dep).DeleteContract
          ctx.ContractAddress).NewIterator ctx.ContractAddress).entries.foldl
          (fun db e => (db.Put (serializeStorageKey addr (e.1.drop 20)) e.2).Delete e.1)
          ((proc.HostData.Service.CacheDB.PutContract env.AddressFromVmCode dep).DeleteContract
            ctx.ContractAddress) := by
  unfold ContractMigrate at h
  cases hpre : createPreamble env proc codePtr codeLen vmType namePtr nameLen verPtr verLen
      authorPtr authorLen emailPtr emailLen descPtr descLen with
  | trap err p0 => simp only [hpre] at h; cases h
  | ok r p0 =>
    obtain ⟨dep, addr⟩ := r
    obtain ⟨g, hg, hf⟩ := createPreamble_frame env proc codePtr codeLen vmType namePtr nameLen
      verPtr verLen authorPtr authorLen emailPtr emailLen descPtr descLen
    rw [hpre] at hf
    have hp : p0 = proc.withGasLimit g := hf
    subst hp
    simp only [hpre] at h
    have hcc : (proc.withGasLimit g).HostData.Service.ContextRef.CurrentContext =
        proc.HostData.Service.ContextRef.CurrentContext := rfl
    cases hctx : proc.HostData.Service.ContextRef.CurrentContext with
    | none => rw [hcc, hctx] at h; cases h
    | some ctx =>
      rw [hcc, hctx] at h
      simp only at h
      have hdb : (proc.withGasLimit g).HostData.Service.CacheDB =
          proc.HostData.Service.CacheDB := rfl
      rw [hdb] at h
      cases herr : (((proc.HostData.Service.CacheDB.PutContract env.AddressFromVmCode
          dep).DeleteContract ctx.ContractAddress).NewIterator ctx.ContractAddress).err with
      | some e => simp only [herr] at h; cases h
      | none =>
        simp only [herr] at h
        split at h
        · cases h
        · cases h
        · rename_i length proc2 hw
          have hh := WriteAt_HostData _ _ _ _ _ _ hw
          simp only [HostResult.ok.injEq] at h
          obtain ⟨_, rfl⟩ := h
          exact ⟨dep, addr, g, ctx, rfl, rfl, herr, by rw [hh]⟩

theorem Address_of_memo (AddressFromVmCode : List Nat → Address) (d : DeployCode)
    (h : d.address = AddressFromVmCode d.code) :
    (d.Address AddressFromVmCode).1 = AddressFromVmCode d.code := by
  unfold DeployCode.Address
  simp only
  split_ifs
  · rfl
  · exact h

theorem GetContract_Put_Delete_same (AddressFromVmCode : List Nat → Address) (db : CacheDB)
    (dep : DeployCode) (old : Address) :
    ((db.PutContract AddressFromVmCode dep).DeleteContract old).GetContract old = none :=
  GetContract_DeleteContract _ _

theorem GetContract_Put_Delete_other (AddressFromVmCode : List Nat → Address) (db : CacheDB)
    (dep : DeployCode) (old : Address)
    (hne : (dep.Address AddressFromVmCode).1 ≠ old) :
    ((db.PutContract AddressFromVmCode dep).DeleteContract old).GetContract
      (dep.Address AddressFromVmCode).1 = some dep := by
  simp [CacheDB.GetContract, CacheDB.DeleteContract, CacheDB.PutContract, hne]

theorem GetContract_congr (db1 db2 : CacheDB) (a : Address)
    (h : db1.contracts = db2.contracts) : db1.GetContract a = db2.GetContract a := by
  unfold CacheDB.GetContract
  rw [h]

theorem mem_of_Get (db : CacheDB) (key v : List Nat) (h : db.Get key = some v) :
    (key, v) ∈ db.store := by
  unfold CacheDB.Get at h
  simp only [Option.map_eq_some'] at h
  obtain ⟨e, he, hv⟩ := h
  have h1 := List.find?_some he
  have h2 := List.mem_of_find?_eq_some he
  simp only [decide_eq_true_eq] at h1
  obtain ⟨a, b⟩ := e
  simp only at h1 hv
  subst h1 hv
  exact h2

/-- What a successful `contract_migrate` to a different address leaves (keys of the
store held once, addresses of 20 bytes): the old record is absent, the new one is
stored, every value under the old address is under the new one with the same user key,
and no key under the old address is left. -/
theorem ContractMigrate_rekeys (env : HostEnv) (proc : Process)
    (codePtr codeLen vmType namePtr nameLen verPtr verLen authorPtr authorLen
      emailPtr emailLen descPtr descLen newAddressPtr v : Nat) (p : Process) (ctx : Context)
    (hok : ContractMigrate env proc codePtr codeLen vmType namePtr nameLen verPtr verLen
        authorPtr authorLen emailPtr emailLen descPtr descLen newAddressPtr = .ok v p)
    (hctx : proc.HostData.Service.ContextRef.CurrentContext = some ctx)
    (hold : ctx.ContractAddress.length = 20)
    (hnodup : (proc.HostData.Service.CacheDB.store.map Prod.fst).Nodup) :
    ∃ code dep, ReadWasmMemory proc codePtr codeLen = .ok code ∧ dep.code = code ∧
      p.HostData.Service.CacheDB.GetContract ctx.ContractAddress = none ∧
      ((env.AddressFromVmCode code).length = 20 →
        env.AddressFromVmCode code ≠ ctx.ContractAddress →
        p.HostData.Service.CacheDB.GetContract (env.AddressFromVmCode code) = some dep ∧
        (∀ k val, proc.HostData.Service.CacheDB.Get (ctx.ContractAddress ++ k) = some val →
          p.HostData.Service.CacheDB.Get (env.AddressFromVmCode code ++ k) = some val) ∧
        (∀ key, ctx.ContractAddress <+: key → p.HostData.Service.CacheDB.Get key = none)) := by
  obtain ⟨dep, addr, g, ctx2, hpre, hctx2, herr, hdb⟩ :=
    ContractMigrate_ok_inv env proc _ _ _ _ _ _ _ _ _ _ _ _ _ _ v p hok
  rw [hctx] at hctx2
  injection hctx2 with hctx2
  subst hctx2
  obtain ⟨g2, code, name, version, author, email, desc, m, _, _, h1, _, _, _, _, _, _, _, haddr,
    hdep, _, _⟩ := createPreamble_ok_inv env proc _ _ _ _ _ _ _ _ _ _ _ _ _ dep addr _ hpre
  have hdcode : dep.code = code := by rw [hdep]
  have hda : (dep.Address env.AddressFromVmCode).1 = env.AddressFromVmCode code := by
    rw [Address_of_memo _ _ (by rw [hdep]), hdcode]
  have hcontracts : p.HostData.Service.CacheDB.contracts =
      ((proc.HostData.Service.CacheDB.PutContract env.AddressFromVmCode dep).DeleteContract
        ctx.ContractAddress).contracts := by
    rw [hdb, foldl_migrate_contracts]
  refine ⟨code, dep, h1, hdcode, ?_, ?_⟩
  · rw [GetContract_congr _ _ _ hcontracts]
    exact GetContract_Put_Delete_same _ _ _ _
  · intro hnew hne
    have hstore : ((proc.HostData.Service.CacheDB.PutContract env.AddressFromVmCode
        dep).DeleteContract ctx.ContractAddress).store = proc.HostData.Service.CacheDB.store := rfl
    refine ⟨?_, ?_, ?_⟩
    · rw [GetContract_congr _ _ _ hcontracts, ← hda]
      exact GetContract_Put_Delete_other _ _ _ _ (by rw [hda]; exact hne)
    · intro k val hget
      have hmem := mem_of_Get _ _ _ hget
      have hE : (ctx.ContractAddress ++ k, val) ∈
          (((proc.HostData.Service.CacheDB.PutContract env.AddressFromVmCode
            dep).DeleteContract ctx.ContractAddress).NewIterator ctx.ContractAddress).entries :=
        (mem_NewIterator _ _ _ herr).mpr ⟨by rw [hstore]; exact hmem, List.prefix_append _ _⟩
      have hnd : ((((proc.HostData.Service.CacheDB.PutContract env.AddressFromVmCode
            dep).DeleteContract ctx.ContractAddress).NewIterator
            ctx.ContractAddress).entries.map Prod.fst).Nodup := by
        unfold CacheDB.NewIterator at herr ⊢
        cases hf : ((proc.HostData.Service.CacheDB.PutContract env.AddressFromVmCode
            dep).DeleteContract ctx.ContractAddress).iterFault with
        | some f => simp [hf] at herr
        | none =>
          simp only [hf, hstore]
          exact ((List.perm_insertionSort keyLe _).map Prod.fst).nodup_iff.mpr
            (hnodup.sublist ((List.filter_sublist _).map Prod.fst))
      have hmv := foldl_migrate_moves ctx.ContractAddress addr hold (by rw [haddr]; exact hnew)
        (by rw [haddr]; exact hne) _
        ((proc.HostData.Service.CacheDB.PutContract env.AddressFromVmCode dep).DeleteContract
          ctx.ContractAddress)
        (fun e he => ((mem_NewIterator _ _ e herr).mp he).2) hnd _ hE
      rw [← hdb] at hmv
      have hk : (ctx.ContractAddress ++ k).drop 20 = k := by
        rw [← hold]; simp
      simp only [hk, serializeStorageKey, haddr] at hmv
      exact hmv
    · intro key hkey
      rw [hdb]
      exact foldl_migrate_sweeps ctx.ContractAddress addr (by rw [haddr, hnew, hold])
        (by rw [haddr]; exact hne) _ _
        (fun x hx hpx => ⟨x, (mem_NewIterator _ _ x herr).mpr ⟨hx, hpx⟩, rfl⟩) key hkey

/-- C14 (the code at the failing input): after every `contract_migrate` that returns,
`GetContract` of the old address (the current context's) is absent; so when the new code
hashes to the current context's own address, which the existence check lets through
once the contract's record is gone, the call returns although `GetContract(new)` is
absent: the record it has just put is the one it deletes. -/
theorem C14_migrate_to_own_address_loses_contract (env : HostEnv) (proc : Process)
    (codePtr codeLen vmType namePtr nameLen verPtr verLen authorPtr authorLen
      emailPtr emailLen descPtr descLen newAddressPtr v : Nat) (p : Process) (ctx : Context)
    (hok : ContractMigrate env proc codePtr codeLen vmType namePtr nameLen verPtr verLen
        authorPtr authorLen emailPtr emailLen descPtr descLen newAddressPtr = .ok v p)
    (hctx : proc.HostData.Service.ContextRef.CurrentContext = some ctx) :
    ∃ code, ReadWasmMemory proc codePtr codeLen = .ok code ∧
      p.HostData.Service.CacheDB.GetContract ctx.ContractAddress = none ∧
      (env.AddressFromVmCode code = ctx.ContractAddress →
        p.HostData.Service.CacheDB.GetContract (env.AddressFromVmCode code) = none) := by
  obtain ⟨dep, addr, g, ctx2, hpre, hctx2, herr, hdb⟩ :=
    ContractMigrate_ok_inv env proc _ _ _ _ _ _ _ _ _ _ _ _ _ _ v p hok
  rw [hctx] at hctx2
  injection hctx2 with hctx2
  subst hctx2
  obtain ⟨g2, code, name, version, author, email, desc, m, _, _, h1, _⟩ :=
    createPreamble_ok_inv env proc _ _ _ _ _ _ _ _ _ _ _ _ _ dep addr _ hpre
  have hcontracts : p.HostData.Service.CacheDB.contracts =
      ((proc.HostData.Service.CacheDB.PutContract env.AddressFromVmCode dep).DeleteContract
        ctx.ContractAddress).contracts := by
    rw [hdb, foldl_migrate_contracts]
  have hnone : p.HostData.Service.CacheDB.GetContract ctx.ContractAddress = none := by
    rw [GetContract_congr _ _ _ hcontracts]
    exact GetContract_Put_Delete_same _ _ _ _
  exact ⟨code, h1, hnone, fun heq => by rw [heq]; exact hnone⟩

theorem C14_migrate_to_own_address_loses_contract_witness :
    ContractMigrate sampleDeployEnv sampleMigrateProc 4 4 3 0 0 0 0 0 0 0 0 0 0 32 =
      .ok 20 (ContractMigrate sampleDeployEnv sampleMigrateProc 4 4 3 0 0 0 0 0 0 0 0 0 0 32).proc ∧
    ContractMigrate sampleDeployEnv
        (ContractMigrate sampleDeployEnv sampleMigrateProc 4 4 3 0 0 0 0 0 0 0 0 0 0 32).proc
        0 4 3 0 0 0 0 0 0 0 0 0 0 32 =
      .ok 20 (ContractMigrate sampleDeployEnv
        (ContractMigrate sampleDeployEnv sampleMigrateProc 4 4 3 0 0 0 0 0 0 0 0 0 0 32).proc
        0 4 3 0 0 0 0 0 0 0 0 0 0 32).proc ∧
    ∃ code,
      ReadWasmMemory
        (ContractMigrate sampleDeployEnv sampleMigrateProc 4 4 3 0 0 0 0 0 0 0 0 0 0 32).proc
        0 4 = .ok code ∧
      (ContractMigrate sampleDeployEnv
        (ContractMigrate sampleDeployEnv sampleMigrateProc 4 4 3 0 0 0 0 0 0 0 0 0 0 32).proc
        0 4 3 0 0 0 0 0 0 0 0 0 0 32).proc.HostData.Service.CacheDB.GetContract
          (sampleHash [0, 97, 115, 109]) = none ∧
      (sampleDeployEnv.AddressFromVmCode code = sampleHash [0, 97, 115, 109] →
        (ContractMigrate sampleDeployEnv
          (ContractMigrate sampleDeployEnv sampleMigrateProc 4 4 3 0 0 0 0 0 0 0 0 0 0 32).proc
          0 4 3 0 0 0 0 0 0 0 0 0 0 32).proc.HostData.Service.CacheDB.GetContract
            (sampleDeployEnv.AddressFromVmCode code) = none) :=
  ⟨by decide, by decide,
   C14_migrate_to_own_address_loses_contract sampleDeployEnv
     (ContractMigrate sampleDeployEnv sampleMigrateProc 4 4 3 0 0 0 0 0 0 0 0 0 0 32).proc
     0 4 3 0 0 0 0 0 0 0 0 0 0 32 20
     (ContractMigrate sampleDeployEnv
        (ContractMigrate sampleDeployEnv sampleMigrateProc 4 4 3 0 0 0 0 0 0 0 0 0 0 32).proc
        0 4 3 0 0 0 0 0 0 0 0 0 0 32).proc
     { ContractAddress := sampleHash [0, 97, 115, 109], Code := [] } (by decide) (by decide)⟩

/-! ## WASM service entry point and the context stack -/


theorem WasmContractParam_Deserialization_sample :
    WasmContractParam.Deserialization { Address := ADDRESS_EMPTY, Args := [] } sampleInvokeCode
      = ({ Address := sampleHash [0, 97, 115, 109], Args := [] }, none) := by
  decide

/-- Claim C13, native error path: when the handler of a registered method returns an
error, `NativeService.Invoke` returns that error together with the state the handler
left, so a handler that leaves the context stack as it found it makes `Invoke` exit one
frame deeper than it was entered. WASM error paths: once the contract is found and is a
WASM contract, a module that fails to load, a VM that fails to instantiate and a guest
whose execution fails all make `WasmVmService.Invoke` return with the pushed frame still
on the stack (for the guest, with the stack the guest left). -/
theorem C13_error_paths_keep_pushed_frame :
    (∀ (Contracts : NativeRegistry) (this : NativeService)
        (services : List Nat → Option Handler) (handler : Handler)
        (result : List Nat) (code : Nat) (st : NativeService),
        Contracts this.InvokeParam.Address = some services →
        services this.InvokeParam.Method = some handler →
        handler (handlerEntryState this) = ((result, some code), st) →
        this.Invoke Contracts = ((result, some (.nativeExecute code)), st) ∧
        (st.depth = (handlerEntryState this).depth →
          (this.Invoke Contracts).2.depth = this.depth + 1)) ∧
    (∀ (env : HostEnv) (vm : VmLib) (this : WasmVmService) (Code : List Nat)
        (contract : WasmContractParam) (code : DeployCode) (wasmCode : List Nat),
        Code.length ≠ 0 →
        WasmContractParam.Deserialization { Address := ADDRESS_EMPTY, Args := [] } Code
          = (contract, none) →
        this.CacheDB.GetContract contract.Address = some code →
        code.GetWasmCode = .ok wasmCode →
        (∀ err, vm.CodeCacheGet contract.Address = none →
          ReadWasmModule env.lib wasmCode false = .error err →
          (this.Invoke env vm Code).1 = (none, some (.readModule err)) ∧
          (this.Invoke env vm Code).2.depth = this.depth + 1) ∧
        (∀ compiled c, vm.CodeCacheGet contract.Address = some compiled →
          vm.NewVMWithCompiled compiled WASM_MEM_LIMITATION = .error c →
          (this.Invoke env vm Code).1 = (none, some .VM_INIT_FAULT) ∧
          (this.Invoke env vm Code).2.depth = this.depth + 1) ∧
        (∀ compiled memory entries name entry ftypes fidx sigs ftype c proc,
          vm.CodeCacheGet contract.Address = some compiled →
          vm.NewVMWithCompiled compiled WASM_MEM_LIMITATION = .ok memory →
          compiled.RawModule.Export = some entries →
          entries.find? (fun e => decide (e.1 = "invoke")) = some (name, entry) →
          compiled.RawModule.Function = some ftypes →
          ftypes[entry.Index]? = some fidx →
          compiled.RawModule.Types = some sigs →
          sigs[fidx]? = some ftype →
          ftype.ReturnTypes = [] →
          vm.ExecCode compiled entry.Index (guestEntryProcess this contract wasmCode memory)
            = (some c, proc) →
          (this.Invoke env vm Code) = ((none, some (.execError c)), proc.HostData.Service) ∧
          (proc.HostData.Service.depth = this.depth + 1 →
            (this.Invoke env vm Code).2.depth = this.depth + 1))) := by
  refine ⟨?_, ?_⟩
  · intro Contracts this services handler result code st hc hs hh
    have hinv : this.Invoke Contracts = ((result, some (.nativeExecute code)), st) := by
      unfold NativeService.Invoke
      simp only [hc, hs]
      unfold handlerEntryState at hh
      simp only [hh]
    refine ⟨hinv, ?_⟩
    intro hd
    rw [hinv]
    simp only [hd]
    simp [NativeService.depth, handlerEntryState, ContextRef.PushContext]
  · intro env vm this Code contract code wasmCode hlen hdes hget hwasm
    refine ⟨?_, ?_, ?_⟩
    · intro err hcache hread
      unfold WasmVmService.Invoke
      simp only [hlen, if_false, hdes, hget, hwasm, hcache, hread]
      simp [WasmVmService.depth, ContextRef.PushContext]
    · intro compiled c hcache hnew
      unfold WasmVmService.Invoke
      simp only [hlen, if_false, hdes, hget, hwasm, hcache, hnew]
      simp [WasmVmService.depth, ContextRef.PushContext]
    · intro compiled memory entries name entry ftypes fidx sigs ftype c proc
        hcache hnew hexp hfind hfun hidx htypes hsig hret hexec
      have hinv : this.Invoke env vm Code
          = ((none, some (.execError c)), proc.HostData.Service) := by
        unfold WasmVmService.Invoke
        unfold guestEntryProcess at hexec
        simp only [hlen, if_false, hdes, hget, hwasm, hcache, hnew, hexp, hfind, hfun, hidx,
          htypes, hsig, hret, hexec, List.length_nil, gt_iff_lt, lt_self_iff_false]
      refine ⟨hinv, ?_⟩
      intro hd
      rw [hinv]
      exact hd

/-- Claim C13 at concrete inputs. A native call whose handler fails is entered at depth
1 and left at depth 2; a WASM invoke of a stored contract whose guest fails, whose
module fails to load or whose VM fails to instantiate is entered at depth 1 and left at
depth 2; the same invoke with a guest that returns is left at depth 1. -/
theorem C13_error_paths_keep_pushed_frame_witness :
    sampleNativeService.depth = 1 ∧
    (sampleNativeService.Invoke sampleFailingRegistry).1 = ([], some (.nativeExecute 7)) ∧
    (sampleNativeService.Invoke sampleFailingRegistry).2.depth = 2 ∧
    sampleDeployedProc.HostData.Service.depth = 1 ∧
    (sampleDeployedProc.HostData.Service.Invoke sampleBrokenLibEnv sampleTrapVm
      sampleInvokeCode).2.depth = 2 ∧
    (sampleDeployedProc.HostData.Service.Invoke sampleDeployEnv sampleTrapVm
      sampleInvokeCode).2.depth = 2 ∧
    (sampleDeployedProc.HostData.Service.Invoke sampleDeployEnv sampleInitFaultVm
      sampleInvokeCode).2.depth = 2 ∧
    (sampleDeployedProc.HostData.Service.Invoke sampleDeployEnv sampleReturnVm
      sampleInvokeCode).2.depth = 1 := by
  have hn := (C13_error_paths_keep_pushed_frame).1 sampleFailingRegistry sampleNativeService
    (fun m => if m = [109] then some sampleFailingHandler else none) sampleFailingHandler
    [] 7 (handlerEntryState sampleNativeService) (by rfl) (by rfl) (by rfl)
  have hw := (C13_error_paths_keep_pushed_frame).2 sampleBrokenLibEnv sampleTrapVm
    sampleDeployedProc.HostData.Service sampleInvokeCode
    { Address := sampleHash [0, 97, 115, 109], Args := [] } sampleDeploy [0, 97, 115, 109]
    (by decide) (by decide) (by decide) (by rfl)
  refine ⟨by decide, ?_, ?_, by decide, ?_, by decide, by decide, by decide⟩
  · rw [hn.1]
  · exact hn.2 rfl
  · exact (hw.1 (.external 1) (by rfl) (by rfl)).2

/-! ## Destroy at a concrete input -/

/-- Claim C15 at a concrete input: the contract of `sampleMigrateProc`, which owns two
storage keys, destroys itself; the call returns, no key under its address is left, its
record is absent and the VM is terminated. -/
theorem C15_destroy_sweeps_contract_witness :
    sampleMigrateProc.HostData.Service.CacheDB.Get (sampleHash [0, 97, 115, 109] ++ [120])
      = some [1] ∧
    ∃ p, ContractDestroy sampleMigrateProc = .ok () p ∧
      (∀ key, sampleHash [0, 97, 115, 109] <+: key →
        p.HostData.Service.CacheDB.Get key = none) ∧
      p.HostData.Service.CacheDB.GetContract (sampleHash [0, 97, 115, 109]) = none ∧
      p.Terminated = true :=
  ⟨by decide,
   C15_destroy_sweeps_contract sampleMigrateProc
     (Context.mk (sampleHash [0, 97, 115, 109]) []) (by decide) (by decide)⟩

/-! ## Transaction handlers: gas-table misses and the deploy pre-flight -/

theorem getBalanceFromNative_lt (env : LedgerEnv) (config : Config) (cache cache1 : CacheDB)
    (address : Address) (balance : Nat)
    (h : getBalanceFromNative env config cache address = ((balance, none), cache1)) :
    balance < 2 ^ 64 := by
  unfold getBalanceFromNative at h
  simp only at h
  split at h
  · simp at h
  · simp only [Prod.mk.injEq] at h
    rw [← h.1.1]
    exact Nat.mod_lt _ (by norm_num)

theorem required_no_wrap (c q u p b : Nat) (hp : p ≠ 0) (hb : b < 2 ^ 64)
    (h : (c + q * u) * p ≤ b) :
    (c + q % 2 ^ 64 * u % 2 ^ 64) % 2 ^ 64 = c + q * u ∧
    (c + q * u) * p % 2 ^ 64 = (c + q * u) * p := by
  have h1 : c + q * u ≤ (c + q * u) * p := Nat.le_mul_of_pos_right _ (Nat.pos_of_ne_zero hp)
  have h2 : c + q * u < 2 ^ 64 := by omega
  refine ⟨?_, Nat.mod_eq_of_lt (by omega)⟩
  rcases Nat.eq_zero_or_pos u with hu | hu
  · subst hu
    simp only [Nat.mul_zero, Nat.zero_mod, Nat.add_zero] at h2 ⊢
    exact Nat.mod_eq_of_lt h2
  · have h3 : q ≤ q * u := Nat.le_mul_of_pos_right _ hu
    have h4 : q % 2 ^ 64 = q := Nat.mod_eq_of_lt (by omega)
    rw [h4]
    have h5 : q * u % 2 ^ 64 = q * u := Nat.mod_eq_of_lt (by omega)
    rw [h5]
    exact Nat.mod_eq_of_lt h2

theorem deploy_module_check (env : LedgerEnv) (deploy : DeployCode) (ty : VmType)
    (hmod : ty = WASMVM_TYPE →
      ∃ m, ReadWasmModule env.host.lib deploy.GetRawCode true = .ok m) :
    (if ty = WASMVM_TYPE then
        match ReadWasmModule env.host.lib deploy.GetRawCode true with
        | .error err => some (TxError.readModule err)
        | .fault => some TxError.runtimeFault
        | .ok _ => none
      else none) = none := by
  by_cases hty : ty = WASMVM_TYPE
  · obtain ⟨m, hm⟩ := hmod hty
    simp only [hty, if_true, hm]
  · simp only [hty, if_false]

/-- Claim C19 as stated fails: a WASM deploy transaction with gas price 2 and a gas
table without any entry, whose code the module check rejects, makes the deploy handler
return the error of the module check; the overlay is not marked errored. -/
theorem C19_gas_table_miss_counterexample :
    sampleTx.GasPrice ≠ 0 ∧
    sampleEmptyGasTable sampleStrictLedgerEnv.CONTRACT_CREATE_NAME = none ∧
    sampleDeploy.VmType = some WASMVM_TYPE ∧
    HandleDeployTransaction sampleStrictLedgerEnv sampleOverlay sampleEmptyGasTable
      sampleLedgerCache sampleTx sampleDeploy sampleBlock sampleNotify
      = TxResult.mk (some (.readModule (.validate 2))) sampleOverlay sampleLedgerCache
          sampleNotify := by
  decide

/-- Claim C19, amended. A deploy transaction with a non-zero gas price whose payload has
a VM type and, if that type is WASM, a code that loads and verifies, and whose gas table
lacks `CONTRACT_CREATE_NAME` or `UINT_DEPLOY_CODE_LEN_NAME`: the handler returns nil, and
leaves the overlay marked errored with its contents as they were, the work cache and the
notify record as they were. A charged invoke transaction (code other than
`COMMIT_DPOS_BYTES`, height other than 0, non-zero gas price) whose gas table lacks
`UINT_INVOKE_CODE_LEN_NAME`: the same. Both hold whatever the native registry is, so no
native call (balance read, fee transfer) takes part in the result. -/
theorem C19_gas_table_miss_marks_overlay (env : LedgerEnv) (overlay : OverlayDB)
    (gasTable : String → Option Nat) (cache : CacheDB) (tx : Transaction) (block : Block)
    (notify : ExecuteNotify) :
    (∀ (deploy : DeployCode) (ty : VmType),
      deploy.VmType = some ty →
      (ty = WASMVM_TYPE → ∃ m, ReadWasmModule env.host.lib deploy.GetRawCode true = .ok m) →
      tx.GasPrice ≠ 0 →
      (gasTable env.CONTRACT_CREATE_NAME = none ∨
        gasTable env.UINT_DEPLOY_CODE_LEN_NAME = none) →
      HandleDeployTransaction env overlay gasTable cache tx deploy block notify
        = TxResult.mk none
            (overlay.SetError
              (if gasTable env.CONTRACT_CREATE_NAME = none then .createGasMissing
               else .deployCodeLenGasMissing))
            cache notify) ∧
    (∀ (invoke : List Nat),
      invoke ≠ env.COMMIT_DPOS_BYTES → block.Height ≠ 0 → tx.GasPrice ≠ 0 →
      gasTable env.UINT_INVOKE_CODE_LEN_NAME = none →
      HandleInvokeTransaction env overlay gasTable cache tx invoke block notify
        = TxResult.mk none (overlay.SetError .invokeCodeLenGasMissing) cache notify) := by
  refine ⟨?_, ?_⟩
  · intro deploy ty hvm hmod hprice hmiss
    unfold HandleDeployTransaction
    simp only [hvm, deploy_module_check env deploy ty hmod, hprice, ne_eq, not_false_eq_true,
      if_true]
    cases hc : gasTable env.CONTRACT_CREATE_NAME with
    | none => simp only [if_true]
    | some c =>
      rcases hmiss with h | h
      · rw [hc] at h
        cases h
      · simp only [h, reduceCtorEq, if_false]
  · intro invoke hcode hheight hprice hmiss
    unfold HandleInvokeTransaction invokePreflight
    simp only [hcode, hheight, hprice, hmiss, decide_False, decide_True, Bool.or_self,
      Bool.not_false, Bool.and_self, ne_eq, not_false_eq_true, if_true]

/-- Claim C19 at concrete inputs: with an empty gas table, the deploy handler (on a code
that loads and verifies) and the invoke handler return nil and change nothing but the
error mark of the overlay. -/
theorem C19_gas_table_miss_marks_overlay_witness :
    HandleDeployTransaction sampleLedgerEnv sampleOverlay sampleEmptyGasTable
      sampleLedgerCache sampleTx sampleDeploy sampleBlock sampleNotify
      = TxResult.mk none (sampleOverlay.SetError .createGasMissing) sampleLedgerCache
          sampleNotify ∧
    HandleInvokeTransaction sampleLedgerEnv sampleOverlay sampleEmptyGasTable
      sampleLedgerCache sampleTx sampleInvokeCode sampleBlock sampleNotify
      = TxResult.mk none (sampleOverlay.SetError .invokeCodeLenGasMissing) sampleLedgerCache
          sampleNotify :=
  ⟨(C19_gas_table_miss_marks_overlay sampleLedgerEnv sampleOverlay sampleEmptyGasTable
      sampleLedgerCache sampleTx sampleBlock sampleNotify).1 sampleDeploy WASMVM_TYPE
      (by decide) (fun _ => ⟨_, rfl⟩) (by decide) (Or.inl rfl),
   (C19_gas_table_miss_marks_overlay sampleLedgerEnv sampleOverlay sampleEmptyGasTable
      sampleLedgerCache sampleTx sampleBlock sampleNotify).2 sampleInvokeCode
      (by decide) (by decide) (by decide) rfl⟩

/-- Claim C20 as stated fails: a WASM deploy transaction with gas price 2 and gas limit
50, a gas table that makes `required` 120, and a payer who owns 1000 (at least
`required * price` = 240), whose code the module check rejects: the handler returns the
error of the module check, nothing is charged and no gas is recorded. -/
theorem C20_deploy_gas_limit_counterexample :
    sampleTx.GasPrice ≠ 0 ∧
    sampleGasTable sampleStrictLedgerEnv.CONTRACT_CREATE_NAME = some 100 ∧
    sampleGasTable sampleStrictLedgerEnv.UINT_DEPLOY_CODE_LEN_NAME = some 10 ∧
    (getBalanceFromNative sampleStrictLedgerEnv (Config.mk 0 1) sampleLedgerCache
      samplePayer).1 = (1000, none) ∧
    (100 + sampleDeploy.GetRawCode.length / sampleStrictLedgerEnv.PER_UNIT_CODE_LEN * 10)
      * sampleTx.GasPrice ≤ 1000 ∧
    sampleTx.GasLimit
      < 100 + sampleDeploy.GetRawCode.length / sampleStrictLedgerEnv.PER_UNIT_CODE_LEN * 10 ∧
    HandleDeployTransaction sampleStrictLedgerEnv sampleOverlay sampleGasTable
      sampleLedgerCache sampleTx sampleDeploy sampleBlock sampleNotify
      = TxResult.mk (some (.readModule (.validate 2))) sampleOverlay sampleLedgerCache
          sampleNotify := by
  decide

/-- Claim C20, amended. A deploy transaction with a non-zero gas price whose payload has
a VM type and, if that type is WASM, a code that loads and verifies; both gas-table
entries present, `required = createGas + floor(len(code) / PER_UNIT_CODE_LEN) * unitGas`;
the balance read returns `balance` with `required * price ≤ balance`, and
`tx.GasLimit < required`. Then the handler charges `GasLimit * GasPrice` on a fresh cache
over the overlay. If that transfer succeeds, the handler returns the gas-limit error,
the overlay holds what the transfer left, the notify record has that amount as
`GasConsumed` and the notifications of the transfer appended (its `State` untouched),
and the work cache is as the balance read left it: no contract is put. If the transfer
fails, the handler returns the error of the transfer and nothing is committed or
recorded. -/
theorem C20_deploy_gas_limit_below_required (env : LedgerEnv) (overlay : OverlayDB)
    (gasTable : String → Option Nat) (cache : CacheDB) (tx : Transaction)
    (deploy : DeployCode) (block : Block) (notify : ExecuteNotify)
    (ty : VmType) (createGas unitGas balance : Nat) (cache1 : CacheDB)
    (hvm : deploy.VmType = some ty)
    (hmod : ty = WASMVM_TYPE →
      ∃ m, ReadWasmModule env.host.lib deploy.GetRawCode true = .ok m)
    (hprice : tx.GasPrice ≠ 0)
    (hc : gasTable env.CONTRACT_CREATE_NAME = some createGas)
    (hu : gasTable env.UINT_DEPLOY_CODE_LEN_NAME = some unitGas)
    (hbal : getBalanceFromNative env (Config.mk block.Timestamp block.Height) cache tx.Payer
      = ((balance, none), cache1))
    (hge : (createGas + deploy.GetRawCode.length / env.PER_UNIT_CODE_LEN * unitGas)
      * tx.GasPrice ≤ balance)
    (hlim : tx.GasLimit
      < createGas + deploy.GetRawCode.length / env.PER_UNIT_CODE_LEN * unitGas) :
    (∀ notifies cache2,
      chargeCostGas env tx.Payer (tx.GasLimit * tx.GasPrice)
        (Config.mk block.Timestamp block.Height) (NewCacheDB overlay)
        = ((notifies, none), cache2) →
      HandleDeployTransaction env overlay gasTable cache tx deploy block notify
        = TxResult.mk (some .gasLimitInsufficient) (cache2.Commit overlay) cache1
            (ExecuteNotify.mk notify.State (tx.GasLimit * tx.GasPrice)
              (notify.Notify ++ notifies))) ∧
    (∀ notifies err cache2,
      chargeCostGas env tx.Payer (tx.GasLimit * tx.GasPrice)
        (Config.mk block.Timestamp block.Height) (NewCacheDB overlay)
        = ((notifies, some err), cache2) →
      HandleDeployTransaction env overlay gasTable cache tx deploy block notify
        = TxResult.mk (some err) overlay cache1 notify) := by
  have hb := getBalanceFromNative_lt env _ cache cache1 tx.Payer balance hbal
  obtain ⟨hreq, hprod⟩ := required_no_wrap createGas
    (deploy.GetRawCode.length / env.PER_UNIT_CODE_LEN) unitGas tx.GasPrice balance hprice hb hge
  have hfee : tx.GasLimit * tx.GasPrice % 2 ^ 64 = tx.GasLimit * tx.GasPrice := by
    apply Nat.mod_eq_of_lt
    have := Nat.mul_le_mul_right tx.GasPrice (Nat.le_of_lt hlim)
    omega
  have hhead : HandleDeployTransaction env overlay gasTable cache tx deploy block notify
      = failWithInvalidGas env tx.Payer (tx.GasLimit * tx.GasPrice)
          (Config.mk block.Timestamp block.Height) overlay cache1 notify
          .gasLimitInsufficient := by
    unfold HandleDeployTransaction
    simp only [hvm, deploy_module_check env deploy ty hmod, hprice, ne_eq, not_false_eq_true,
      if_true, hc, hu, calcGasByCodeLen, hreq, hprod, isBalanceSufficient, hbal,
      Nat.not_lt.mpr hge, if_false, hlim, hfee]
  rw [hhead]
  refine ⟨?_, ?_⟩
  · intro notifies cache2 hcharge
    unfold failWithInvalidGas costInvalidGas
    simp only [hcharge]
  · intro notifies err cache2 hcharge
    unfold failWithInvalidGas costInvalidGas
    simp only [hcharge]

/-- Claim C20 at concrete inputs: the payer owns 1000, `required` is 120 at price 2 and
the gas limit is 50. The handler fails with the gas-limit error, records 100 as consumed
gas, the payer owns 900 in the overlay, the governance address 100, and the contract is
stored neither in the overlay nor in the work cache. -/
theorem C20_deploy_gas_limit_below_required_witness :
    (HandleDeployTransaction sampleLedgerEnv sampleOverlay sampleGasTable sampleLedgerCache
      sampleTx sampleDeploy sampleBlock sampleNotify).err = some .gasLimitInsufficient ∧
    (HandleDeployTransaction sampleLedgerEnv sampleOverlay sampleGasTable sampleLedgerCache
      sampleTx sampleDeploy sampleBlock sampleNotify).notify.GasConsumed = 100 ∧
    (HandleDeployTransaction sampleLedgerEnv sampleOverlay sampleGasTable sampleLedgerCache
      sampleTx sampleDeploy sampleBlock sampleNotify).overlay.db.Get
        (sampleOngAddress ++ samplePayer) = some (leBytes 8 900) ∧
    (HandleDeployTransaction sampleLedgerEnv sampleOverlay sampleGasTable sampleLedgerCache
      sampleTx sampleDeploy sampleBlock sampleNotify).overlay.db.Get
        (sampleOngAddress ++ sampleGovernanceAddress) = some (leBytes 8 100) ∧
    (HandleDeployTransaction sampleLedgerEnv sampleOverlay sampleGasTable sampleLedgerCache
      sampleTx sampleDeploy sampleBlock sampleNotify).overlay.db.GetContract
        (sampleHash [0, 97, 115, 109]) = none ∧
    (HandleDeployTransaction sampleLedgerEnv sampleOverlay sampleGasTable sampleLedgerCache
      sampleTx sampleDeploy sampleBlock sampleNotify).cache = sampleLedgerCache := by
  have h := (C20_deploy_gas_limit_below_required sampleLedgerEnv sampleOverlay sampleGasTable
    sampleLedgerCache sampleTx sampleDeploy sampleBlock sampleNotify WASMVM_TYPE 100 10 1000
    sampleLedgerCache (by decide) (fun _ => ⟨_, rfl⟩) (by decide) (by decide) (by decide)
    (by decide) (by decide) (by decide)).1
    [NotifyEventInfo.mk sampleOngAddress (leBytes 8 100)]
    ((sampleLedgerCache.Put (sampleOngAddress ++ samplePayer) (leBytes 8 900)).Put
      (sampleOngAddress ++ sampleGovernanceAddress) (leBytes 8 100))
    (by decide)
  rw [h]
  decide

/-! ## Module validation -/

theorem export_single_invoke (entries : List (String × ExportEntry)) (name : String)
    (entry : ExportEntry) (hlen : entries.length = 1)
    (hfind : entries.find? (fun e => decide (e.1 = "invoke")) = some (name, entry)) :
    entries = [("invoke", entry)] := by
  match entries, hlen with
  | [e], _ =>
    have hmem := List.mem_of_find?_eq_some hfind
    have hp := List.find?_some hfind
    simp only [List.mem_singleton] at hmem
    simp only [decide_eq_true_eq] at hp
    subst hmem
    have hp2 : name = "invoke" := hp
    subst hp2
    rfl

/-- Claim C25. `checkOntoWasm` returns no error exactly for the modules without a start
section whose export section is the single entry `invoke`, of kind function, and for
which the lookups `m.Function.Types[entry.Index]` and `m.Types.Entries[fidx]` succeed
and give a signature without parameters and without results. For a module that passes
the checks on the start and export sections and for which one of the two lookups does
not succeed (no function section, an export index outside the function section, no type
section, a type index outside it), `checkOntoWasm` does not return an error: it stops
with a runtime panic. -/
theorem C25_checkOntoWasm_accepts_or_faults (m : Module) :
    (checkOntoWasm m = .ok () ↔
      m.Start = none ∧
      ∃ entry ftypes fidx sigs ftype,
        m.Export = some [("invoke", entry)] ∧ entry.Kind = ExternalFunction ∧
        m.Function = some ftypes ∧ ftypes[entry.Index]? = some fidx ∧
        m.Types = some sigs ∧ sigs[fidx]? = some ftype ∧
        ftype.ParamTypes = [] ∧ ftype.ReturnTypes = []) ∧
    (checkOntoWasm m = .fault ↔
      m.Start = none ∧
      ∃ entry, m.Export = some [("invoke", entry)] ∧ entry.Kind = ExternalFunction ∧
        (m.Function = none ∨
          ∃ ftypes, m.Function = some ftypes ∧
            (ftypes[entry.Index]? = none ∨
              ∃ fidx, ftypes[entry.Index]? = some fidx ∧
                (m.Types = none ∨ ∃ sigs, m.Types = some sigs ∧ sigs[fidx]? = none)))) := by
  unfold checkOntoWasm
  cases hstart : m.Start with
  | some s => simp
  | none =>
    simp only [Option.isSome_none, Bool.false_eq_true, if_false, true_and]
    cases hexp : m.Export with
    | none => simp
    | some entries =>
      simp only
      by_cases hlen : entries.length = 1
      swap
      · simp only [ne_eq, hlen, not_false_eq_true, if_true, reduceCtorEq, false_iff, not_exists,
          not_and, Option.some.injEq]
        refine ⟨?_, ?_⟩
        · intro entry ftypes fidx sigs ftype he
          subst he
          exact absurd rfl hlen
        · intro entry he
          subst he
          exact absurd rfl hlen
      · simp only [ne_eq, hlen, not_true_eq_false, if_false]
        cases hfind : entries.find? (fun e => decide (e.1 = "invoke")) with
        | none =>
          simp only [reduceCtorEq, false_iff, not_exists, not_and, Option.some.injEq]
          refine ⟨?_, ?_⟩
          · intro entry ftypes fidx sigs ftype he
            subst he
            simp at hfind
          · intro entry he
            subst he
            simp at hfind
        | some found =>
          obtain ⟨name, entry⟩ := found
          have hent := export_single_invoke entries name entry hlen hfind
          subst hent
          simp only [Option.some.injEq, List.cons.injEq, Prod.mk.injEq, true_and, and_true]
          by_cases hkind : entry.Kind = ExternalFunction
          swap
          · simp only [ne_eq, hkind, not_false_eq_true, if_true, reduceCtorEq, false_iff,
              not_exists, not_and]
            refine ⟨?_, ?_⟩
            · intro e2 ftypes fidx sigs ftype he hk
              subst he
              exact absurd hk hkind
            · intro e2 he hk
              subst he
              exact absurd hk hkind
          · simp only [ne_eq, hkind, not_true_eq_false, if_false]
            cases hfun : m.Function with
            | none =>
              simp only [reduceCtorEq, false_iff, not_exists, not_and, true_iff]
              refine ⟨?_, ?_⟩
              · intro e2 ftypes fidx sigs ftype _ _ h
                cases h
              · exact ⟨entry, rfl, hkind, Or.inl trivial⟩
            | some ftypes =>
              simp only [Option.some.injEq]
              cases hidx : ftypes[entry.Index]? with
              | none =>
                simp only [reduceCtorEq, false_iff, not_exists, not_and, true_iff]
                refine ⟨?_, ?_⟩
                · intro e2 ft fidx sigs ftype he _ hft hi
                  subst he
                  subst hft
                  rw [hidx] at hi
                  cases hi
                · exact ⟨entry, rfl, hkind, Or.inr ⟨ftypes, rfl, Or.inl hidx⟩⟩
              | some fidx =>
                simp only
                cases htypes : m.Types with
                | none =>
                  simp only [reduceCtorEq, false_iff, not_exists, not_and, true_iff]
                  refine ⟨?_, ?_⟩
                  · intro e2 ft fi sigs ftype _ _ _ _ h
                    cases h
                  · exact ⟨entry, rfl, hkind,
                      Or.inr ⟨ftypes, rfl, Or.inr ⟨fidx, hidx, Or.inl trivial⟩⟩⟩
                | some sigs =>
                  simp only
                  cases hsig : sigs[fidx]? with
                  | none =>
                    simp only [reduceCtorEq, false_iff, not_exists, not_and, true_iff]
                    refine ⟨?_, ?_⟩
                    · intro e2 ft fi sg ftype he _ hft hi hsg hs
                      subst he
                      subst hft
                      rw [hidx] at hi
                      simp only [Option.some.injEq] at hi hsg
                      subst hi
                      subst hsg
                      rw [hsig] at hs
                      cases hs
                    · exact ⟨entry, rfl, hkind,
                        Or.inr ⟨ftypes, rfl, Or.inr ⟨fidx, hidx, Or.inr ⟨sigs, rfl, hsig⟩⟩⟩⟩
                  | some ftype =>
                    simp only
                    refine ⟨?_, ?_⟩
                    · constructor
                      · intro h
                        by_cases hr : ftype.ReturnTypes.length > 0
                        · simp [hr] at h
                        · by_cases hp : ftype.ParamTypes.length > 0
                          · simp [hr, hp] at h
                          · refine ⟨entry, ftypes, fidx, sigs, ftype, rfl, hkind, rfl, hidx,
                              rfl, hsig, ?_, ?_⟩
                            · exact List.length_eq_zero.mp (by omega)
                            · exact List.length_eq_zero.mp (by omega)
                      · rintro ⟨e2, ft, fi, sg, fty, he, _, hft, hi, hsg, hs, hp, hr⟩
                        subst he
                        subst hft
                        rw [hidx] at hi
                        simp only [Option.some.injEq] at hi hsg
                        subst hi
                        subst hsg
                        rw [hsig] at hs
                        simp only [Option.some.injEq] at hs
                        subst hs
                        simp [hp, hr]
                    · constructor
                      · intro h
                        exfalso
                        split_ifs at h
                      · rintro ⟨e2, he, _, h⟩
                        subst he
                        rcases h with h | ⟨ft, hft, h⟩
                        · cases h
                        · subst hft
                          rcases h with h | ⟨fi, hi, h⟩
                          · rw [hidx] at h
                            cases h
                          · rw [hidx] at hi
                            simp only [Option.some.injEq] at hi
                            subst hi
                            rcases h with h | ⟨sg, hsg, h⟩
                            · cases h
                            · simp only [Option.some.injEq] at hsg
                              subst hsg
                              rw [hsig] at h
                              cases h

/-- Claim C25 at concrete inputs: a module whose `invoke` export has index 1 with one
function in the function section, and the same module without a function section, make
`checkOntoWasm` stop with a runtime panic, and so `ReadWasmModule` with verification;
with index 0 the module is accepted. -/
theorem C25_checkOntoWasm_accepts_or_faults_witness :
    checkOntoWasm sampleImportModule = .fault ∧
    checkOntoWasm sampleNoFunctionModule = .fault ∧
    ReadWasmModule { sampleDeployEnv.lib with ReadModule := fun _ => .ok sampleImportModule }
      [0, 97, 115, 109] true = .fault ∧
    checkOntoWasm sampleModule = .ok () :=
  ⟨(C25_checkOntoWasm_accepts_or_faults sampleImportModule).2.mpr
      ⟨rfl, _, rfl, rfl, Or.inr ⟨[0], rfl, Or.inl rfl⟩⟩,
   (C25_checkOntoWasm_accepts_or_faults sampleNoFunctionModule).2.mpr
      ⟨rfl, _, rfl, rfl, Or.inl rfl⟩,
   rfl, by decide⟩

/-! ## Migrate and destroy: what is left alone -/

theorem NewIterator_entries_prefix (db : CacheDB) (pre : List Nat)
    (x : List Nat × List Nat) (h : x ∈ (db.NewIterator pre).entries) : pre <+: x.1 := by
  unfold CacheDB.NewIterator at h
  have hall : ∀ y ∈ List.insertionSort keyLe (db.store.filter (fun e => pre.isPrefixOf e.1)),
      pre <+: y.1 := by
    intro y hy
    simp only [List.mem_insertionSort, List.mem_filter, List.isPrefixOf_iff_prefix] at hy
    exact hy.2
  cases hf : db.iterFault with
  | none =>
    simp only [hf] at h
    exact hall x h
  | some f =>
    obtain ⟨n, code⟩ := f
    simp only [hf] at h
    exact hall x (List.mem_of_mem_take h)

theorem Get_Delete (db : CacheDB) (d key : List Nat) :
    (db.Delete d).Get key = if key = d then none else db.Get key := by
  unfold CacheDB.Get CacheDB.Delete
  simp only
  by_cases hk : key = d
  · subst hk
    simp only [if_true, Option.map_eq_none']
    rw [List.find?_eq_none]
    intro x hx
    simp only [List.mem_filter, decide_eq_true_eq] at hx
    simp only [decide_eq_true_eq]
    exact hx.2
  · simp only [hk, if_false]
    rw [find?_filter_of_imp]
    intro x hx
    simp only [decide_eq_true_eq] at hx ⊢
    rw [hx]
    exact hk

theorem foldl_Delete_other (L : List (List Nat × List Nat)) (db : CacheDB) (key : List Nat)
    (h : ∀ e ∈ L, key ≠ e.1) :
    (L.foldl (fun db e => db.Delete e.1) db).Get key = db.Get key := by
  induction L generalizing db with
  | nil => rfl
  | cons e L ih =>
    rw [List.foldl_cons, ih _ (fun x hx => h x (List.mem_cons_of_mem _ hx)), Get_Delete]
    simp only [h e (List.mem_cons_self _ _), if_false]

theorem GetContract_DeleteContract_other (db : CacheDB) (old a : Address) (h : a ≠ old) :
    (db.DeleteContract old).GetContract a = db.GetContract a := by
  unfold CacheDB.GetContract CacheDB.DeleteContract
  simp only
  rw [find?_filter_of_imp]
  intro x hx
  simp only [decide_eq_true_eq] at hx ⊢
  rw [hx]
  exact h

theorem GetContract_PutContract_other (AddressFromVmCode : List Nat → Address) (db : CacheDB)
    (dep : DeployCode) (a : Address) (h : a ≠ (dep.Address AddressFromVmCode).1) :
    (db.PutContract AddressFromVmCode dep).GetContract a = db.GetContract a := by
  unfold CacheDB.GetContract CacheDB.PutContract
  simp only
  rw [List.find?_cons_of_neg _ (by simpa using fun hh => h hh.symm)]
  rw [find?_filter_of_imp]
  intro x hx
  simp only [decide_eq_true_eq] at hx ⊢
  rw [hx]
  exact h

/-- The cache a `contract_destroy` leaves, whatever its outcome. -/
theorem ContractDestroy_cache (proc : Process) :
    (ContractDestroy proc).proc.HostData.Service.CacheDB = proc.HostData.Service.CacheDB ∨
    ∃ ctx, proc.HostData.Service.ContextRef.CurrentContext = some ctx ∧
      ((ContractDestroy proc).proc.HostData.Service.CacheDB =
          (proc.HostData.Service.CacheDB.NewIterator ctx.ContractAddress).entries.foldl
            (fun db e => db.Delete e.1) proc.HostData.Service.CacheDB ∨
        (ContractDestroy proc).proc.HostData.Service.CacheDB =
          ((proc.HostData.Service.CacheDB.NewIterator ctx.ContractAddress).entries.foldl
            (fun db e => db.Delete e.1) proc.HostData.Service.CacheDB).DeleteContract
            ctx.ContractAddress) := by
  unfold ContractDestroy
  cases hctx : proc.HostData.Service.ContextRef.CurrentContext with
  | none => exact Or.inl rfl
  | some ctx =>
    refine Or.inr ⟨ctx, rfl, ?_⟩
    simp only
    cases herr : (proc.HostData.Service.CacheDB.NewIterator ctx.ContractAddress).err with
    | some e => exact Or.inl rfl
    | none => exact Or.inr rfl

/-- The cache a `contract_migrate` leaves, whatever its outcome. -/
theorem ContractMigrate_cache (env : HostEnv) (proc : Process)
    (codePtr codeLen vmType namePtr nameLen verPtr verLen authorPtr authorLen
      emailPtr emailLen descPtr descLen newAddressPtr : Nat) :
    (ContractMigrate env proc codePtr codeLen vmType namePtr nameLen verPtr verLen
        authorPtr authorLen emailPtr emailLen descPtr descLen
        newAddressPtr).proc.HostData.Service.CacheDB = proc.HostData.Service.CacheDB ∨
    ∃ dep addr g ctx,
      createPreamble env proc codePtr codeLen vmType namePtr nameLen verPtr verLen
        authorPtr authorLen emailPtr emailLen descPtr descLen =
        .ok (dep, addr) (proc.withGasLimit g) ∧
      proc.HostData.Service.ContextRef.CurrentContext = some ctx ∧
      (ContractMigrate env proc codePtr codeLen vmType namePtr nameLen verPtr verLen
        authorPtr authorLen emailPtr emailLen descPtr descLen
        newAddressPtr).proc.HostData.Service.CacheDB =
        (((proc.HostData.Service.CacheDB.PutContract env.AddressFromVmCode dep).DeleteContract
          ctx.ContractAddress).NewIterator ctx.ContractAddress).entries.foldl
          (fun db e => (db.Put (serializeStorageKey addr (e.1.drop 20)) e.2).Delete e.1)
          ((proc.HostData.Service.CacheDB.PutContract env.AddressFromVmCode dep).DeleteContract
            ctx.ContractAddress) := by
  obtain ⟨g, hg, hf⟩ := createPreamble_frame env proc codePtr codeLen vmType namePtr nameLen
    verPtr verLen authorPtr authorLen emailPtr emailLen descPtr descLen
  unfold ContractMigrate
  cases hpre : createPreamble env proc codePtr codeLen vmType namePtr nameLen verPtr verLen
      authorPtr authorLen emailPtr emailLen descPtr descLen with
  | trap err p0 =>
    rw [hpre] at hf
    have hp : p0 = proc.withGasLimit g := hf
    subst hp
    exact Or.inl rfl
  | ok r p0 =>
    obtain ⟨dep, addr⟩ := r
    rw [hpre] at hf
    have hp : p0 = proc.withGasLimit g := hf
    subst hp
    simp only
    have hcc : (proc.withGasLimit g).HostData.Service.ContextRef.CurrentContext =
        proc.HostData.Service.ContextRef.CurrentContext := rfl
    cases hctx : proc.HostData.Service.ContextRef.CurrentContext with
    | none =>
      rw [hcc, hctx]
      exact Or.inl rfl
    | some ctx =>
      rw [hcc, hctx]
      refine Or.inr ⟨dep, addr, g, ctx, rfl, rfl, ?_⟩
      simp only
      have hdb : (proc.withGasLimit g).HostData.Service.CacheDB =
          proc.HostData.Service.CacheDB := rfl
      rw [hdb]
      cases herr : (((proc.HostData.Service.CacheDB.PutContract env.AddressFromVmCode
          dep).DeleteContract ctx.ContractAddress).NewIterator ctx.ContractAddress).err with
      | some e => rfl
      | none =>
        simp only
        split
        · rfl
        · rename_i n e proc2 hw
          have hh := WriteAt_HostData _ _ _ _ _ _ hw
          simp only [HostResult.proc]
          rw [hh]
        · rename_i n proc2 hw
          have hh := WriteAt_HostData _ _ _ _ _ _ hw
          simp only [HostResult.proc]
          rw [hh]

/-- Claim C29. Whatever the outcome of `contract_destroy` and of `contract_migrate`
(return or trap): a storage key that begins neither with the address of the current
context nor, for migrate, with the address of the new code (for 20-byte addresses: a key
whose first 20 bytes are neither address) has the same value in the cache after the call
as before, and the DeployCode record of every address other than these is the same. -/
theorem C29_migrate_destroy_frame (env : HostEnv) (proc : Process)
    (codePtr codeLen vmType namePtr nameLen verPtr verLen authorPtr authorLen
      emailPtr emailLen descPtr descLen newAddressPtr : Nat) :
    (∀ key, (∀ ctx, proc.HostData.Service.ContextRef.CurrentContext = some ctx →
          ¬ ctx.ContractAddress <+: key) →
      (ContractDestroy proc).proc.HostData.Service.CacheDB.Get key =
        proc.HostData.Service.CacheDB.Get key) ∧
    (∀ a, (∀ ctx, proc.HostData.Service.ContextRef.CurrentContext = some ctx →
          a ≠ ctx.ContractAddress) →
      (ContractDestroy proc).proc.HostData.Service.CacheDB.GetContract a =
        proc.HostData.Service.CacheDB.GetContract a) ∧
    (∀ key, (∀ ctx, proc.HostData.Service.ContextRef.CurrentContext = some ctx →
          ¬ ctx.ContractAddress <+: key) →
      (∀ code, ReadWasmMemory proc codePtr codeLen = .ok code →
          ¬ env.AddressFromVmCode code <+: key) →
      (ContractMigrate env proc codePtr codeLen vmType namePtr nameLen verPtr verLen
        authorPtr authorLen emailPtr emailLen descPtr descLen
        newAddressPtr).proc.HostData.Service.CacheDB.Get key =
        proc.HostData.Service.CacheDB.Get key) ∧
    (∀ a, (∀ ctx, proc.HostData.Service.ContextRef.CurrentContext = some ctx →
          a ≠ ctx.ContractAddress) →
      (∀ code, ReadWasmMemory proc codePtr codeLen = .ok code →
          a ≠ env.AddressFromVmCode code) →
      (ContractMigrate env proc codePtr codeLen vmType namePtr nameLen verPtr verLen
        authorPtr authorLen emailPtr emailLen descPtr descLen
        newAddressPtr).proc.HostData.Service.CacheDB.GetContract a =
        proc.HostData.Service.CacheDB.GetContract a) := by
  refine ⟨?_, ?_, ?_, ?_⟩
  · intro key hkey
    rcases ContractDestroy_cache proc with h | ⟨ctx, hctx, h | h⟩
    · rw [h]
    · rw [h]
      exact foldl_Delete_other _ _ _ (fun e he heq =>
        hkey ctx hctx (heq ▸ NewIterator_entries_prefix _ _ e he))
    · rw [h]
      have : ∀ (db : CacheDB) (o : Address), (db.DeleteContract o).Get key = db.Get key :=
        fun _ _ => rfl
      rw [this]
      exact foldl_Delete_other _ _ _ (fun e he heq =>
        hkey ctx hctx (heq ▸ NewIterator_entries_prefix _ _ e he))
  · intro a ha
    rcases ContractDestroy_cache proc with h | ⟨ctx, hctx, h | h⟩
    · rw [h]
    · rw [h]
      exact GetContract_congr _ _ _ (foldl_Delete_contracts _ _).1
    · rw [h, GetContract_DeleteContract_other _ _ _ (ha ctx hctx)]
      exact GetContract_congr _ _ _ (foldl_Delete_contracts _ _).1
  · intro key hkey hnew
    rcases ContractMigrate_cache env proc codePtr codeLen vmType namePtr nameLen verPtr verLen
        authorPtr authorLen emailPtr emailLen descPtr descLen newAddressPtr with
      h | ⟨dep, addr, g, ctx, hpre, hctx, h⟩
    · rw [h]
    · obtain ⟨g2, code, name, version, author, email, desc, m, _, _, h1, _, _, _, _, _, _, _,
        haddr, _, _, _⟩ := createPreamble_ok_inv env proc _ _ _ _ _ _ _ _ _ _ _ _ _ dep addr _ hpre
      rw [h, foldl_migrate_other]
      · rfl
      · intro e he heq
        exact hkey ctx hctx (heq ▸ NewIterator_entries_prefix _ _ e he)
      · intro e he heq
        apply hnew code h1
        rw [heq, haddr]
        exact List.prefix_append _ _
  · intro a ha hnew
    rcases ContractMigrate_cache env proc codePtr codeLen vmType namePtr nameLen verPtr verLen
        authorPtr authorLen emailPtr emailLen descPtr descLen newAddressPtr with
      h | ⟨dep, addr, g, ctx, hpre, hctx, h⟩
    · rw [h]
    · obtain ⟨g2, code, name, version, author, email, desc, m, _, _, h1, _, _, _, _, _, _, _,
        haddr, hdep, _, _⟩ :=
        createPreamble_ok_inv env proc _ _ _ _ _ _ _ _ _ _ _ _ _ dep addr _ hpre
      have hda : (dep.Address env.AddressFromVmCode).1 = env.AddressFromVmCode code := by
        have := Address_of_memo env.AddressFromVmCode dep (by rw [hdep])
        rw [this, hdep]
      rw [h, GetContract_congr _ _ _ (foldl_migrate_contracts _ _ _),
        GetContract_DeleteContract_other _ _ _ (ha ctx hctx),
        GetContract_PutContract_other _ _ _ _ (by rw [hda]; exact hnew code h1)]

/-- Claim C29 at concrete inputs: the contract of `sampleSharedProc` migrates and,
in another run, destroys itself; the storage key and the record of the second contract
are after each call what they were before, while the contract's own key is gone. -/
theorem C29_migrate_destroy_frame_witness :
    (ContractDestroy sampleSharedProc).proc.HostData.Service.CacheDB.Get
        (sampleOtherAddress ++ [120]) = some [9] ∧
    (ContractDestroy sampleSharedProc).proc.HostData.Service.CacheDB.GetContract
        sampleOtherAddress = some sampleDeploy ∧
    (ContractMigrate sampleDeployEnv sampleSharedProc 4 4 3 0 0 0 0 0 0 0 0 0 0
        32).proc.HostData.Service.CacheDB.Get (sampleOtherAddress ++ [120]) = some [9] ∧
    (ContractMigrate sampleDeployEnv sampleSharedProc 4 4 3 0 0 0 0 0 0 0 0 0 0
        32).proc.HostData.Service.CacheDB.GetContract sampleOtherAddress = some sampleDeploy ∧
    (ContractMigrate sampleDeployEnv sampleSharedProc 4 4 3 0 0 0 0 0 0 0 0 0 0
        32).proc.HostData.Service.CacheDB.Get (sampleHash [0, 97, 115, 109] ++ [120]) = none ∧
    (ContractDestroy sampleSharedProc).proc.HostData.Service.CacheDB.Get
        (sampleHash [0, 97, 115, 109] ++ [120]) = none := by
  have h := C29_migrate_destroy_frame sampleDeployEnv sampleSharedProc 4 4 3 0 0 0 0 0 0 0 0 0
    0 32
  refine ⟨?_, ?_, ?_, ?_, by decide, by decide⟩
  · rw [h.1 (sampleOtherAddress ++ [120]) (by decide)]
    decide
  · rw [h.2.1 sampleOtherAddress (by decide)]
    decide
  · rw [h.2.2.1 (sampleOtherAddress ++ [120]) (by decide) (by
      intro code hcode
      have hc : code = [0, 97, 115, 110] := by
        have h2 : ReadWasmMemory sampleSharedProc 4 4 = .ok [0, 97, 115, 110] := by decide
        rw [h2] at hcode
        injection hcode with hcode
        exact hcode.symm
      subst hc
      decide)]
    decide
  · rw [h.2.2.2 sampleOtherAddress (by decide) (by
      intro code hcode
      have hc : code = [0, 97, 115, 110] := by
        have h2 : ReadWasmMemory sampleSharedProc 4 4 = .ok [0, 97, 115, 110] := by decide
        rw [h2] at hcode
        injection hcode with hcode
        exact hcode.symm
      subst hc
      decide)]
    decide

/-! ## Transaction handlers: the deploy handler past its pre-flight -/

/-- Claim C30 as stated fails: a WASM deploy transaction with gas price 10, `required`
120 and a payer who owns 1000 (below `required * price` = 1200), whose code the module
check rejects: the handler returns the error of the module check, not the
insufficient-balance error, and calls no transfer. -/
theorem C30_deploy_low_balance_counterexample :
    sampleCostlyTx.GasPrice ≠ 0 ∧
    (getBalanceFromNative sampleStrictLedgerEnv (Config.mk 0 1) sampleLedgerCache
      samplePayer).1 = (1000, none) ∧
    1000 < (100 + sampleDeploy.GetRawCode.length / sampleStrictLedgerEnv.PER_UNIT_CODE_LEN * 10)
      * sampleCostlyTx.GasPrice ∧
    HandleDeployTransaction sampleStrictLedgerEnv sampleOverlay sampleGasTable
      sampleLedgerCache sampleCostlyTx sampleDeploy sampleBlock sampleNotify
      = TxResult.mk (some (.readModule (.validate 2))) sampleOverlay sampleLedgerCache
          sampleNotify := by
  decide

/-- Claim C30, amended. A deploy transaction with a non-zero gas price whose payload has
a VM type and, if that type is WASM, a code that loads and verifies; both gas-table
entries present; the balance read returns `balance`, below `required * price` as the
handler computes it in 64-bit arithmetic. Then the amount the handler passes to
`costInvalidGas` is 0. If that transfer of 0 on a fresh cache over the overlay succeeds,
the handler returns the insufficient-balance error, the overlay holds what the transfer
left, `GasConsumed` is 0 (the notifications of the transfer appended, the state
untouched), and the work cache is as the balance read left it: no contract is put. If
the transfer fails, the handler returns the error of the transfer. -/
theorem C30_deploy_low_balance_charges_zero (env : LedgerEnv) (overlay : OverlayDB)
    (gasTable : String → Option Nat) (cache : CacheDB) (tx : Transaction)
    (deploy : DeployCode) (block : Block) (notify : ExecuteNotify)
    (ty : VmType) (createGas unitGas balance : Nat) (cache1 : CacheDB)
    (hvm : deploy.VmType = some ty)
    (hmod : ty = WASMVM_TYPE →
      ∃ m, ReadWasmModule env.host.lib deploy.GetRawCode true = .ok m)
    (hprice : tx.GasPrice ≠ 0)
    (hc : gasTable env.CONTRACT_CREATE_NAME = some createGas)
    (hu : gasTable env.UINT_DEPLOY_CODE_LEN_NAME = some unitGas)
    (hbal : getBalanceFromNative env (Config.mk block.Timestamp block.Height) cache tx.Payer
      = ((balance, none), cache1))
    (hlt : balance <
      (createGas + calcGasByCodeLen env deploy.GetRawCode.length unitGas) % 2 ^ 64
        * tx.GasPrice % 2 ^ 64) :
    HandleDeployTransaction env overlay gasTable cache tx deploy block notify
      = failWithInvalidGas env tx.Payer 0 (Config.mk block.Timestamp block.Height) overlay
          cache1 notify .payerGasInsufficient ∧
    (∀ notifies cache2,
      chargeCostGas env tx.Payer 0 (Config.mk block.Timestamp block.Height)
        (NewCacheDB overlay) = ((notifies, none), cache2) →
      HandleDeployTransaction env overlay gasTable cache tx deploy block notify
        = TxResult.mk (some .payerGasInsufficient) (cache2.Commit overlay) cache1
            (ExecuteNotify.mk notify.State 0 (notify.Notify ++ notifies))) ∧
    (∀ notifies err cache2,
      chargeCostGas env tx.Payer 0 (Config.mk block.Timestamp block.Height)
        (NewCacheDB overlay) = ((notifies, some err), cache2) →
      HandleDeployTransaction env overlay gasTable cache tx deploy block notify
        = TxResult.mk (some err) overlay cache1 notify) ∧
    ((createGas + deploy.GetRawCode.length / env.PER_UNIT_CODE_LEN * unitGas) * tx.GasPrice
        < 2 ^ 64 →
      (createGas + calcGasByCodeLen env deploy.GetRawCode.length unitGas) % 2 ^ 64
        * tx.GasPrice % 2 ^ 64 =
      (createGas + deploy.GetRawCode.length / env.PER_UNIT_CODE_LEN * unitGas)
        * tx.GasPrice) := by
  have hhead : HandleDeployTransaction env overlay gasTable cache tx deploy block notify
      = failWithInvalidGas env tx.Payer 0 (Config.mk block.Timestamp block.Height) overlay
          cache1 notify .payerGasInsufficient := by
    unfold HandleDeployTransaction
    simp only [hvm, deploy_module_check env deploy ty hmod, hprice, ne_eq, not_false_eq_true,
      if_true, hc, hu, isBalanceSufficient, hbal, hlt]
  refine ⟨hhead, ?_, ?_, ?_⟩
  · intro notifies cache2 hcharge
    rw [hhead]
    unfold failWithInvalidGas costInvalidGas
    simp only [hcharge]
  · intro notifies err cache2 hcharge
    rw [hhead]
    unfold failWithInvalidGas costInvalidGas
    simp only [hcharge]
  · intro hfit
    obtain ⟨hreq, hprod⟩ := required_no_wrap createGas
      (deploy.GetRawCode.length / env.PER_UNIT_CODE_LEN) unitGas tx.GasPrice
      ((createGas + deploy.GetRawCode.length / env.PER_UNIT_CODE_LEN * unitGas) * tx.GasPrice)
      hprice hfit (Nat.le_refl _)
    unfold calcGasByCodeLen
    rw [hreq, hprod]

/-- Claim C30 at concrete inputs: the payer owns 1000, `required` is 120 at price 10.
The handler fails with the insufficient-balance error, records 0 as consumed gas, the
payer still owns 1000 in the overlay and the contract is stored neither in the overlay
nor in the work cache. -/
theorem C30_deploy_low_balance_charges_zero_witness :
    (HandleDeployTransaction sampleLedgerEnv sampleOverlay sampleGasTable sampleLedgerCache
      sampleCostlyTx sampleDeploy sampleBlock sampleNotify).err
      = some .payerGasInsufficient ∧
    (HandleDeployTransaction sampleLedgerEnv sampleOverlay sampleGasTable sampleLedgerCache
      sampleCostlyTx sampleDeploy sampleBlock sampleNotify).notify.GasConsumed = 0 ∧
    (HandleDeployTransaction sampleLedgerEnv sampleOverlay sampleGasTable sampleLedgerCache
      sampleCostlyTx sampleDeploy sampleBlock sampleNotify).overlay.db.Get
        (sampleOngAddress ++ samplePayer) = some (leBytes 8 1000) ∧
    (HandleDeployTransaction sampleLedgerEnv sampleOverlay sampleGasTable sampleLedgerCache
      sampleCostlyTx sampleDeploy sampleBlock sampleNotify).overlay.db.GetContract
        (sampleHash [0, 97, 115, 109]) = none ∧
    (HandleDeployTransaction sampleLedgerEnv sampleOverlay sampleGasTable sampleLedgerCache
      sampleCostlyTx sampleDeploy sampleBlock sampleNotify).cache = sampleLedgerCache := by
  have h := (C30_deploy_low_balance_charges_zero sampleLedgerEnv sampleOverlay sampleGasTable
    sampleLedgerCache sampleCostlyTx sampleDeploy sampleBlock sampleNotify WASMVM_TYPE 100 10
    1000 sampleLedgerCache (by decide) (fun _ => ⟨_, rfl⟩) (by decide) (by decide) (by decide)
    (by decide) (by decide)).2.1
    [NotifyEventInfo.mk sampleOngAddress (leBytes 8 0)]
    ((sampleLedgerCache.Put (sampleOngAddress ++ samplePayer) (leBytes 8 1000)).Put
      (sampleOngAddress ++ sampleGovernanceAddress) (leBytes 8 0))
    (by decide)
  rw [h]
  decide

/-! ## Transaction handlers: the invoke handler -/

theorem invokeIsCharge_true (env : LedgerEnv) (tx : Transaction) (invoke : List Nat)
    (block : Block) (hcode : invoke ≠ env.COMMIT_DPOS_BYTES) (hheight : block.Height ≠ 0)
    (hprice : tx.GasPrice ≠ 0) : invokeIsCharge env tx invoke block = true := by
  simp [invokeIsCharge, hcode, hheight, hprice]

theorem invokeIsCharge_price (env : LedgerEnv) (tx : Transaction) (invoke : List Nat)
    (block : Block) (h : invokeIsCharge env tx invoke block = true) : tx.GasPrice ≠ 0 := by
  simp only [invokeIsCharge, Bool.and_eq_true, decide_eq_true_eq] at h
  exact h.2

theorem invokePreflight_uncharged (env : LedgerEnv) (overlay : OverlayDB)
    (gasTable : String → Option Nat) (cache : CacheDB) (tx : Transaction) (invoke : List Nat)
    (config : Config) (notify : ExecuteNotify) :
    invokePreflight env overlay gasTable cache tx invoke config notify false
      = .ok (0, tx.GasLimit, cache) := by
  simp [invokePreflight]

theorem invokePreflight_pass (env : LedgerEnv) (overlay : OverlayDB)
    (gasTable : String → Option Nat) (cache : CacheDB) (tx : Transaction) (invoke : List Nat)
    (config : Config) (notify : ExecuteNotify) (unitGas balance : Nat) (cache1 : CacheDB)
    (hu : gasTable env.UINT_INVOKE_CODE_LEN_NAME = some unitGas)
    (hbal : getBalanceFromNative env config cache tx.Payer = ((balance, none), cache1))
    (h1 : ¬ balance < env.MIN_TRANSACTION_GAS * tx.GasPrice % 2 ^ 64)
    (h2 : ¬ balance < calcGasByCodeLen env invoke.length unitGas * tx.GasPrice % 2 ^ 64)
    (h3 : ¬ tx.GasLimit < calcGasByCodeLen env invoke.length unitGas) :
    invokePreflight env overlay gasTable cache tx invoke config notify true
      = .ok (calcGasByCodeLen env invoke.length unitGas,
          min tx.GasLimit (balance / tx.GasPrice), cache1) := by
  unfold invokePreflight
  simp only [if_true, hu, hbal, h1, h2, h3, if_false, gt_iff_lt]
  congr 2
  rw [Nat.min_def]
  by_cases h : balance / tx.GasPrice < tx.GasLimit
  · simp only [h, if_true]
    rw [if_neg (by omega)]
  · simp only [h, if_false]
    rw [if_pos (by omega)]

theorem invokePreflight_ok_inv (env : LedgerEnv) (overlay : OverlayDB)
    (gasTable : String → Option Nat) (cache : CacheDB) (tx : Transaction) (invoke : List Nat)
    (config : Config) (notify : ExecuteNotify) (c a : Nat) (cache1 : CacheDB)
    (h : invokePreflight env overlay gasTable cache tx invoke config notify true
      = .ok (c, a, cache1)) :
    ∃ unitGas balance,
      gasTable env.UINT_INVOKE_CODE_LEN_NAME = some unitGas ∧
      getBalanceFromNative env config cache tx.Payer = ((balance, none), cache1) ∧
      ¬ balance < env.MIN_TRANSACTION_GAS * tx.GasPrice % 2 ^ 64 ∧
      c = calcGasByCodeLen env invoke.length unitGas ∧
      ¬ balance < c * tx.GasPrice % 2 ^ 64 ∧
      ¬ tx.GasLimit < c ∧
      a = min tx.GasLimit (balance / tx.GasPrice) := by
  cases hu : gasTable env.UINT_INVOKE_CODE_LEN_NAME with
  | none =>
    unfold invokePreflight at h
    simp only [if_true, hu] at h
    cases h
  | some unitGas =>
    cases hb : getBalanceFromNative env config cache tx.Payer with
    | mk r cache2 =>
      obtain ⟨balance, e⟩ := r
      cases e with
      | some err =>
        unfold invokePreflight at h
        simp only [if_true, hu, hb] at h
        cases h
      | none =>
        by_cases h1 : balance < env.MIN_TRANSACTION_GAS * tx.GasPrice % 2 ^ 64
        · unfold invokePreflight at h
          simp only [if_true, hu, hb, h1] at h
          cases h
        · by_cases h2 : balance <
              calcGasByCodeLen env invoke.length unitGas * tx.GasPrice % 2 ^ 64
          · unfold invokePreflight at h
            simp only [if_true, hu, hb, h1, h2, if_false] at h
            cases h
          · by_cases h3 : tx.GasLimit < calcGasByCodeLen env invoke.length unitGas
            · unfold invokePreflight at h
              simp only [if_true, hu, hb, h1, h2, h3, if_false] at h
              cases h
            · rw [invokePreflight_pass env overlay gasTable cache tx invoke config notify
                unitGas balance cache2 hu hb h1 h2 h3] at h
              simp only [Except.ok.injEq, Prod.mk.injEq] at h
              obtain ⟨rfl, rfl, rfl⟩ := h
              exact ⟨unitGas, balance, rfl, rfl, h1, rfl, h2, h3, rfl⟩

/-- The handler returns what its pre-flight returns when that is a result. -/
theorem HandleInvoke_preflight_error (env : LedgerEnv) (overlay : OverlayDB)
    (gasTable : String → Option Nat) (cache : CacheDB) (tx : Transaction) (invoke : List Nat)
    (block : Block) (notify : ExecuteNotify) (r : TxResult)
    (hpre : invokePreflight env overlay gasTable cache tx invoke
      (Config.mk block.Timestamp block.Height) notify (invokeIsCharge env tx invoke block)
      = .error r) :
    HandleInvokeTransaction env overlay gasTable cache tx invoke block notify = r := by
  unfold invokeIsCharge at hpre
  unfold HandleInvokeTransaction
  simp only [hpre]

/-- A nil engine: the factory is called with the `SmartContract` of the pre-flight's
work cache and the budget `availableGasLimit - codeLenGasLimit`. -/
theorem HandleInvoke_no_engine (env : LedgerEnv) (overlay : OverlayDB)
    (gasTable : String → Option Nat) (cache : CacheDB) (tx : Transaction) (invoke : List Nat)
    (block : Block) (notify : ExecuteNotify) (c a : Nat) (cache1 : CacheDB) (e : Nat)
    (hpre : invokePreflight env overlay gasTable cache tx invoke
      (Config.mk block.Timestamp block.Height) notify (invokeIsCharge env tx invoke block)
      = .ok (c, a, cache1))
    (heng : env.host.NewExecuteEngine invoke tx.TxType
      (invokeContract cache1 block ((a + 2 ^ 64 - c) % 2 ^ 64)) = .error e) :
    HandleInvokeTransaction env overlay gasTable cache tx invoke block notify
      = TxResult.mk (some .runtimeFault) overlay cache1 notify := by
  unfold invokeIsCharge at hpre
  unfold invokeContract at heng
  unfold HandleInvokeTransaction
  simp only [hpre, heng]

/-- The engine fails: the work cache is returned as the engine left it, and a charged
call ends with `costInvalidGas` of the local `costGas`. -/
theorem HandleInvoke_engine_error (env : LedgerEnv) (overlay : OverlayDB)
    (gasTable : String → Option Nat) (cache : CacheDB) (tx : Transaction) (invoke : List Nat)
    (block : Block) (notify : ExecuteNotify) (c a : Nat) (cache1 : CacheDB) (engine : Engine)
    (v : Option (List Nat)) (code : Nat) (sc1 : WasmVmService)
    (hpre : invokePreflight env overlay gasTable cache tx invoke
      (Config.mk block.Timestamp block.Height) notify (invokeIsCharge env tx invoke block)
      = .ok (c, a, cache1))
    (heng : env.host.NewExecuteEngine invoke tx.TxType
      (invokeContract cache1 block ((a + 2 ^ 64 - c) % 2 ^ 64)) = .ok engine)
    (hrun : engine.Invoke (invokeContract cache1 block ((a + 2 ^ 64 - c) % 2 ^ 64))
      = ((v, some code), sc1)) :
    HandleInvokeTransaction env overlay gasTable cache tx invoke block notify
      = if invokeIsCharge env tx invoke block = true then
          failWithInvalidGas env tx.Payer (invokeCostGas env tx a sc1.GasLimit)
            (Config.mk block.Timestamp block.Height) overlay sc1.CacheDB notify (.engine code)
        else TxResult.mk (some (.engine code)) overlay sc1.CacheDB notify := by
  unfold invokeIsCharge at hpre ⊢
  unfold invokeContract at heng hrun
  unfold HandleInvokeTransaction invokeCostGas
  simp only [hpre, heng, hrun]

/-- The engine returns, charged call: the balance is read again on the work cache the
engine left. -/
theorem HandleInvoke_engine_ok (env : LedgerEnv) (overlay : OverlayDB)
    (gasTable : String → Option Nat) (cache : CacheDB) (tx : Transaction) (invoke : List Nat)
    (block : Block) (notify : ExecuteNotify) (c a : Nat) (cache1 : CacheDB) (engine : Engine)
    (v : Option (List Nat)) (sc1 : WasmVmService) (newBalance : Nat) (cache3 : CacheDB)
    (hcharge : invokeIsCharge env tx invoke block = true)
    (hpre : invokePreflight env overlay gasTable cache tx invoke
      (Config.mk block.Timestamp block.Height) notify true = .ok (c, a, cache1))
    (heng : env.host.NewExecuteEngine invoke tx.TxType
      (invokeContract cache1 block ((a + 2 ^ 64 - c) % 2 ^ 64)) = .ok engine)
    (hrun : engine.Invoke (invokeContract cache1 block ((a + 2 ^ 64 - c) % 2 ^ 64))
      = ((v, none), sc1))
    (hnew : getBalanceFromNative env (Config.mk block.Timestamp block.Height) sc1.CacheDB
      tx.Payer = ((newBalance, none), cache3)) :
    (newBalance < invokeCostGas env tx a sc1.GasLimit →
      HandleInvokeTransaction env overlay gasTable cache tx invoke block notify
        = failWithInvalidGas env tx.Payer (invokeCostGas env tx a sc1.GasLimit)
            (Config.mk block.Timestamp block.Height) overlay cache3 notify .gasInsufficient) ∧
    (¬ newBalance < invokeCostGas env tx a sc1.GasLimit →
      ∀ notifies cache4,
        chargeCostGas env tx.Payer (invokeCostGas env tx a sc1.GasLimit)
          (Config.mk block.Timestamp block.Height) cache3 = ((notifies, none), cache4) →
        HandleInvokeTransaction env overlay gasTable cache tx invoke block notify
          = TxResult.mk none (cache4.Commit overlay) cache4
              (ExecuteNotify.mk CONTRACT_STATE_SUCCESS (invokeCostGas env tx a sc1.GasLimit)
                (notify.Notify ++ sc1.ContextRef.Notifications ++ notifies))) := by
  unfold invokeIsCharge at hcharge
  unfold invokeContract at heng hrun
  refine ⟨?_, ?_⟩
  · intro hlt
    unfold invokeCostGas at hlt
    unfold HandleInvokeTransaction invokeCostGas
    simp only [hcharge, hpre, heng, hrun, if_true, hnew, hlt]
  · intro hge notifies cache4 hfee
    unfold invokeCostGas at hge hfee
    unfold HandleInvokeTransaction invokeCostGas
    simp only [hcharge, hpre, heng, hrun, if_true, hnew, hge, if_false, hfee]

theorem invokeCostGas_of_le (env : LedgerEnv) (tx : Transaction) (a r : Nat)
    (ha : a < 2 ^ 64) (hr : r ≤ a)
    (hfit : max (a - r) env.MIN_TRANSACTION_GAS * tx.GasPrice < 2 ^ 64) :
    invokeCostGas env tx a r = max (a - r) env.MIN_TRANSACTION_GAS * tx.GasPrice := by
  unfold invokeCostGas
  have h1 : (a + 2 ^ 64 - r) % 2 ^ 64 = a - r := by
    have : a + 2 ^ 64 - r = (a - r) + 2 ^ 64 := by omega
    rw [this, Nat.add_mod_right]
    exact Nat.mod_eq_of_lt (by omega)
  simp only [h1]
  have h2 : (if a - r < env.MIN_TRANSACTION_GAS then env.MIN_TRANSACTION_GAS else a - r)
      = max (a - r) env.MIN_TRANSACTION_GAS := by
    rw [Nat.max_def]
    split_ifs <;> omega
  rw [h2]
  exact Nat.mod_eq_of_lt hfit

theorem fee_le_balance (minGas price balance a r : Nat)
    (ha : a ≤ balance / price) (hmin : minGas * price ≤ balance) :
    max (a - r) minGas * price ≤ balance := by
  rcases Nat.le_total (a - r) minGas with h | h
  · rw [Nat.max_eq_right h]
    exact hmin
  · rw [Nat.max_eq_left h]
    calc (a - r) * price ≤ balance / price * price :=
          Nat.mul_le_mul_right _ (Nat.le_trans (Nat.sub_le _ _) ha)
      _ ≤ balance := Nat.div_mul_le_self _ _

theorem calc_no_wrap (q u p b : Nat) (hp : p ≠ 0) (hb : b < 2 ^ 64) (h : q * u * p ≤ b) :
    q % 2 ^ 64 * u % 2 ^ 64 = q * u := by
  have h0 := (required_no_wrap 0 q u p b hp hb (by simpa using h)).1
  simp only [Nat.zero_add, Nat.mod_mod] at h0
  exact h0

/-- The pre-flight of a charged call whose three checks hold in unbounded arithmetic. -/
theorem invokePreflight_checks (env : LedgerEnv) (overlay : OverlayDB)
    (gasTable : String → Option Nat) (cache : CacheDB) (tx : Transaction) (invoke : List Nat)
    (config : Config) (notify : ExecuteNotify) (unitGas balance : Nat) (cache1 : CacheDB)
    (hprice : tx.GasPrice ≠ 0)
    (hu : gasTable env.UINT_INVOKE_CODE_LEN_NAME = some unitGas)
    (hbal : getBalanceFromNative env config cache tx.Payer = ((balance, none), cache1))
    (hmin : env.MIN_TRANSACTION_GAS * tx.GasPrice ≤ balance)
    (hcl : invoke.length / env.PER_UNIT_CODE_LEN * unitGas * tx.GasPrice ≤ balance)
    (hlim : invoke.length / env.PER_UNIT_CODE_LEN * unitGas ≤ tx.GasLimit) :
    invokePreflight env overlay gasTable cache tx invoke config notify true
      = .ok (invoke.length / env.PER_UNIT_CODE_LEN * unitGas,
          min tx.GasLimit (balance / tx.GasPrice), cache1) ∧
    invoke.length / env.PER_UNIT_CODE_LEN * unitGas ≤ min tx.GasLimit (balance / tx.GasPrice) ∧
    min tx.GasLimit (balance / tx.GasPrice) < 2 ^ 64 ∧
    balance < 2 ^ 64 := by
  have hb := getBalanceFromNative_lt env config cache cache1 tx.Payer balance hbal
  have hcalc : calcGasByCodeLen env invoke.length unitGas
      = invoke.length / env.PER_UNIT_CODE_LEN * unitGas := by
    unfold calcGasByCodeLen
    exact calc_no_wrap _ _ _ _ hprice hb hcl
  have h1 : ¬ balance < env.MIN_TRANSACTION_GAS * tx.GasPrice % 2 ^ 64 := by
    rw [Nat.mod_eq_of_lt (by omega)]
    omega
  have h2 : ¬ balance < calcGasByCodeLen env invoke.length unitGas * tx.GasPrice % 2 ^ 64 := by
    rw [hcalc, Nat.mod_eq_of_lt (by omega)]
    omega
  have h3 : ¬ tx.GasLimit < calcGasByCodeLen env invoke.length unitGas := by
    rw [hcalc]
    omega
  have hpass := invokePreflight_pass env overlay gasTable cache tx invoke config notify unitGas
    balance cache1 hu hbal h1 h2 h3
  rw [hcalc] at hpass
  have hq : invoke.length / env.PER_UNIT_CODE_LEN * unitGas ≤ balance / tx.GasPrice :=
    (Nat.le_div_iff_mul_le (Nat.pos_of_ne_zero hprice)).mpr hcl
  have hdiv : balance / tx.GasPrice ≤ balance := Nat.div_le_self _ _
  exact ⟨hpass, Nat.le_min.mpr ⟨hlim, hq⟩,
    Nat.lt_of_le_of_lt (Nat.min_le_right _ _) (by omega), hb⟩

theorem budget_no_wrap (a c : Nat) (ha : a < 2 ^ 64) (hc : c ≤ a) :
    (a + 2 ^ 64 - c) % 2 ^ 64 = a - c := by
  have : a + 2 ^ 64 - c = (a - c) + 2 ^ 64 := by omega
  rw [this, Nat.add_mod_right]
  exact Nat.mod_eq_of_lt (by omega)

/-- Claim C22 as stated fails. With a gas table without entries, a charged invoke
transaction of a payer who owns 30, below `MIN_TRANSACTION_GAS * price` = 40, returns nil
and nothing is transferred; with the entries present and a notify record whose state is
Success, the handler fails and transfers the 30, but the state of the record stays
Success. -/
theorem C22_invoke_low_balance_counterexample :
    invokeIsCharge sampleRunLedgerEnv sampleRichTx sampleInvokeCode sampleBlock = true ∧
    (getBalanceFromNative sampleRunLedgerEnv (Config.mk 0 1) samplePoorCache samplePayer).1
      = (30, none) ∧
    30 < sampleRunLedgerEnv.MIN_TRANSACTION_GAS * sampleRichTx.GasPrice ∧
    HandleInvokeTransaction sampleRunLedgerEnv samplePoorOverlay sampleEmptyGasTable
      samplePoorCache sampleRichTx sampleInvokeCode sampleBlock sampleNotify
      = TxResult.mk none (samplePoorOverlay.SetError .invokeCodeLenGasMissing) samplePoorCache
          sampleNotify ∧
    (HandleInvokeTransaction sampleRunLedgerEnv samplePoorOverlay sampleGasTable
      samplePoorCache sampleRichTx sampleInvokeCode sampleBlock sampleSuccessNotify).err
      = some .balanceLessThanMinGas ∧
    (HandleInvokeTransaction sampleRunLedgerEnv samplePoorOverlay sampleGasTable
      samplePoorCache sampleRichTx sampleInvokeCode sampleBlock sampleSuccessNotify).notify
      = ExecuteNotify.mk CONTRACT_STATE_SUCCESS 30
          [NotifyEventInfo.mk sampleOngAddress (leBytes 8 30)] ∧
    CONTRACT_STATE_SUCCESS ≠ CONTRACT_STATE_FAIL := by
  decide

/-- Claim C22, amended. A charged invoke transaction (code other than
`COMMIT_DPOS_BYTES`, height other than 0, non-zero gas price) whose gas table has
`UINT_INVOKE_CODE_LEN_NAME` and whose balance read returns `balance`, below
`MIN_TRANSACTION_GAS * price` as computed in 64 bits: the handler ends with
`costInvalidGas` of the whole balance. If that transfer on a fresh cache over the
overlay succeeds, the handler returns the balance error, the overlay holds what the
transfer left, `GasConsumed` is the balance, the notifications of the transfer are
appended, and the state of the notify record and the work cache are left as they were.
If the transfer fails the handler returns its error. The result is the same for every
engine factory: no engine is run. -/
theorem C22_invoke_low_balance (env : LedgerEnv) (overlay : OverlayDB)
    (gasTable : String → Option Nat) (cache : CacheDB) (tx : Transaction) (invoke : List Nat)
    (block : Block) (notify : ExecuteNotify) (unitGas balance : Nat) (cache1 : CacheDB)
    (hcode : invoke ≠ env.COMMIT_DPOS_BYTES) (hheight : block.Height ≠ 0)
    (hprice : tx.GasPrice ≠ 0)
    (hu : gasTable env.UINT_INVOKE_CODE_LEN_NAME = some unitGas)
    (hbal : getBalanceFromNative env (Config.mk block.Timestamp block.Height) cache tx.Payer
      = ((balance, none), cache1))
    (hlt : balance < env.MIN_TRANSACTION_GAS * tx.GasPrice % 2 ^ 64) :
    HandleInvokeTransaction env overlay gasTable cache tx invoke block notify
      = failWithInvalidGas env tx.Payer balance (Config.mk block.Timestamp block.Height)
          overlay cache1 notify .balanceLessThanMinGas ∧
    (∀ notifies cache2,
      chargeCostGas env tx.Payer balance (Config.mk block.Timestamp block.Height)
        (NewCacheDB overlay) = ((notifies, none), cache2) →
      HandleInvokeTransaction env overlay gasTable cache tx invoke block notify
        = TxResult.mk (some .balanceLessThanMinGas) (cache2.Commit overlay) cache1
            (ExecuteNotify.mk notify.State balance (notify.Notify ++ notifies))) ∧
    (∀ notifies err cache2,
      chargeCostGas env tx.Payer balance (Config.mk block.Timestamp block.Height)
        (NewCacheDB overlay) = ((notifies, some err), cache2) →
      HandleInvokeTransaction env overlay gasTable cache tx invoke block notify
        = TxResult.mk (some err) overlay cache1 notify) ∧
    (∀ f, HandleInvokeTransaction (env.withEngineFactory f) overlay gasTable cache tx invoke
        block notify
      = HandleInvokeTransaction env overlay gasTable cache tx invoke block notify) := by
  have hhead : ∀ env2 : LedgerEnv, env2.COMMIT_DPOS_BYTES = env.COMMIT_DPOS_BYTES →
      env2.UINT_INVOKE_CODE_LEN_NAME = env.UINT_INVOKE_CODE_LEN_NAME →
      env2.MIN_TRANSACTION_GAS = env.MIN_TRANSACTION_GAS →
      getBalanceFromNative env2 (Config.mk block.Timestamp block.Height) cache tx.Payer
        = ((balance, none), cache1) →
      HandleInvokeTransaction env2 overlay gasTable cache tx invoke block notify
        = failWithInvalidGas env2 tx.Payer balance (Config.mk block.Timestamp block.Height)
            overlay cache1 notify .balanceLessThanMinGas := by
    intro env2 h1 h2 h3 hb2
    apply HandleInvoke_preflight_error
    rw [invokeIsCharge_true env2 tx invoke block (by rw [h1]; exact hcode) hheight hprice]
    unfold invokePreflight
    simp only [if_true, h2, hu, hb2, h3, hlt]
  have h0 := hhead env rfl rfl rfl hbal
  refine ⟨h0, ?_, ?_, ?_⟩
  · intro notifies cache2 hcharge
    rw [h0]
    unfold failWithInvalidGas costInvalidGas
    simp only [hcharge]
  · intro notifies err cache2 hcharge
    rw [h0]
    unfold failWithInvalidGas costInvalidGas
    simp only [hcharge]
  · intro f
    rw [h0, hhead (env.withEngineFactory f) rfl rfl rfl hbal]
    rfl

/-- Claim C22 at concrete inputs: the payer owns 30 at price 2 (minimum 40). The handler
fails with the balance error, records 30 as consumed gas, the payer owns 0 in the
overlay, the state of the record is the state it came with, and the work cache is
untouched. -/
theorem C22_invoke_low_balance_witness :
    (HandleInvokeTransaction sampleRunLedgerEnv samplePoorOverlay sampleGasTable
      samplePoorCache sampleRichTx sampleInvokeCode sampleBlock sampleNotify)
      = TxResult.mk (some .balanceLessThanMinGas)
          (CacheDB.Commit
            ((samplePoorCache.Put (sampleOngAddress ++ samplePayer) (leBytes 8 0)).Put
              (sampleOngAddress ++ sampleGovernanceAddress) (leBytes 8 30)) samplePoorOverlay)
          samplePoorCache
          (ExecuteNotify.mk CONTRACT_STATE_FAIL 30
            [NotifyEventInfo.mk sampleOngAddress (leBytes 8 30)]) ∧
    (HandleInvokeTransaction sampleRunLedgerEnv samplePoorOverlay sampleGasTable
      samplePoorCache sampleRichTx sampleInvokeCode sampleBlock sampleNotify).overlay.db.Get
        (sampleOngAddress ++ samplePayer) = some (leBytes 8 0) := by
  have h := (C22_invoke_low_balance sampleRunLedgerEnv samplePoorOverlay sampleGasTable
    samplePoorCache sampleRichTx sampleInvokeCode sampleBlock sampleNotify 10 30
    samplePoorCache (by decide) (by decide) (by decide) (by decide) (by decide)
    (by decide)).2.1
    [NotifyEventInfo.mk sampleOngAddress (leBytes 8 30)]
    ((samplePoorCache.Put (sampleOngAddress ++ samplePayer) (leBytes 8 0)).Put
      (sampleOngAddress ++ sampleGovernanceAddress) (leBytes 8 30))
    (by decide)
  refine ⟨h, ?_⟩
  rw [h]
  decide

/-- Claim C24 as stated fails: a successful `costInvalidGas` of 100 on a notify record
whose state is Success transfers the 100 and records them, and leaves the state Success,
not Fail. -/
theorem C24_costInvalidGas_state_counterexample :
    (costInvalidGas sampleLedgerEnv samplePayer 100 (Config.mk 0 1) sampleOverlay
      sampleSuccessNotify).1 = none ∧
    (costInvalidGas sampleLedgerEnv samplePayer 100 (Config.mk 0 1) sampleOverlay
      sampleSuccessNotify).2.2
      = ExecuteNotify.mk CONTRACT_STATE_SUCCESS 100
          [NotifyEventInfo.mk sampleOngAddress (leBytes 8 100)] ∧
    (costInvalidGas sampleLedgerEnv samplePayer 100 (Config.mk 0 1) sampleOverlay
      sampleSuccessNotify).2.2.State ≠ CONTRACT_STATE_FAIL := by
  decide

/-- Claim C24, amended. Every `costInvalidGas(address, gas, ...)` that returns nil has
called the method `transfer` of the ONG contract with the transfer of `gas` from
`address` to the governance address, on a native service over a fresh cache over the
overlay, and that call succeeded; the overlay is that cache committed, the
notifications of the call are appended to the notify record and `GasConsumed` is `gas`;
the state of the notify record is the state it had, which `costInvalidGas` never
writes. -/
theorem C24_costInvalidGas_effect (env : LedgerEnv) (address : Address) (gas : Nat)
    (config : Config) (overlay o : OverlayDB) (notify n : ExecuteNotify)
    (h : costInvalidGas env address gas config overlay notify = (none, o, n)) :
    ∃ result service,
      (NewNativeService config (NewCacheDB overlay)).NativeCall env.host.Contracts
        env.OngContractAddress env.TRANSFER_NAME
        (env.SerializeTransfers address env.GovernanceContractAddress gas)
        = ((result, none), service) ∧
      o = service.CacheDB.Commit overlay ∧
      n = ExecuteNotify.mk notify.State gas (notify.Notify ++ service.ContextRef.Notifications) ∧
      n.State = notify.State ∧ n.GasConsumed = gas := by
  unfold costInvalidGas chargeCostGas genNativeTransferCode at h
  simp only at h
  cases hcall : (NewNativeService config (NewCacheDB overlay)).NativeCall env.host.Contracts
      env.OngContractAddress env.TRANSFER_NAME
      (env.SerializeTransfers address env.GovernanceContractAddress gas) with
  | mk r service =>
    obtain ⟨result, e⟩ := r
    cases e with
    | some err =>
      rw [hcall] at h
      simp only [Prod.mk.injEq, reduceCtorEq, false_and] at h
    | none =>
      rw [hcall] at h
      simp only [Prod.mk.injEq, true_and] at h
      obtain ⟨rfl, rfl⟩ := h
      exact ⟨result, service, rfl, rfl, rfl, rfl, rfl⟩

/-- Claim C24 at concrete inputs: a `costInvalidGas` of 100 for a payer who owns 1000
returns nil, leaves 900 to the payer and 100 to the governance address in the overlay,
records 100 and keeps the state Fail of the record it was given. -/
theorem C24_costInvalidGas_effect_witness :
    (∃ result service,
      (NewNativeService (Config.mk 0 1) (NewCacheDB sampleOverlay)).NativeCall
        sampleLedgerEnv.host.Contracts sampleLedgerEnv.OngContractAddress
        sampleLedgerEnv.TRANSFER_NAME
        (sampleLedgerEnv.SerializeTransfers samplePayer
          sampleLedgerEnv.GovernanceContractAddress 100)
        = ((result, none), service) ∧
      (costInvalidGas sampleLedgerEnv samplePayer 100 (Config.mk 0 1) sampleOverlay
        sampleNotify).2.1 = service.CacheDB.Commit sampleOverlay ∧
      (costInvalidGas sampleLedgerEnv samplePayer 100 (Config.mk 0 1) sampleOverlay
        sampleNotify).2.2
        = ExecuteNotify.mk sampleNotify.State 100
            (sampleNotify.Notify ++ service.ContextRef.Notifications) ∧
      (costInvalidGas sampleLedgerEnv samplePayer 100 (Config.mk 0 1) sampleOverlay
        sampleNotify).2.2.State = sampleNotify.State ∧
      (costInvalidGas sampleLedgerEnv samplePayer 100 (Config.mk 0 1) sampleOverlay
        sampleNotify).2.2.GasConsumed = 100) ∧
    (costInvalidGas sampleLedgerEnv samplePayer 100 (Config.mk 0 1) sampleOverlay
      sampleNotify).2.1.db.Get (sampleOngAddress ++ samplePayer) = some (leBytes 8 900) ∧
    (costInvalidGas sampleLedgerEnv samplePayer 100 (Config.mk 0 1) sampleOverlay
      sampleNotify).2.1.db.Get (sampleOngAddress ++ sampleGovernanceAddress)
      = some (leBytes 8 100) :=
  ⟨C24_costInvalidGas_effect sampleLedgerEnv samplePayer 100 (Config.mk 0 1) sampleOverlay
      (costInvalidGas sampleLedgerEnv samplePayer 100 (Config.mk 0 1) sampleOverlay
        sampleNotify).2.1 sampleNotify
      (costInvalidGas sampleLedgerEnv samplePayer 100 (Config.mk 0 1) sampleOverlay
        sampleNotify).2.2 (by decide),
    by decide, by decide⟩

/-- Claim C26 as stated fails: a charged invoke transaction with gas limit 10, below
`MIN_TRANSACTION_GAS` = 20, price 2 and 1000 owned passes the pre-flight with
`available` = 10; the engine fails and leaves no gas; the fee charged is 40, which is
`MIN_TRANSACTION_GAS * price`, not `available * price` = 20. -/
theorem C26_exhausted_budget_fee_counterexample :
    invokeIsCharge sampleCrashLedgerEnv sampleSmallTx [7] sampleBlock = true ∧
    invokePreflight sampleCrashLedgerEnv sampleOverlay sampleGasTable sampleLedgerCache
      sampleSmallTx [7] (Config.mk 0 1) sampleNotify true
      = .ok (0, 10, sampleLedgerCache) ∧
    min sampleSmallTx.GasLimit (1000 / sampleSmallTx.GasPrice) = 10 ∧
    (sampleFailingEngine.Invoke (invokeContract sampleLedgerCache sampleBlock 10)).1
      = (none, some 9) ∧
    (sampleFailingEngine.Invoke (invokeContract sampleLedgerCache sampleBlock 10)).2.GasLimit
      = 0 ∧
    (HandleInvokeTransaction sampleCrashLedgerEnv sampleOverlay sampleGasTable
      sampleLedgerCache sampleSmallTx [7] sampleBlock sampleNotify).err = some (.engine 9) ∧
    (HandleInvokeTransaction sampleCrashLedgerEnv sampleOverlay sampleGasTable
      sampleLedgerCache sampleSmallTx [7] sampleBlock sampleNotify).notify.GasConsumed = 40 ∧
    (HandleInvokeTransaction sampleCrashLedgerEnv sampleOverlay sampleGasTable
      sampleLedgerCache sampleSmallTx [7] sampleBlock sampleNotify).overlay.db.Get
        (sampleOngAddress ++ samplePayer) = some (leBytes 8 960) ∧
    10 * sampleSmallTx.GasPrice = 20 := by
  refine ⟨by decide, rfl, by decide, by decide, by decide, by decide, by decide, by decide,
    by decide⟩

/-- Claim C27. A charged invoke transaction with the gas-table entry present, whose
balance read returns `balance`, with `MIN_TRANSACTION_GAS * price` and
`codeLenGasLimit * price` below 2^64, which passes the three checks of the handler. For
every amount of gas `r` not above the budget `available - codeLenGasLimit` the engine was
given, the local `costGas` is `max(available - r, MIN_TRANSACTION_GAS) * price` and is at
most `balance`; and when the engine fails leaving `r`, that is the amount the handler
passes to `costInvalidGas`. -/
theorem C27_fee_at_most_balance (env : LedgerEnv) (overlay : OverlayDB)
    (gasTable : String → Option Nat) (cache : CacheDB) (tx : Transaction) (invoke : List Nat)
    (block : Block) (notify : ExecuteNotify) (unitGas balance : Nat) (cache1 : CacheDB)
    (hcode : invoke ≠ env.COMMIT_DPOS_BYTES) (hheight : block.Height ≠ 0)
    (hprice : tx.GasPrice ≠ 0)
    (hu : gasTable env.UINT_INVOKE_CODE_LEN_NAME = some unitGas)
    (hbal : getBalanceFromNative env (Config.mk block.Timestamp block.Height) cache tx.Payer
      = ((balance, none), cache1))
    (hminfit : env.MIN_TRANSACTION_GAS * tx.GasPrice < 2 ^ 64)
    (hclfit : calcGasByCodeLen env invoke.length unitGas * tx.GasPrice < 2 ^ 64)
    (h1 : ¬ balance < env.MIN_TRANSACTION_GAS * tx.GasPrice)
    (h2 : ¬ balance < calcGasByCodeLen env invoke.length unitGas * tx.GasPrice)
    (h3 : ¬ tx.GasLimit < calcGasByCodeLen env invoke.length unitGas) :
    ∀ r, r ≤ min tx.GasLimit (balance / tx.GasPrice)
        - calcGasByCodeLen env invoke.length unitGas →
      invokeCostGas env tx (min tx.GasLimit (balance / tx.GasPrice)) r
        = max (min tx.GasLimit (balance / tx.GasPrice) - r) env.MIN_TRANSACTION_GAS
            * tx.GasPrice ∧
      max (min tx.GasLimit (balance / tx.GasPrice) - r) env.MIN_TRANSACTION_GAS
        * tx.GasPrice ≤ balance ∧
      (∀ engine v code sc1,
        env.host.NewExecuteEngine invoke tx.TxType
          (invokeContract cache1 block
            (min tx.GasLimit (balance / tx.GasPrice)
              - calcGasByCodeLen env invoke.length unitGas)) = .ok engine →
        engine.Invoke
          (invokeContract cache1 block
            (min tx.GasLimit (balance / tx.GasPrice)
              - calcGasByCodeLen env invoke.length unitGas)) = ((v, some code), sc1) →
        sc1.GasLimit = r →
        HandleInvokeTransaction env overlay gasTable cache tx invoke block notify
          = failWithInvalidGas env tx.Payer
              (max (min tx.GasLimit (balance / tx.GasPrice) - r) env.MIN_TRANSACTION_GAS
                * tx.GasPrice)
              (Config.mk block.Timestamp block.Height) overlay sc1.CacheDB notify
              (.engine code)) := by
  intro r hr
  have hb := getBalanceFromNative_lt env _ cache cache1 tx.Payer balance hbal
  have hcharge := invokeIsCharge_true env tx invoke block hcode hheight hprice
  have hpre := invokePreflight_pass env overlay gasTable cache tx invoke
    (Config.mk block.Timestamp block.Height) notify unitGas balance cache1 hu hbal
    (by rw [Nat.mod_eq_of_lt hminfit]; exact h1)
    (by rw [Nat.mod_eq_of_lt hclfit]; exact h2) h3
  have hq : calcGasByCodeLen env invoke.length unitGas ≤ balance / tx.GasPrice :=
    (Nat.le_div_iff_mul_le (Nat.pos_of_ne_zero hprice)).mpr (Nat.le_of_not_lt h2)
  have hca : calcGasByCodeLen env invoke.length unitGas
      ≤ min tx.GasLimit (balance / tx.GasPrice) :=
    Nat.le_min.mpr ⟨Nat.le_of_not_lt h3, hq⟩
  have hdiv : balance / tx.GasPrice ≤ balance := Nat.div_le_self _ _
  have ha : min tx.GasLimit (balance / tx.GasPrice) < 2 ^ 64 :=
    Nat.lt_of_le_of_lt (Nat.min_le_right _ _) (by omega)
  have hra : r ≤ min tx.GasLimit (balance / tx.GasPrice) := by omega
  have hfee := fee_le_balance env.MIN_TRANSACTION_GAS tx.GasPrice balance
    (min tx.GasLimit (balance / tx.GasPrice)) r (Nat.min_le_right _ _) (Nat.le_of_not_lt h1)
  have hcost := invokeCostGas_of_le env tx _ r ha hra (by omega)
  refine ⟨hcost, hfee, ?_⟩
  intro engine v code sc1 heng hrun hgas
  subst hgas
  have hbudget := budget_no_wrap _ _ ha hca
  rw [← hbudget] at heng hrun
  have h := HandleInvoke_engine_error env overlay gasTable cache tx invoke block notify _ _ _
    engine v code sc1 (by rw [hcharge]; exact hpre) heng hrun
  rw [hcharge, hcost] at h
  simpa using h

/-- Claim C27 at concrete inputs: 1000 owned, price 2, gas limit 200, code-length gas
100; the failing engine leaves 0 of its budget 100, and the fee 400 is at most 1000. -/
theorem C27_fee_at_most_balance_witness :
    invokeCostGas sampleCrashLedgerEnv sampleRichTx
        (min sampleRichTx.GasLimit (1000 / sampleRichTx.GasPrice)) 0
      = max (min sampleRichTx.GasLimit (1000 / sampleRichTx.GasPrice) - 0)
          sampleCrashLedgerEnv.MIN_TRANSACTION_GAS * sampleRichTx.GasPrice ∧
    max (min sampleRichTx.GasLimit (1000 / sampleRichTx.GasPrice) - 0)
        sampleCrashLedgerEnv.MIN_TRANSACTION_GAS * sampleRichTx.GasPrice ≤ 1000 ∧
    max (min sampleRichTx.GasLimit (1000 / sampleRichTx.GasPrice) - 0)
        sampleCrashLedgerEnv.MIN_TRANSACTION_GAS * sampleRichTx.GasPrice = 400 :=
  ⟨(C27_fee_at_most_balance sampleCrashLedgerEnv sampleOverlay sampleGasTable
      sampleLedgerCache sampleRichTx sampleInvokeCode sampleBlock sampleNotify 10 1000
      sampleLedgerCache (by decide) (by decide) (by decide) (by decide) (by decide)
      (by decide) (by decide) (by decide) (by decide) (by decide) 0 (by decide)).1,
   (C27_fee_at_most_balance sampleCrashLedgerEnv sampleOverlay sampleGasTable
      sampleLedgerCache sampleRichTx sampleInvokeCode sampleBlock sampleNotify 10 1000
      sampleLedgerCache (by decide) (by decide) (by decide) (by decide) (by decide)
      (by decide) (by decide) (by decide) (by decide) (by decide) 0 (by decide)).2.1,
   by decide⟩

/-- Claim C28. An invoke transaction (gas limit below 2^64) whose pre-flight hands on
`codeLenGasLimit = c`, `availableGasLimit = a` and a work cache, so that the handler
goes on to build the engine. When the call is not charged, `c` is 0 and `a` is the gas
limit. When it is charged, `c` is the code-length gas, `a` is
`min(tx.GasLimit, floor(balance / price))` for the balance read, and `c ≤ a` provided
`c * price` is below 2^64. In both cases, under that proviso, the budget `a - c`
computed in `uint64` is the difference of the two numbers and is at most
`tx.GasLimit`; it is the gas of the contract state the engine factory is called with. -/
theorem C28_engine_budget_no_wrap (env : LedgerEnv) (overlay : OverlayDB)
    (gasTable : String → Option Nat) (cache : CacheDB) (tx : Transaction) (invoke : List Nat)
    (block : Block) (notify : ExecuteNotify) (c a : Nat) (cache1 : CacheDB)
    (hlimit : tx.GasLimit < 2 ^ 64)
    (hpre : invokePreflight env overlay gasTable cache tx invoke
      (Config.mk block.Timestamp block.Height) notify (invokeIsCharge env tx invoke block)
      = .ok (c, a, cache1)) :
    (invokeIsCharge env tx invoke block = false → c = 0 ∧ a = tx.GasLimit) ∧
    (invokeIsCharge env tx invoke block = true →
      ∃ unitGas balance,
        gasTable env.UINT_INVOKE_CODE_LEN_NAME = some unitGas ∧
        getBalanceFromNative env (Config.mk block.Timestamp block.Height) cache tx.Payer
          = ((balance, none), cache1) ∧
        c = calcGasByCodeLen env invoke.length unitGas ∧
        a = min tx.GasLimit (balance / tx.GasPrice)) ∧
    ((invokeIsCharge env tx invoke block = true → c * tx.GasPrice < 2 ^ 64) →
      c ≤ a ∧ (a + 2 ^ 64 - c) % 2 ^ 64 = a - c ∧ a - c ≤ tx.GasLimit) ∧
    (∀ e, env.host.NewExecuteEngine invoke tx.TxType
        (invokeContract cache1 block ((a + 2 ^ 64 - c) % 2 ^ 64)) = .error e →
      HandleInvokeTransaction env overlay gasTable cache tx invoke block notify
        = TxResult.mk (some .runtimeFault) overlay cache1 notify) ∧
    (∀ engine v err sc1,
      env.host.NewExecuteEngine invoke tx.TxType
        (invokeContract cache1 block ((a + 2 ^ 64 - c) % 2 ^ 64)) = .ok engine →
      engine.Invoke (invokeContract cache1 block ((a + 2 ^ 64 - c) % 2 ^ 64))
        = ((v, some err), sc1) →
      (HandleInvokeTransaction env overlay gasTable cache tx invoke block notify).cache
        = sc1.CacheDB) := by
  refine ⟨?_, ?_, ?_, ?_, ?_⟩
  · intro hch
    rw [hch, invokePreflight_uncharged] at hpre
    simp only [Except.ok.injEq, Prod.mk.injEq] at hpre
    exact ⟨hpre.1.symm, hpre.2.1.symm⟩
  · intro hch
    rw [hch] at hpre
    obtain ⟨unitGas, balance, hu, hbal, _, hc, _, _, ha⟩ :=
      invokePreflight_ok_inv env overlay gasTable cache tx invoke _ notify c a cache1 hpre
    exact ⟨unitGas, balance, hu, hbal, hc, ha⟩
  · intro hfit
    cases hch : invokeIsCharge env tx invoke block with
    | false =>
      rw [hch, invokePreflight_uncharged] at hpre
      simp only [Except.ok.injEq, Prod.mk.injEq] at hpre
      obtain ⟨rfl, rfl, _⟩ := hpre
      refine ⟨Nat.zero_le _, ?_, Nat.sub_le _ _⟩
      exact budget_no_wrap _ _ hlimit (Nat.zero_le _)
    | true =>
      rw [hch] at hpre
      obtain ⟨unitGas, balance, hu, hbal, _, hc, h2, h3, ha⟩ :=
        invokePreflight_ok_inv env overlay gasTable cache tx invoke _ notify c a cache1 hpre
      have hprice := invokeIsCharge_price env tx invoke block hch
      rw [Nat.mod_eq_of_lt (hfit hch)] at h2
      have hq : c ≤ balance / tx.GasPrice :=
        (Nat.le_div_iff_mul_le (Nat.pos_of_ne_zero hprice)).mpr (Nat.le_of_not_lt h2)
      have hca : c ≤ a := by
        rw [ha]
        exact Nat.le_min.mpr ⟨Nat.le_of_not_lt h3, hq⟩
      have hal : a ≤ tx.GasLimit := by
        rw [ha]
        exact Nat.min_le_left _ _
      exact ⟨hca, budget_no_wrap _ _ (by omega) hca, by omega⟩
  · intro e heng
    exact HandleInvoke_no_engine env overlay gasTable cache tx invoke block notify c a cache1 e
      hpre heng
  · intro engine v err sc1 heng hrun
    rw [HandleInvoke_engine_error env overlay gasTable cache tx invoke block notify c a cache1
      engine v err sc1 hpre heng hrun]
    split_ifs
    · unfold failWithInvalidGas
      split <;> rfl
    · rfl

/-- Claim C28 at concrete inputs: a charged call with gas limit 200, 1000 owned at price
2 and code-length gas 100 gets the budget 100; a call in a block of height 0 is not
charged and gets its whole gas limit. -/
theorem C28_engine_budget_no_wrap_witness :
    invokePreflight sampleRunLedgerEnv sampleOverlay sampleGasTable sampleLedgerCache
      sampleRichTx sampleInvokeCode (Config.mk sampleBlock.Timestamp sampleBlock.Height)
      sampleNotify (invokeIsCharge sampleRunLedgerEnv sampleRichTx sampleInvokeCode sampleBlock)
      = .ok (100, 200, sampleLedgerCache) ∧
    (100 ≤ 200 ∧ (200 + 2 ^ 64 - 100) % 2 ^ 64 = 200 - 100 ∧
      200 - 100 ≤ sampleRichTx.GasLimit) ∧
    invokePreflight sampleRunLedgerEnv sampleOverlay sampleGasTable sampleLedgerCache
      sampleRichTx sampleInvokeCode (Config.mk 0 0) sampleNotify
      (invokeIsCharge sampleRunLedgerEnv sampleRichTx sampleInvokeCode (Block.mk 0 0))
      = .ok (0, 200, sampleLedgerCache) :=
  ⟨rfl,
   (C28_engine_budget_no_wrap sampleRunLedgerEnv sampleOverlay sampleGasTable
      sampleLedgerCache sampleRichTx sampleInvokeCode sampleBlock sampleNotify 100 200
      sampleLedgerCache (by decide) rfl).2.2.1 (fun _ => by decide),
   rfl⟩

/-! ## Cross-contract calls: the stack-VM arm -/

theorem chargeCostGas_of_call (env : LedgerEnv) (payer : Address) (gas : Nat)
    (config : Config) (cache : CacheDB) (result : List Nat) (service : NativeService)
    (h : (NewNativeService config cache).NativeCall env.host.Contracts
        env.OngContractAddress env.TRANSFER_NAME
        (env.SerializeTransfers payer env.GovernanceContractAddress gas)
      = ((result, none), service)) :
    chargeCostGas env payer gas config cache
      = ((service.ContextRef.Notifications, none), service.CacheDB) := by
  unfold chargeCostGas genNativeTransferCode
  simp only [h]

theorem chargeCostGas_of_call_error (env : LedgerEnv) (payer : Address) (gas : Nat)
    (config : Config) (cache : CacheDB) (result : List Nat) (err : HostError)
    (service : NativeService)
    (h : (NewNativeService config cache).NativeCall env.host.Contracts
        env.OngContractAddress env.TRANSFER_NAME
        (env.SerializeTransfers payer env.GovernanceContractAddress gas)
      = ((result, some err), service)) :
    chargeCostGas env payer gas config cache = (([], some (.native err)), service.CacheDB) := by
  unfold chargeCostGas genNativeTransferCode
  simp only [h]

theorem getBalanceFromNative_of_call (env : LedgerEnv) (config : Config) (cache : CacheDB)
    (address : Address) (result : List Nat) (service : NativeService)
    (h : (NewNativeService config cache).NativeCall env.host.Contracts
        env.OngContractAddress env.BALANCEOF_NAME (env.EncodeAddress address)
      = ((result, none), service)) :
    getBalanceFromNative env config cache address
      = ((env.BigIntFromNeoBytes result % 2 ^ 64, none), service.CacheDB) := by
  unfold getBalanceFromNative
  simp only [h]

theorem failWithInvalidGas_of_call (env : LedgerEnv) (payer : Address) (gas : Nat)
    (config : Config) (overlay : OverlayDB) (cache : CacheDB) (notify : ExecuteNotify)
    (e : TxError) (result : List Nat) (service : NativeService)
    (h : (NewNativeService config (NewCacheDB overlay)).NativeCall env.host.Contracts
        env.OngContractAddress env.TRANSFER_NAME
        (env.SerializeTransfers payer env.GovernanceContractAddress gas)
      = ((result, none), service)) :
    failWithInvalidGas env payer gas config overlay cache notify e
      = TxResult.mk (some e) (service.CacheDB.Commit overlay) cache
          (ExecuteNotify.mk notify.State gas
            (notify.Notify ++ service.ContextRef.Notifications)) := by
  unfold failWithInvalidGas costInvalidGas
  simp only [chargeCostGas_of_call env payer gas config _ result service h]

theorem failWithInvalidGas_of_call_error (env : LedgerEnv) (payer : Address) (gas : Nat)
    (config : Config) (overlay : OverlayDB) (cache : CacheDB) (notify : ExecuteNotify)
    (e : TxError) (result : List Nat) (err : HostError) (service : NativeService)
    (h : (NewNativeService config (NewCacheDB overlay)).NativeCall env.host.Contracts
        env.OngContractAddress env.TRANSFER_NAME
        (env.SerializeTransfers payer env.GovernanceContractAddress gas)
      = ((result, some err), service)) :
    failWithInvalidGas env payer gas config overlay cache notify e
      = TxResult.mk (some (.native err)) overlay cache notify := by
  unfold failWithInvalidGas costInvalidGas
  simp only [chargeCostGas_of_call_error env payer gas config _ result err service h]

theorem invokeCostGas_eq (env : LedgerEnv) (tx : Transaction) (a r : Nat) :
    invokeCostGas env tx a r
      = max ((a + 2 ^ 64 - r) % 2 ^ 64) env.MIN_TRANSACTION_GAS * tx.GasPrice % 2 ^ 64 := by
  unfold invokeCostGas
  simp only
  have h2 : (if (a + 2 ^ 64 - r) % 2 ^ 64 < env.MIN_TRANSACTION_GAS
        then env.MIN_TRANSACTION_GAS else (a + 2 ^ 64 - r) % 2 ^ 64)
      = max ((a + 2 ^ 64 - r) % 2 ^ 64) env.MIN_TRANSACTION_GAS := by
    rw [Nat.max_def]
    split_ifs <;> omega
  rw [h2]

theorem available_bounds (balance price limit : Nat) (hb : balance < 2 ^ 64) :
    min limit (balance / price) < 2 ^ 64 ∧ min limit (balance / price) * price ≤ balance := by
  have hdiv : balance / price ≤ balance := Nat.div_le_self _ _
  refine ⟨Nat.lt_of_le_of_lt (Nat.min_le_right _ _) (by omega), ?_⟩
  calc min limit (balance / price) * price ≤ balance / price * price :=
        Nat.mul_le_mul_right _ (Nat.min_le_right _ _)
    _ ≤ balance := Nat.div_mul_le_self _ _

/-- Claim C23 as stated fails: a charged invoke transaction with gas price 2^62 and gas
limit 200, code-length gas 100, of a payer who owns 1000, passes the three checks of the
handler (the 64-bit products of 20 and of 100 with the price are 0); `available` is
`min(200, floor(1000 / 2^62))` = 0, the engine is started with 2^64 - 100 units of gas,
not with `available - code_len_gas`, and after it fails leaving no gas the fee recorded
is 0, while `max(available - 0, MIN_TRANSACTION_GAS) * price` is 20 * 2^62. -/
theorem C23_invoke_overflow_counterexample :
    invokeIsCharge sampleProbeLedgerEnv sampleWrapInvokeTx sampleInvokeCode sampleBlock
      = true ∧
    invokePreflight sampleProbeLedgerEnv sampleOverlay sampleGasTable sampleLedgerCache
      sampleWrapInvokeTx sampleInvokeCode (Config.mk 0 1) sampleNotify true
      = .ok (100, 0, sampleLedgerCache) ∧
    min sampleWrapInvokeTx.GasLimit (1000 / sampleWrapInvokeTx.GasPrice) = 0 ∧
    (HandleInvokeTransaction sampleProbeLedgerEnv sampleOverlay sampleGasTable
      sampleLedgerCache sampleWrapInvokeTx sampleInvokeCode sampleBlock sampleNotify).cache.Get
        [2] = some (leBytes 8 (2 ^ 64 - 100)) ∧
    (HandleInvokeTransaction sampleProbeLedgerEnv sampleOverlay sampleGasTable
      sampleLedgerCache sampleWrapInvokeTx sampleInvokeCode sampleBlock sampleNotify).err
      = some (.engine 9) ∧
    (HandleInvokeTransaction sampleProbeLedgerEnv sampleOverlay sampleGasTable
      sampleLedgerCache sampleWrapInvokeTx sampleInvokeCode sampleBlock
      sampleNotify).notify.GasConsumed = 0 ∧
    max (0 - 0) sampleProbeLedgerEnv.MIN_TRANSACTION_GAS * sampleWrapInvokeTx.GasPrice
      = 5 * 2 ^ 64 := by
  refine ⟨by decide, rfl, by decide, by decide, by decide, by decide, by decide⟩

/-- Claim C23, amended. A charged invoke transaction (code other than
`COMMIT_DPOS_BYTES`, height other than 0, non-zero gas price) with the gas-table entry
present, whose `balanceOf` call of the ONG contract returns `balance` and which passes
the three checks of the handler, made on 64-bit products. With `c` the code-length gas
and `a = min(tx.GasLimit, floor(balance / price))`: the engine is created for, and run
on, a contract state whose gas is `(a - c) mod 2^64`, which is `a - c` with `c ≤ a`
when `c * price` is below 2^64. When the engine has run and left `r`, the fee is
`max((a - r) mod 2^64, MIN_TRANSACTION_GAS) * price mod 2^64`, which is
`max(a - r, MIN_TRANSACTION_GAS) * price` when `r ≤ a` and `MIN_TRANSACTION_GAS * price`
is below 2^64. On an engine error the fee is the amount of the ONG transfer made on a
fresh cache over the overlay and the recorded `GasConsumed`; on success it is the amount
the balance read again is compared with, and then the amount of the ONG transfer (on a
fresh cache when the balance is below it, on the work cache otherwise) and the recorded
`GasConsumed`. -/
theorem C23_invoke_budget_and_fee_64bit (env : LedgerEnv) (overlay : OverlayDB)
    (gasTable : String → Option Nat) (cache : CacheDB) (tx : Transaction) (invoke : List Nat)
    (block : Block) (notify : ExecuteNotify) (unitGas : Nat) (bytes : List Nat)
    (service0 : NativeService) (balance c a : Nat)
    (hcode : invoke ≠ env.COMMIT_DPOS_BYTES) (hheight : block.Height ≠ 0)
    (hprice : tx.GasPrice ≠ 0)
    (hu : gasTable env.UINT_INVOKE_CODE_LEN_NAME = some unitGas)
    (hcall : (NewNativeService (Config.mk block.Timestamp block.Height) cache).NativeCall
        env.host.Contracts env.OngContractAddress env.BALANCEOF_NAME
        (env.EncodeAddress tx.Payer) = ((bytes, none), service0))
    (hbalance : balance = env.BigIntFromNeoBytes bytes % 2 ^ 64)
    (hc : c = calcGasByCodeLen env invoke.length unitGas)
    (ha : a = min tx.GasLimit (balance / tx.GasPrice))
    (h1 : ¬ balance < env.MIN_TRANSACTION_GAS * tx.GasPrice % 2 ^ 64)
    (h2 : ¬ balance < c * tx.GasPrice % 2 ^ 64)
    (h3 : ¬ tx.GasLimit < c) :
    (∀ e, env.host.NewExecuteEngine invoke tx.TxType
        (invokeContract service0.CacheDB block ((a + 2 ^ 64 - c) % 2 ^ 64)) = .error e →
      HandleInvokeTransaction env overlay gasTable cache tx invoke block notify
        = TxResult.mk (some .runtimeFault) overlay service0.CacheDB notify) ∧
    (∀ engine v err sc1,
      env.host.NewExecuteEngine invoke tx.TxType
        (invokeContract service0.CacheDB block ((a + 2 ^ 64 - c) % 2 ^ 64)) = .ok engine →
      engine.Invoke (invokeContract service0.CacheDB block ((a + 2 ^ 64 - c) % 2 ^ 64))
        = ((v, err), sc1) →
      (∀ code result service, err = some code →
        (NewNativeService (Config.mk block.Timestamp block.Height)
            (NewCacheDB overlay)).NativeCall env.host.Contracts env.OngContractAddress
            env.TRANSFER_NAME
            (env.SerializeTransfers tx.Payer env.GovernanceContractAddress
              (invokeCostGas env tx a sc1.GasLimit)) = ((result, none), service) →
        HandleInvokeTransaction env overlay gasTable cache tx invoke block notify
          = TxResult.mk (some (.engine code)) (service.CacheDB.Commit overlay) sc1.CacheDB
              (ExecuteNotify.mk notify.State (invokeCostGas env tx a sc1.GasLimit)
                (notify.Notify ++ service.ContextRef.Notifications))) ∧
      (∀ bytes2 service2, err = none →
        (NewNativeService (Config.mk block.Timestamp block.Height) sc1.CacheDB).NativeCall
            env.host.Contracts env.OngContractAddress env.BALANCEOF_NAME
            (env.EncodeAddress tx.Payer) = ((bytes2, none), service2) →
        (∀ result service,
          env.BigIntFromNeoBytes bytes2 % 2 ^ 64 < invokeCostGas env tx a sc1.GasLimit →
          (NewNativeService (Config.mk block.Timestamp block.Height)
              (NewCacheDB overlay)).NativeCall env.host.Contracts env.OngContractAddress
              env.TRANSFER_NAME
              (env.SerializeTransfers tx.Payer env.GovernanceContractAddress
                (invokeCostGas env tx a sc1.GasLimit)) = ((result, none), service) →
          HandleInvokeTransaction env overlay gasTable cache tx invoke block notify
            = TxResult.mk (some .gasInsufficient) (service.CacheDB.Commit overlay)
                service2.CacheDB
                (ExecuteNotify.mk notify.State (invokeCostGas env tx a sc1.GasLimit)
                  (notify.Notify ++ service.ContextRef.Notifications))) ∧
        (∀ result service,
          ¬ env.BigIntFromNeoBytes bytes2 % 2 ^ 64 < invokeCostGas env tx a sc1.GasLimit →
          (NewNativeService (Config.mk block.Timestamp block.Height)
              service2.CacheDB).NativeCall env.host.Contracts env.OngContractAddress
              env.TRANSFER_NAME
              (env.SerializeTransfers tx.Payer env.GovernanceContractAddress
                (invokeCostGas env tx a sc1.GasLimit)) = ((result, none), service) →
          HandleInvokeTransaction env overlay gasTable cache tx invoke block notify
            = TxResult.mk none (service.CacheDB.Commit overlay) service.CacheDB
                (ExecuteNotify.mk CONTRACT_STATE_SUCCESS (invokeCostGas env tx a sc1.GasLimit)
                  (notify.Notify ++ sc1.ContextRef.Notifications
                    ++ service.ContextRef.Notifications))))) ∧
    (c * tx.GasPrice < 2 ^ 64 → c ≤ a ∧ (a + 2 ^ 64 - c) % 2 ^ 64 = a - c) ∧
    (∀ r, invokeCostGas env tx a r
      = max ((a + 2 ^ 64 - r) % 2 ^ 64) env.MIN_TRANSACTION_GAS * tx.GasPrice % 2 ^ 64) ∧
    (∀ r, r ≤ a → env.MIN_TRANSACTION_GAS * tx.GasPrice < 2 ^ 64 →
      invokeCostGas env tx a r = max (a - r) env.MIN_TRANSACTION_GAS * tx.GasPrice) := by
  have hcharge := invokeIsCharge_true env tx invoke block hcode hheight hprice
  have hbal := getBalanceFromNative_of_call env _ cache tx.Payer bytes service0 hcall
  rw [← hbalance] at hbal
  have hb : balance < 2 ^ 64 := by
    rw [hbalance]
    exact Nat.mod_lt _ (by norm_num)
  subst hc
  have hpre := invokePreflight_pass env overlay gasTable cache tx invoke
    (Config.mk block.Timestamp block.Height) notify unitGas balance service0.CacheDB hu hbal
    h1 h2 h3
  rw [← ha] at hpre
  have hpre2 : invokePreflight env overlay gasTable cache tx invoke
      (Config.mk block.Timestamp block.Height) notify (invokeIsCharge env tx invoke block)
      = .ok (calcGasByCodeLen env invoke.length unitGas, a, service0.CacheDB) := by
    rw [hcharge]
    exact hpre
  obtain ⟨halt, hamul⟩ := available_bounds balance tx.GasPrice tx.GasLimit hb
  rw [← ha] at halt hamul
  refine ⟨?_, ?_, ?_, ?_, ?_⟩
  · intro e heng
    exact HandleInvoke_no_engine env overlay gasTable cache tx invoke block notify _ _ _ e
      hpre2 heng
  · intro engine v err sc1 heng hrun
    refine ⟨?_, ?_⟩
    · intro code result service herr hfee
      subst herr
      have h := HandleInvoke_engine_error env overlay gasTable cache tx invoke block notify _ _
        _ engine v code sc1 hpre2 heng hrun
      rw [hcharge] at h
      simp only [if_true] at h
      rw [h]
      exact failWithInvalidGas_of_call env tx.Payer _ _ overlay sc1.CacheDB notify _ result
        service hfee
    · intro bytes2 service2 herr hcall2
      subst herr
      have hnew := getBalanceFromNative_of_call env _ sc1.CacheDB tx.Payer bytes2 service2
        hcall2
      obtain ⟨hlow, hhigh⟩ := HandleInvoke_engine_ok env overlay gasTable cache tx invoke block
        notify _ _ _ engine v sc1 _ service2.CacheDB hcharge hpre heng hrun hnew
      refine ⟨?_, ?_⟩
      · intro result service hlt hfee
        rw [hlow hlt]
        exact failWithInvalidGas_of_call env tx.Payer _ _ overlay service2.CacheDB notify _
          result service hfee
      · intro result service hge hfee
        exact hhigh hge _ _
          (chargeCostGas_of_call env tx.Payer _ _ service2.CacheDB result service hfee)
  · intro hfit
    rw [Nat.mod_eq_of_lt hfit] at h2
    have hq : calcGasByCodeLen env invoke.length unitGas ≤ balance / tx.GasPrice :=
      (Nat.le_div_iff_mul_le (Nat.pos_of_ne_zero hprice)).mpr (Nat.le_of_not_lt h2)
    have hca : calcGasByCodeLen env invoke.length unitGas ≤ a := by
      rw [ha]
      exact Nat.le_min.mpr ⟨Nat.le_of_not_lt h3, hq⟩
    exact ⟨hca, budget_no_wrap _ _ halt hca⟩
  · intro r
    exact invokeCostGas_eq env tx a r
  · intro r hr hminfit
    apply invokeCostGas_of_le env tx a r halt hr
    rcases Nat.le_total (a - r) env.MIN_TRANSACTION_GAS with h | h
    · rw [Nat.max_eq_right h]
      exact hminfit
    · rw [Nat.max_eq_left h]
      have : (a - r) * tx.GasPrice ≤ a * tx.GasPrice :=
        Nat.mul_le_mul_right _ (Nat.sub_le _ _)
      omega

/-- Claim C23 at concrete inputs: 1000 owned, price 2, gas limit 200, code-length gas
100. The engine starts with 100 and leaves 95; the fee 210 is transferred on the work
cache and recorded with state Success; with the failing engine, which leaves 0, the fee
is 400. -/
theorem C23_invoke_budget_and_fee_64bit_witness :
    HandleInvokeTransaction sampleRunLedgerEnv sampleOverlay sampleGasTable sampleLedgerCache
      sampleRichTx sampleInvokeCode sampleBlock sampleNotify
      = TxResult.mk none
          (CacheDB.Commit
            (((sampleLedgerCache.Put [1] [1]).Put (sampleOngAddress ++ samplePayer)
              (leBytes 8 790)).Put (sampleOngAddress ++ sampleGovernanceAddress)
              (leBytes 8 210)) sampleOverlay)
          (((sampleLedgerCache.Put [1] [1]).Put (sampleOngAddress ++ samplePayer)
            (leBytes 8 790)).Put (sampleOngAddress ++ sampleGovernanceAddress) (leBytes 8 210))
          (ExecuteNotify.mk CONTRACT_STATE_SUCCESS 210
            ([] ++ [NotifyEventInfo.mk samplePayer [7]]
              ++ [NotifyEventInfo.mk sampleOngAddress (leBytes 8 210)])) ∧
    (100 ≤ 200 ∧ (200 + 2 ^ 64 - 100) % 2 ^ 64 = 200 - 100) ∧
    (sampleEngine.Invoke (invokeContract sampleLedgerCache sampleBlock 100)).2.GasLimit = 95 ∧
    invokeCostGas sampleRunLedgerEnv sampleRichTx 200 95 = 210 ∧
    (HandleInvokeTransaction sampleCrashLedgerEnv sampleOverlay sampleGasTable
      sampleLedgerCache sampleRichTx sampleInvokeCode sampleBlock sampleNotify).notify.GasConsumed
      = 400 := by
  have h0 := C23_invoke_budget_and_fee_64bit sampleRunLedgerEnv sampleOverlay sampleGasTable
    sampleLedgerCache sampleRichTx sampleInvokeCode sampleBlock sampleNotify 10
    (leBytes 8 1000)
    ((NewNativeService (Config.mk 0 1) sampleLedgerCache).NativeCall
      sampleRunLedgerEnv.host.Contracts sampleOngAddress [98] samplePayer).2
    1000 100 200 (by decide) (by decide) (by decide) (by decide) (by decide) (by decide)
    (by decide) (by decide) (by decide) (by decide) (by decide)
  have h := ((h0.2.1 sampleEngine (some [1]) none
    (sampleEngine.Invoke (invokeContract sampleLedgerCache sampleBlock 100)).2 rfl rfl).2
    (leBytes 8 1000)
    ((NewNativeService (Config.mk 0 1) (sampleLedgerCache.Put [1] [1])).NativeCall
      sampleRunLedgerEnv.host.Contracts sampleOngAddress [98] samplePayer).2
    rfl (by decide)).2 [1]
    ((NewNativeService (Config.mk 0 1) (sampleLedgerCache.Put [1] [1])).NativeCall
      sampleRunLedgerEnv.host.Contracts sampleOngAddress [116]
      (samplePayer ++ sampleGovernanceAddress ++ leBytes 8 210)).2
    (by decide) (by decide)
  refine ⟨?_, h0.2.2.1 (by decide), by decide, by decide, by decide⟩
  rw [h]
  decide

/-- Claim C26, amended. A charged invoke transaction that passes the three checks of the
handler, made on 64-bit products, with `a = min(tx.GasLimit, floor(balance / price))`,
and whose engine fails leaving no gas: the handler makes the ONG transfer of
`max(a, MIN_TRANSACTION_GAS) * price mod 2^64` on a fresh cache over the overlay. When
that transfer succeeds, the handler returns the error of the engine, the overlay holds
what the transfer left and not what the engine wrote, and the amount is recorded as
`GasConsumed`; when it fails, the handler returns the error of the transfer and the
overlay is unchanged. The amount is `a * price` when `a` is at least
`MIN_TRANSACTION_GAS`, and `MIN_TRANSACTION_GAS * price` when `a` is below it and that
product is below 2^64. -/
theorem C26_exhausted_budget_fee_64bit (env : LedgerEnv) (overlay : OverlayDB)
    (gasTable : String → Option Nat) (cache : CacheDB) (tx : Transaction) (invoke : List Nat)
    (block : Block) (notify : ExecuteNotify) (unitGas : Nat) (bytes : List Nat)
    (service0 : NativeService) (balance c a : Nat)
    (engine : Engine) (v : Option (List Nat)) (code : Nat) (sc1 : WasmVmService)
    (hcode : invoke ≠ env.COMMIT_DPOS_BYTES) (hheight : block.Height ≠ 0)
    (hprice : tx.GasPrice ≠ 0)
    (hu : gasTable env.UINT_INVOKE_CODE_LEN_NAME = some unitGas)
    (hcall : (NewNativeService (Config.mk block.Timestamp block.Height) cache).NativeCall
        env.host.Contracts env.OngContractAddress env.BALANCEOF_NAME
        (env.EncodeAddress tx.Payer) = ((bytes, none), service0))
    (hbalance : balance = env.BigIntFromNeoBytes bytes % 2 ^ 64)
    (hc : c = calcGasByCodeLen env invoke.length unitGas)
    (ha : a = min tx.GasLimit (balance / tx.GasPrice))
    (h1 : ¬ balance < env.MIN_TRANSACTION_GAS * tx.GasPrice % 2 ^ 64)
    (h2 : ¬ balance < c * tx.GasPrice % 2 ^ 64)
    (h3 : ¬ tx.GasLimit < c)
    (heng : env.host.NewExecuteEngine invoke tx.TxType
      (invokeContract service0.CacheDB block ((a + 2 ^ 64 - c) % 2 ^ 64)) = .ok engine)
    (hrun : engine.Invoke (invokeContract service0.CacheDB block ((a + 2 ^ 64 - c) % 2 ^ 64))
      = ((v, some code), sc1))
    (hzero : sc1.GasLimit = 0) :
    (∀ result service,
      (NewNativeService (Config.mk block.Timestamp block.Height)
          (NewCacheDB overlay)).NativeCall env.host.Contracts env.OngContractAddress
          env.TRANSFER_NAME
          (env.SerializeTransfers tx.Payer env.GovernanceContractAddress
            (max a env.MIN_TRANSACTION_GAS * tx.GasPrice % 2 ^ 64))
        = ((result, none), service) →
      HandleInvokeTransaction env overlay gasTable cache tx invoke block notify
        = TxResult.mk (some (.engine code)) (service.CacheDB.Commit overlay) sc1.CacheDB
            (ExecuteNotify.mk notify.State
              (max a env.MIN_TRANSACTION_GAS * tx.GasPrice % 2 ^ 64)
              (notify.Notify ++ service.ContextRef.Notifications))) ∧
    (∀ result err service,
      (NewNativeService (Config.mk block.Timestamp block.Height)
          (NewCacheDB overlay)).NativeCall env.host.Contracts env.OngContractAddress
          env.TRANSFER_NAME
          (env.SerializeTransfers tx.Payer env.GovernanceContractAddress
            (max a env.MIN_TRANSACTION_GAS * tx.GasPrice % 2 ^ 64))
        = ((result, some err), service) →
      HandleInvokeTransaction env overlay gasTable cache tx invoke block notify
        = TxResult.mk (some (.native err)) overlay sc1.CacheDB notify) ∧
    (env.MIN_TRANSACTION_GAS ≤ a →
      max a env.MIN_TRANSACTION_GAS * tx.GasPrice % 2 ^ 64 = a * tx.GasPrice) ∧
    (a < env.MIN_TRANSACTION_GAS → env.MIN_TRANSACTION_GAS * tx.GasPrice < 2 ^ 64 →
      max a env.MIN_TRANSACTION_GAS * tx.GasPrice % 2 ^ 64
        = env.MIN_TRANSACTION_GAS * tx.GasPrice) := by
  have hcharge := invokeIsCharge_true env tx invoke block hcode hheight hprice
  have hbal := getBalanceFromNative_of_call env _ cache tx.Payer bytes service0 hcall
  rw [← hbalance] at hbal
  have hb : balance < 2 ^ 64 := by
    rw [hbalance]
    exact Nat.mod_lt _ (by norm_num)
  subst hc
  have hpre := invokePreflight_pass env overlay gasTable cache tx invoke
    (Config.mk block.Timestamp block.Height) notify unitGas balance service0.CacheDB hu hbal
    h1 h2 h3
  rw [← ha] at hpre
  have hpre2 : invokePreflight env overlay gasTable cache tx invoke
      (Config.mk block.Timestamp block.Height) notify (invokeIsCharge env tx invoke block)
      = .ok (calcGasByCodeLen env invoke.length unitGas, a, service0.CacheDB) := by
    rw [hcharge]
    exact hpre
  obtain ⟨halt, hamul⟩ := available_bounds balance tx.GasPrice tx.GasLimit hb
  rw [← ha] at halt hamul
  have hcost : invokeCostGas env tx a sc1.GasLimit
      = max a env.MIN_TRANSACTION_GAS * tx.GasPrice % 2 ^ 64 := by
    rw [hzero, invokeCostGas_eq, Nat.sub_zero, Nat.add_mod_right, Nat.mod_eq_of_lt halt]
  have hhead := HandleInvoke_engine_error env overlay gasTable cache tx invoke block notify _ _
    _ engine v code sc1 hpre2 heng hrun
  rw [hcharge, hcost] at hhead
  simp only [if_true] at hhead
  refine ⟨?_, ?_, ?_, ?_⟩
  · intro result service hfee
    rw [hhead]
    exact failWithInvalidGas_of_call env tx.Payer _ _ overlay sc1.CacheDB notify _ result
      service hfee
  · intro result err service hfee
    rw [hhead]
    exact failWithInvalidGas_of_call_error env tx.Payer _ _ overlay sc1.CacheDB notify _
      result err service hfee
  · intro hge
    rw [Nat.max_eq_left hge]
    exact Nat.mod_eq_of_lt (by omega)
  · intro hlt hminfit
    rw [Nat.max_eq_right (Nat.le_of_lt hlt)]
    exact Nat.mod_eq_of_lt hminfit

/-- Claim C26 at concrete inputs: with gas limit 200 (at least the minimum 20), 1000
owned and price 2, the failing engine costs `available * price` = 400; the key the
engine wrote is in the work cache and not in the overlay, where the payer owns 600. -/
theorem C26_exhausted_budget_fee_64bit_witness :
    HandleInvokeTransaction sampleCrashLedgerEnv sampleOverlay sampleGasTable
      sampleLedgerCache sampleRichTx sampleInvokeCode sampleBlock sampleNotify
      = TxResult.mk (some (.engine 9))
          (CacheDB.Commit
            ((sampleLedgerCache.Put (sampleOngAddress ++ samplePayer) (leBytes 8 600)).Put
              (sampleOngAddress ++ sampleGovernanceAddress) (leBytes 8 400)) sampleOverlay)
          (sampleLedgerCache.Put [1] [1])
          (ExecuteNotify.mk CONTRACT_STATE_FAIL 400
            [NotifyEventInfo.mk sampleOngAddress (leBytes 8 400)]) ∧
    max 200 sampleCrashLedgerEnv.MIN_TRANSACTION_GAS * sampleRichTx.GasPrice % 2 ^ 64
      = 200 * sampleRichTx.GasPrice ∧
    (HandleInvokeTransaction sampleCrashLedgerEnv sampleOverlay sampleGasTable
      sampleLedgerCache sampleRichTx sampleInvokeCode sampleBlock sampleNotify).cache.Get [1]
      = some [1] ∧
    (HandleInvokeTransaction sampleCrashLedgerEnv sampleOverlay sampleGasTable
      sampleLedgerCache sampleRichTx sampleInvokeCode sampleBlock sampleNotify).overlay.db.Get
        [1] = none := by
  have h0 := C26_exhausted_budget_fee_64bit sampleCrashLedgerEnv sampleOverlay sampleGasTable
    sampleLedgerCache sampleRichTx sampleInvokeCode sampleBlock sampleNotify 10
    (leBytes 8 1000)
    ((NewNativeService (Config.mk 0 1) sampleLedgerCache).NativeCall
      sampleCrashLedgerEnv.host.Contracts sampleOngAddress [98] samplePayer).2
    1000 100 200 sampleFailingEngine none 9
    (sampleFailingEngine.Invoke (invokeContract sampleLedgerCache sampleBlock 100)).2
    (by decide) (by decide) (by decide) (by decide) (by decide) (by decide)
    (by decide) (by decide) (by decide) (by decide) (by decide) rfl rfl rfl
  have h := h0.1 [1]
    ((NewNativeService (Config.mk 0 1) sampleLedgerCache).NativeCall
      sampleCrashLedgerEnv.host.Contracts sampleOngAddress [116]
      (samplePayer ++ sampleGovernanceAddress ++ leBytes 8 400)).2
    (by decide)
  refine ⟨?_, h0.2.2.1 (by decide), by decide, by decide⟩
  rw [h]
  decide

end Ontology
